import Mathlib

/-!
Formal model of the Fence-Planner calculation engine
(`src/fence_calculator/utils.py`), verified against the natural-language
specification of the repository.

Embedding conventions:
* Python `Decimal` values are embedded as rationals (`ℚ`).  All monetary
  and length fields of the Django models are `DecimalField`s with two
  decimal places, so the predicate `Dec2` below characterises the values
  they can hold.
* `Decimal.quantize(Decimal('0.01'))` uses the context default rounding
  `ROUND_HALF_EVEN`; it is embedded as `quantize_2` built on the
  round-half-to-even function `roundHE`.
* `to_integral_value(rounding=ROUND_UP)` rounds away from zero; it is
  embedded as `round_up` (ceiling for non-negative arguments, floor for
  negative ones).  `Decimal` division carries 28 significant digits of
  precision; for the magnitudes representable in the models
  (`max_digits ≤ 12`) the rounded quotient and the exact rational
  quotient round to the same integer, so division is embedded exactly.
* Python `float` round-trips (`float(x)` followed by `Decimal(str(...))`)
  are identities for the two-decimal values produced by the engine and
  are embedded as identities.
* Django model rows are embedded as structures; `Material.objects.filter
  (name__iexact=..., is_active=True).first()` lookups are embedded as an
  explicit `Catalog` of optional materials, one field per fixed name the
  engine queries.  `price_overrides` keys are `str(material.id)`; since
  `str` is injective on ids the mapping is embedded with `ℕ` keys.
-/

namespace FencePlanner

/-! ## Decimal arithmetic primitives -/

/-- Round a rational to the nearest integer, ties to even: the default
`ROUND_HALF_EVEN` rounding of Python `Decimal` contexts. -/
def roundHE (x : ℚ) : ℤ :=
  if x - ⌊x⌋ < 1/2 then ⌊x⌋
  else if 1/2 < x - ⌊x⌋ then ⌊x⌋ + 1
  else if ⌊x⌋ % 2 = 0 then ⌊x⌋ else ⌊x⌋ + 1

/-- Embedding of `quantize_2` (utils.py line 10): round to two decimal
places, ties to even. -/
def quantize_2 (d : ℚ) : ℚ := (roundHE (d * 100) : ℚ) / 100

/-- Rounding away from zero: `to_integral_value(rounding=ROUND_UP)`. -/
def round_up (x : ℚ) : ℤ := if 0 ≤ x then ⌈x⌉ else ⌊x⌋

/-- Embedding of `ceil_div` (utils.py line 14): `(a / b)` rounded away
from zero (the ceiling on the non-negative quotients the engine feeds it). -/
def ceil_div (a b : ℚ) : ℤ := round_up (a / b)

/-- A rational representable as a two-decimal-place `Decimal`
(`DecimalField(decimal_places=2)`). -/
def Dec2 (x : ℚ) : Prop := ∃ n : ℤ, x = (n : ℚ) / 100

theorem roundHE_intCast (n : ℤ) : roundHE (n : ℚ) = n := by
  unfold roundHE
  norm_num

theorem roundHE_zero : roundHE 0 = 0 := by
  simpa using roundHE_intCast 0

theorem roundHE_le_floor_add_one (x : ℚ) : roundHE x ≤ ⌊x⌋ + 1 := by
  unfold roundHE
  split_ifs <;> omega

theorem floor_le_roundHE (x : ℚ) : ⌊x⌋ ≤ roundHE x := by
  unfold roundHE
  split_ifs <;> omega

theorem roundHE_mono {x y : ℚ} (h : x ≤ y) : roundHE x ≤ roundHE y := by
  rcases lt_or_eq_of_le (Int.floor_le_floor h) with hf | hf
  · calc roundHE x ≤ ⌊x⌋ + 1 := roundHE_le_floor_add_one x
      _ ≤ ⌊y⌋ := by omega
      _ ≤ roundHE y := floor_le_roundHE y
  · have hxy : x - (⌊x⌋ : ℚ) ≤ y - (⌊y⌋ : ℚ) := by
      rw [← hf]
      linarith
    unfold roundHE
    rw [← hf]
    split_ifs <;> first | omega | linarith

theorem roundHE_nonneg {x : ℚ} (h : 0 ≤ x) : 0 ≤ roundHE x := by
  have := roundHE_mono h
  rwa [roundHE_zero] at this

theorem quantize_2_intDiv (n : ℤ) : quantize_2 ((n : ℚ) / 100) = (n : ℚ) / 100 := by
  unfold quantize_2
  rw [div_mul_cancel₀ _ (by norm_num : (100 : ℚ) ≠ 0), roundHE_intCast]

theorem quantize_2_dec2 (x : ℚ) : Dec2 (quantize_2 x) := ⟨roundHE (x * 100), rfl⟩

theorem quantize_2_of_dec2 {x : ℚ} (h : Dec2 x) : quantize_2 x = x := by
  obtain ⟨n, rfl⟩ := h
  exact quantize_2_intDiv n

theorem quantize_2_zero : quantize_2 0 = 0 := by
  simpa using quantize_2_intDiv 0

theorem quantize_2_mono {x y : ℚ} (h : x ≤ y) : quantize_2 x ≤ quantize_2 y := by
  unfold quantize_2
  have := roundHE_mono (by linarith : x * 100 ≤ y * 100)
  have hc : (roundHE (x * 100) : ℚ) ≤ (roundHE (y * 100) : ℚ) := by exact_mod_cast this
  linarith

theorem quantize_2_nonneg {x : ℚ} (h : 0 ≤ x) : 0 ≤ quantize_2 x := by
  have := quantize_2_mono h
  rwa [quantize_2_zero] at this

theorem quantize_2_pos_of_dec2 {x : ℚ} (h : Dec2 x) (hx : 0 < x) : 0 < quantize_2 x := by
  rwa [quantize_2_of_dec2 h]

theorem dec2_add {x y : ℚ} (hx : Dec2 x) (hy : Dec2 y) : Dec2 (x + y) := by
  obtain ⟨n, rfl⟩ := hx
  obtain ⟨m, rfl⟩ := hy
  exact ⟨n + m, by push_cast; ring⟩

theorem round_up_mono {x y : ℚ} (h : x ≤ y) : round_up x ≤ round_up y := by
  unfold round_up
  split <;> split
  · exact Int.ceil_le_ceil h
  · linarith
  · calc (⌊x⌋ : ℤ) ≤ 0 := by
          have : x < 0 := by linarith
          exact Int.floor_nonpos this.le
      _ ≤ ⌈y⌉ := Int.ceil_nonneg (by linarith)
  · exact Int.floor_le_floor h

theorem round_up_eq_ceil {x : ℚ} (h : 0 ≤ x) : round_up x = ⌈x⌉ := by
  unfold round_up
  simp [h]

theorem round_up_zero : round_up 0 = 0 := by
  simp [round_up]

theorem round_up_nonneg {x : ℚ} (h : 0 ≤ x) : 0 ≤ round_up x := by
  have := round_up_mono h
  rwa [round_up_zero] at this

theorem round_up_pos {x : ℚ} (h : 0 < x) : 1 ≤ round_up x := by
  rw [round_up_eq_ceil h.le]
  exact_mod_cast Int.ceil_pos.mpr h

theorem ceil_div_mono {a b c : ℚ} (hb : 0 < b) (h : a ≤ c) :
    ceil_div a b ≤ ceil_div c b := by
  unfold ceil_div
  exact round_up_mono ((div_le_div_iff_of_pos_right hb).mpr h)

theorem ceil_div_nonneg {a b : ℚ} (ha : 0 ≤ a) (hb : 0 ≤ b) : 0 ≤ ceil_div a b :=
  round_up_nonneg (div_nonneg ha hb)

theorem ceil_div_pos {a b : ℚ} (ha : 0 < a) (hb : 0 < b) : 1 ≤ ceil_div a b :=
  round_up_pos (div_pos ha hb)

theorem ceil_div_zero_left (b : ℚ) : ceil_div 0 b = 0 := by
  simp [ceil_div, round_up]

theorem ceil_div_eq_ceil {a b : ℚ} (ha : 0 ≤ a) (hb : 0 < b) :
    ceil_div a b = ⌈a / b⌉ :=
  round_up_eq_ceil (div_nonneg ha hb.le)

/-! ## Data model (models.py) -/

/-- Embedding of the `Material` model rows read by the engine: identity,
name, default price, nullable current price, nullable roll length
(models.py lines 16-28).  Fields the engine never reads are omitted. -/
structure Material where
  id : ℕ
  name : String
  default_price : ℚ
  current_price : Option ℚ
  roll_length : Option ℚ
deriving DecidableEq, Repr

/-- Embedding of the `FenceType` model rows read by the engine
(models.py lines 64-91). -/
structure FenceType where
  post_spacing : ℚ
  wire_count : ℕ
  requires_strainers : Bool
  post_material : Option Material
  wire_material : Option Material
  barb_wire_material : Option Material
  netting_material : Option Material
deriving DecidableEq, Repr

/-- The fixed-name active-material catalog lookups the engine performs via
`Material.objects.filter(name__iexact=..., is_active=True).first()`:
one field per queried name. -/
structure Catalog where
  staples_mat : Option Material
  bullnose_mat : Option Material
  claw_mat : Option Material
  strainer_mat : Option Material
  stay_posts_mat : Option Material
  deer_posts_mat : Option Material
  triplex_mat : Option Material
  outrigger_wire_mat : Option Material
  outrigger_insulator_mat : Option Material
  outrigger_connector_mat : Option Material
deriving DecidableEq, Repr

/-- Ambient Django settings read by the engine (settings.py lines 78-91,
with the `getattr` defaults from utils.py). -/
structure Settings where
  WIRE_ROLL_LENGTH : ℚ
  LABOR_RATE_PER_HOUR : ℚ
  BUILD_RATE_METERS_PER_HOUR : ℚ
  STAPLES_ENABLED : Bool
  STAPLES_MATERIAL_NAME : String
  STAPLES_PER_BOX : ℤ
  STAPLES_DEFAULT_PRICE : ℚ
  STAPLES_PER_WIRE_PER_LINE_POST : ℤ
  STAPLES_PER_WIRE_PER_END_POST : ℤ
  STAPLES_PER_POST_FOR_NETTING : ℤ
deriving DecidableEq, Repr

/-- The keyword arguments of `calculate_fence_requirements`
(utils.py lines 19-35).  `price_overrides` keys are `str(material.id)`,
embedded with the (injectively corresponding) numeric ids. -/
structure Request where
  fence_length : ℚ
  labor_rate : Option ℚ
  build_rate : Option ℚ
  price_overrides : List (ℕ × ℚ)
  top_wire_type : Option String
  post_spacing_override : Option ℚ
  wire_count_override : Option ℤ
  hot_wire_count : Option ℤ
  staples_per_box : Option ℤ
  netting_type : String
  electric_outrigger : Bool
deriving DecidableEq, Repr

/-- One entry of the `material_costs` mapping: a keyed bill-of-materials
line `{material, unit_price, quantity, cost}`. -/
structure Item where
  material : String
  unit_price : ℚ
  quantity : ℚ
  cost : ℚ
deriving DecidableEq, Repr

/-- All inputs of one engine invocation bundled together. -/
structure Inputs where
  ft : FenceType
  cat : Catalog
  stg : Settings
  rq : Request
deriving DecidableEq, Repr

/-! ## Material pricing resolver -/

/-- First-match association lookup, embedding `dict` key membership for
the override mapping. -/
def lookupOverride : List (ℕ × ℚ) → ℕ → Option ℚ
  | [], _ => none
  | (k, v) :: rest, i => if k = i then some v else lookupOverride rest i

/-- Embedding of `Decimal(material.current_price or material.default_price)`
(utils.py line 120).  Python `or` treats `Decimal('0')` as falsy, so a
current price of exactly 0 falls back to the default price. -/
def currentOrDefault (m : Material) : ℚ :=
  match m.current_price with
  | some c => if c = 0 then m.default_price else c
  | none => m.default_price

/-- Embedding of the closure `eff_price` (utils.py lines 114-120). -/
def eff_price (overrides : List (ℕ × ℚ)) (m? : Option Material) : ℚ :=
  match m? with
  | none => 0
  | some m =>
    match lookupOverride overrides m.id with
    | some p => p
    | none => currentOrDefault m

/-- Embedding of the closure `get_roll_length` (utils.py lines 80-83).
Python truthiness: a missing material, a missing roll length and a roll
length of 0 all fall back to `settings.WIRE_ROLL_LENGTH`. -/
def get_roll_length (stg : Settings) (m? : Option Material) : ℚ :=
  match m? with
  | some m =>
    match m.roll_length with
    | some r => if r = 0 then stg.WIRE_ROLL_LENGTH else r
    | none => stg.WIRE_ROLL_LENGTH
  | none => stg.WIRE_ROLL_LENGTH

/-! ## String primitives

Python `str.lower()` and `str.strip()` are embedded by structurally
recursive functions over the character list (the library `String.toLower`
and `String.trim` are not kernel-reducible). -/

/-- Embedding of Python `str.lower()` (ASCII case folding). -/
def strLower (s : String) : String := ⟨s.data.map Char.toLower⟩

/-- The whitespace characters stripped by Python `str.strip()`. -/
def isPyWS (c : Char) : Bool :=
  c = ' ' ∨ c = '\t' ∨ c = '\n' ∨ c = '\r' ∨ c = '\x0b' ∨ c = '\x0c'

/-- Embedding of Python `str.strip()`. -/
def strStrip (s : String) : String :=
  ⟨((s.data.dropWhile isPyWS).reverse.dropWhile isPyWS).reverse⟩

/-! ## Wire and quantity planner (utils.py lines 38-111) -/

/-- Effective post spacing (line 39).  Python truthiness: an override of
`Decimal('0')` is falsy and falls back to the fence type's spacing. -/
def spacing (I : Inputs) : ℚ :=
  match I.rq.post_spacing_override with
  | some s => if s = 0 then I.ft.post_spacing else s
  | none => I.ft.post_spacing

/-- Posts required (line 40): `ceil_div(fence_length, spacing) + 1`. -/
def posts_required (I : Inputs) : ℤ := ceil_div I.rq.fence_length (spacing I) + 1

/-- Normalized netting type (lines 42-44): lowercased, unrecognized
values fall back to `"none"`. -/
def netting_norm (I : Inputs) : String :=
  if strLower I.rq.netting_type = "none" ∨ strLower I.rq.netting_type = "sheep" ∨
      strLower I.rq.netting_type = "deer" then
    strLower I.rq.netting_type
  else "none"

/-- Netting display height (lines 46-52). -/
def netting_height_cm (I : Inputs) : Option ℚ :=
  if netting_norm I = "deer" then some 200
  else if netting_norm I = "sheep" then some 120
  else none

/-- Normalized top-wire type (lines 55-57). -/
def twt (I : Inputs) : String :=
  if strLower (I.rq.top_wire_type.getD "standard") = "standard" ∨
      strLower (I.rq.top_wire_type.getD "standard") = "hot" ∨
      strLower (I.rq.top_wire_type.getD "standard") = "barb" then
    strLower (I.rq.top_wire_type.getD "standard")
  else "standard"

/-- Total wire count (lines 60-63): the override clamped at 0 when
supplied, else the fence type's wire count. -/
def total_wires (I : Inputs) : ℤ :=
  match I.rq.wire_count_override with
  | some w => max w 0
  | none => (I.ft.wire_count : ℤ)

/-- Special (hot/barb) wire count (lines 64-73).  Python truthiness: a
`hot_wire_count` of 0 is falsy and behaves like an absent one. -/
def special_wires (I : Inputs) : ℤ :=
  match I.rq.hot_wire_count with
  | some h =>
    if twt I = "hot" ∧ h ≠ 0 ∧ total_wires I > 0 then min h (total_wires I)
    else if twt I = "barb" ∧ total_wires I > 0 then 1
    else if twt I = "hot" ∧ total_wires I > 0 then 1
    else 0
  | none =>
    if twt I = "barb" ∧ total_wires I > 0 then 1
    else if twt I = "hot" ∧ total_wires I > 0 then 1
    else 0

/-- Standard wire count (line 74). -/
def standard_wires (I : Inputs) : ℤ := max (total_wires I - special_wires I) 0

/-- Standard wire length in meters (line 76). -/
def standard_wire_len_m (I : Inputs) : ℚ :=
  quantize_2 ((standard_wires I : ℚ) * I.rq.fence_length)

/-- Special wire length in meters (line 77). -/
def special_wire_len_m (I : Inputs) : ℚ :=
  quantize_2 ((special_wires I : ℚ) * I.rq.fence_length)

/-- Standard wire rolls (lines 85-88): 0 unless the length is positive
and the fence type has a wire material. -/
def standard_wire_rolls (I : Inputs) : ℚ :=
  if 0 < standard_wire_len_m I ∧ I.ft.wire_material.isSome then
    (ceil_div (standard_wire_len_m I) (get_roll_length I.stg I.ft.wire_material) : ℚ)
  else 0

/-- Special wire material before the combination step (lines 90-98):
`None` unless the special length is positive; hot wire reuses the
standard wire material, barb wire uses the dedicated barb material with
fallback to the standard wire material. -/
def special_wire_material0 (I : Inputs) : Option Material :=
  if 0 < special_wire_len_m I then
    if twt I = "hot" then I.ft.wire_material
    else if twt I = "barb" then
      match I.ft.barb_wire_material with
      | some b => some b
      | none => I.ft.wire_material
    else none
  else none

/-- Special wire rolls before the combination step (lines 90-102). -/
def special_wire_rolls0 (I : Inputs) : ℚ :=
  if 0 < special_wire_len_m I then
    match special_wire_material0 I with
    | some m => (ceil_div (special_wire_len_m I) (get_roll_length I.stg (some m)) : ℚ)
    | none => 0
  else 0

/-- Total wire length over all wires (line 104). -/
def wire_length_meters (I : Inputs) : ℚ :=
  quantize_2 ((total_wires I : ℚ) * I.rq.fence_length)

/-- The wire-combination test (lines 138-139): the special wire material
is present and has the same identity as the standard wire material. -/
def wire_combined (I : Inputs) : Bool :=
  match special_wire_material0 I, I.ft.wire_material with
  | some sm, some wm => sm.id = wm.id
  | _, _ => false

/-- Standard wire rolls after combining (lines 135-143). -/
def total_standard_wire_rolls (I : Inputs) : ℚ :=
  if wire_combined I then standard_wire_rolls I + special_wire_rolls0 I
  else standard_wire_rolls I

/-- Special wire rolls after combining (line 142): reset to 0 when merged
into the standard entry. -/
def special_wire_rolls (I : Inputs) : ℚ :=
  if wire_combined I then 0 else special_wire_rolls0 I

/-- Special wire material after combining (line 143). -/
def special_wire_material (I : Inputs) : Option Material :=
  if wire_combined I then none else special_wire_material0 I

/-- Total wire rolls required, computed after the combining logic
(line 166). -/
def wire_rolls_required (I : Inputs) : ℚ :=
  total_standard_wire_rolls I + special_wire_rolls I

/-! ## Labor (utils.py lines 107-111) -/

/-- Labor rate (line 108): `is not None` test, so 0 is honored. -/
def lr (I : Inputs) : ℚ := I.rq.labor_rate.getD I.stg.LABOR_RATE_PER_HOUR

/-- Build rate (line 109). -/
def br (I : Inputs) : ℚ := I.rq.build_rate.getD I.stg.BUILD_RATE_METERS_PER_HOUR

/-- Labor hours (line 110). -/
def labor_hours (I : Inputs) : ℚ := quantize_2 (I.rq.fence_length / br I)

/-- Labor cost (line 111). -/
def labor_cost (I : Inputs) : ℚ := quantize_2 (labor_hours I * lr I)

/-! ## Line-item builder (utils.py lines 122-327) -/

/-- Overrides of the current request, as passed to `eff_price`. -/
def ov (I : Inputs) : List (ℕ × ℚ) := I.rq.price_overrides

/-- Posts line item (lines 125-132). -/
def posts_item (I : Inputs) : Option (String × Item) :=
  match I.ft.post_material with
  | some pm =>
    let p := eff_price (ov I) (some pm)
    some ("posts", ⟨pm.name, quantize_2 p, (posts_required I : ℚ),
      quantize_2 (p * (posts_required I : ℚ))⟩)
  | none => none

/-- Standard wire line item, possibly merged with the special wire
(lines 146-153). -/
def wire_standard_item (I : Inputs) : Option (String × Item) :=
  match I.ft.wire_material with
  | some wm =>
    if 0 < total_standard_wire_rolls I then
      let p := eff_price (ov I) (some wm)
      some ("wire_standard", ⟨wm.name, quantize_2 p, total_standard_wire_rolls I,
        quantize_2 (p * total_standard_wire_rolls I)⟩)
    else none
  | none => none

/-- Separate special wire line item, only when distinct from the
standard wire material (lines 156-163). -/
def wire_top_item (I : Inputs) : Option (String × Item) :=
  if 0 < special_wire_rolls I then
    match special_wire_material I with
    | some sm =>
      let p := eff_price (ov I) (some sm)
      some ("wire_top_" ++ twt I, ⟨sm.name, quantize_2 p, special_wire_rolls I,
        quantize_2 (p * special_wire_rolls I)⟩)
    | none => none
  else none

/-- Netting roll length (lines 173-174): the netting material's roll
length, falling back (by truthiness) to 50 m. -/
def netting_roll_length (nm : Material) : ℚ :=
  match nm.roll_length with
  | some r => if r = 0 then 50 else r
  | none => 50

/-- Netting rolls required (lines 170-175): 0 when the fence type has no
netting material. -/
def netting_rolls_required (I : Inputs) : ℚ :=
  match I.ft.netting_material with
  | some nm => (ceil_div I.rq.fence_length (netting_roll_length nm) : ℚ)
  | none => 0

/-- Netting line item (lines 171-182). -/
def netting_item (I : Inputs) : Option (String × Item) :=
  match I.ft.netting_material with
  | some nm =>
    if 0 < netting_rolls_required I then
      let p := eff_price (ov I) (some nm)
      some ("netting", ⟨nm.name, quantize_2 p, netting_rolls_required I,
        quantize_2 (p * netting_rolls_required I)⟩)
    else none
  | none => none

/-- Wires eligible for stapling (line 188): all wires, or only the
standard wires when the top wire is hot. -/
def stapled_wires (I : Inputs) : ℤ :=
  if twt I ≠ "hot" then total_wires I else standard_wires I

/-- End posts (line 190). -/
def end_posts (I : Inputs) : ℤ :=
  if posts_required I ≥ 2 then 2 else posts_required I

/-- Line posts (line 191). -/
def line_posts (I : Inputs) : ℤ := max (posts_required I - end_posts I) 0

/-- Line-post staples (line 197). -/
def line_staples (I : Inputs) : ℤ :=
  line_posts I * stapled_wires I * I.stg.STAPLES_PER_WIRE_PER_LINE_POST

/-- End-post staples (line 198). -/
def end_staples (I : Inputs) : ℤ :=
  end_posts I * stapled_wires I * I.stg.STAPLES_PER_WIRE_PER_END_POST

/-- Netting staples (line 199): only when the fence type has a netting
material. -/
def netting_staples (I : Inputs) : ℤ :=
  if I.ft.netting_material.isSome then
    posts_required I * I.stg.STAPLES_PER_POST_FOR_NETTING
  else 0

/-- Total staples (line 200). -/
def total_staples (I : Inputs) : ℤ :=
  line_staples I + end_staples I + netting_staples I

/-- Staples per box used (line 202): the override when positive
(a zero override is falsy), else the configured default. -/
def spb (I : Inputs) : ℤ :=
  match I.rq.staples_per_box with
  | some k => if k ≠ 0 ∧ 0 < k then k else I.stg.STAPLES_PER_BOX
  | none => I.stg.STAPLES_PER_BOX

/-- Boxes of staples (line 203). -/
def boxes (I : Inputs) : ℤ :=
  if 0 < spb I then round_up ((total_staples I : ℚ) / (spb I : ℚ)) else 0

/-- Counts grouped into `staple_counts` (lines 204-211), present exactly
when staples are enabled. -/
structure StapleCounts where
  staples_per_box_used : ℤ
  line_staples : ℤ
  end_staples : ℤ
  netting_staples : ℤ
  total_staples : ℤ
  boxes : ℤ
deriving DecidableEq, Repr

/-- The `staple_counts` diagnostic substructure (lines 185-211): the
empty dict (embedded as `none`) when staples are disabled. -/
def staple_counts (I : Inputs) : Option StapleCounts :=
  if I.stg.STAPLES_ENABLED then
    some ⟨spb I, line_staples I, end_staples I, netting_staples I,
      total_staples I, boxes I⟩
  else none

/-- Staples line item (lines 213-227): when the catalog has no staples
material the configured default price and name are used, and the line is
still emitted whenever `boxes > 0`. -/
def staples_item (I : Inputs) : Option (String × Item) :=
  if I.stg.STAPLES_ENABLED ∧ 0 < boxes I then
    match I.cat.staples_mat with
    | some sm =>
      let p := eff_price (ov I) (some sm)
      some ("staples", ⟨sm.name, quantize_2 p, (boxes I : ℚ),
        quantize_2 (p * (boxes I : ℚ))⟩)
    | none =>
      let p := I.stg.STAPLES_DEFAULT_PRICE
      some ("staples", ⟨I.stg.STAPLES_MATERIAL_NAME, quantize_2 p, (boxes I : ℚ),
        quantize_2 (p * (boxes I : ℚ))⟩)
  else none

/-- Hot wires counted for insulators (line 233). -/
def num_hot_wires (I : Inputs) : ℤ := special_wires I

/-- Bullnose insulators per hot wire (line 235). -/
def bullnose_per_wire (I : Inputs) : ℤ :=
  if posts_required I ≥ 2 then 2 else max (posts_required I) 0

/-- Claw insulators per hot wire (line 236). -/
def claw_per_wire (I : Inputs) : ℤ := max (posts_required I - 2) 0

/-- Bullnose insulator quantity (line 237). -/
def bullnose_qty (I : Inputs) : ℤ := bullnose_per_wire I * num_hot_wires I

/-- Claw insulator quantity (line 238). -/
def claw_qty (I : Inputs) : ℤ := claw_per_wire I * num_hot_wires I

/-- The `insulator_counts` diagnostic substructure (lines 230-239),
present exactly when the top wire is hot. -/
structure InsulatorCounts where
  bullnose : ℤ
  claw : ℤ
  hot_wires : ℤ
deriving DecidableEq, Repr

def insulator_counts (I : Inputs) : Option InsulatorCounts :=
  if twt I = "hot" then some ⟨bullnose_qty I, claw_qty I, num_hot_wires I⟩
  else none

/-- Display label of an insulator line (lines 245-249 and 260-264). -/
def insulator_label (name : String) (n : ℤ) : String :=
  if 1 < n then name ++ " (for " ++ toString n ++ " hot wires)"
  else if n = 1 then name ++ " (for hot wire)"
  else name

/-- Bullnose insulator line item (lines 241-255). -/
def bullnose_item (I : Inputs) : Option (String × Item) :=
  if twt I = "hot" then
    match I.cat.bullnose_mat with
    | some bm =>
      if 0 < bullnose_qty I then
        let p := eff_price (ov I) (some bm)
        some ("insulators_bullnose", ⟨insulator_label bm.name (num_hot_wires I),
          quantize_2 p, (bullnose_qty I : ℚ), quantize_2 (p * (bullnose_qty I : ℚ))⟩)
      else none
    | none => none
  else none

/-- Claw insulator line item (lines 257-270). -/
def claw_item (I : Inputs) : Option (String × Item) :=
  if twt I = "hot" then
    match I.cat.claw_mat with
    | some cm =>
      if 0 < claw_qty I then
        let p := eff_price (ov I) (some cm)
        some ("insulators_claw", ⟨insulator_label cm.name (num_hot_wires I),
          quantize_2 p, (claw_qty I : ℚ), quantize_2 (p * (claw_qty I : ℚ))⟩)
      else none
    | none => none
  else none

/-- Strainer/stay-post interval (lines 273 and 305): 50 m for deer
netting, 100 m otherwise. -/
def interval_m (I : Inputs) : ℚ := if netting_norm I = "deer" then 50 else 100

/-- Recommended strainer total (lines 274-276): interval ceiling, floored
at 2 when the fence length is positive. -/
def total_recommended_strainers (I : Inputs) : ℤ :=
  let t := round_up (I.rq.fence_length / interval_m I)
  if 0 < I.rq.fence_length then max t 2 else t

/-- Intermediate strainers (lines 278-280). -/
def additional_strainers (I : Inputs) : ℤ :=
  max (total_recommended_strainers I - 2) 0

/-- The `strainer_recommendation` diagnostic substructure
(lines 282-287). -/
structure StrainerInfo where
  terrain : String
  interval_meters_used : ℚ
  recommended_strainers_total : ℤ
  recommended_strainers_intermediate : ℤ
deriving DecidableEq, Repr

def strainer_recommendation (I : Inputs) : StrainerInfo :=
  ⟨"standard", interval_m I, total_recommended_strainers I, additional_strainers I⟩

/-- Strainers line item (lines 289-299): emitted whenever the fence type
requires strainers and the catalog material exists. -/
def strainers_item (I : Inputs) : Option (String × Item) :=
  if I.ft.requires_strainers then
    match I.cat.strainer_mat with
    | some sm =>
      let p := eff_price (ov I) (some sm)
      let qty := total_recommended_strainers I
      some ("strainers", ⟨sm.name, quantize_2 p, (qty : ℚ), quantize_2 (p * (qty : ℚ))⟩)
    | none => none
  else none

/-- Stay-post material (lines 302-304): for deer netting the dedicated
deer posts when available, else the standard stay posts. -/
def stay_posts_mat (I : Inputs) : Option Material :=
  if netting_norm I = "deer" then
    match I.cat.deer_posts_mat with
    | some dm => some dm
    | none => I.cat.stay_posts_mat
  else I.cat.stay_posts_mat

/-- Stay-post quantity (lines 307-308). -/
def stay_posts_qty (I : Inputs) : ℤ :=
  max (round_up (I.rq.fence_length / interval_m I)) 2

/-- Stay-posts line item (lines 306-315). -/
def stay_posts_item (I : Inputs) : Option (String × Item) :=
  match stay_posts_mat I with
  | some sm =>
    if 0 < I.rq.fence_length then
      let p := eff_price (ov I) (some sm)
      some ("stay_posts", ⟨sm.name, quantize_2 p, (stay_posts_qty I : ℚ),
        quantize_2 (p * (stay_posts_qty I : ℚ))⟩)
    else none
  | none => none

/-- Triplex quantity (line 320). -/
def triplex_qty (I : Inputs) : ℤ := round_up (I.rq.fence_length / 500)

/-- Triplex line item (lines 318-327). -/
def triplex_item (I : Inputs) : Option (String × Item) :=
  match I.cat.triplex_mat with
  | some tm =>
    if 0 < I.rq.fence_length then
      let p := eff_price (ov I) (some tm)
      some ("triplex", ⟨tm.name, quantize_2 p, (triplex_qty I : ℚ),
        quantize_2 (p * (triplex_qty I : ℚ))⟩)
    else none
  | none => none

/-! ## Aggregation and outrigger (utils.py lines 329-400) -/

/-- The state of `material_costs` at line 329, when the totals are
computed: all line items inserted so far, in insertion order. -/
def base_material_costs (I : Inputs) : List (String × Item) :=
  (posts_item I).toList ++ (wire_standard_item I).toList ++ (wire_top_item I).toList ++
  (netting_item I).toList ++ (staples_item I).toList ++ (bullnose_item I).toList ++
  (claw_item I).toList ++ (strainers_item I).toList ++ (stay_posts_item I).toList ++
  (triplex_item I).toList

/-- Sum of the `cost` fields of a list of line items (the loop at
lines 330-331; the `float`/`str`/`Decimal` round-trip is exact on the
two-decimal costs the engine produces). -/
def costSum (l : List (String × Item)) : ℚ := (l.map (fun kv => kv.2.cost)).sum

/-- Total material cost (lines 329-332) — computed over the line items
present at that point, i.e. before the outrigger block runs. -/
def total_material_cost (I : Inputs) : ℚ := quantize_2 (costSum (base_material_costs I))

/-- Grand total (line 334). -/
def total_cost (I : Inputs) : ℚ := quantize_2 (total_material_cost I + labor_cost I)

/-- Outrigger wire material (lines 339-341): the catalog entry, falling
back to the fence type's wire material. -/
def outrigger_wire_mat (I : Inputs) : Option Material :=
  match I.cat.outrigger_wire_mat with
  | some m => some m
  | none => I.ft.wire_material

/-- Outrigger wire rolls (lines 344-345). -/
def outrigger_rolls (I : Inputs) : ℚ :=
  (ceil_div I.rq.fence_length (get_roll_length I.stg (outrigger_wire_mat I)) : ℚ)

/-- Outrigger wire line item (lines 338-353). -/
def outrigger_wire_item (I : Inputs) : Option (String × Item) :=
  if I.rq.electric_outrigger then
    match outrigger_wire_mat I with
    | some m =>
      let p := eff_price (ov I) (some m)
      some ("outrigger_wire", ⟨m.name, quantize_2 p, outrigger_rolls I,
        quantize_2 (p * outrigger_rolls I)⟩)
    | none => none
  else none

/-- Outrigger insulator line item (lines 355-365): one insulator per
post. -/
def outrigger_insulators_item (I : Inputs) : Option (String × Item) :=
  if I.rq.electric_outrigger then
    match I.cat.outrigger_insulator_mat with
    | some m =>
      let p := eff_price (ov I) (some m)
      some ("outrigger_insulators", ⟨m.name, quantize_2 p, (posts_required I : ℚ),
        quantize_2 (p * (posts_required I : ℚ))⟩)
    | none => none
  else none

/-- Outrigger connector quantity (line 369): `max(2, posts // 50 + 1)`
(the `int(posts/50)` float truncation equals integer division on the
representable post counts). -/
def connector_qty (I : Inputs) : ℤ := max 2 (posts_required I / 50 + 1)

/-- Outrigger connector line item (lines 367-377). -/
def outrigger_connectors_item (I : Inputs) : Option (String × Item) :=
  if I.rq.electric_outrigger then
    match I.cat.outrigger_connector_mat with
    | some m =>
      let p := eff_price (ov I) (some m)
      some ("outrigger_connectors", ⟨m.name, quantize_2 p, (connector_qty I : ℚ),
        quantize_2 (p * (connector_qty I : ℚ))⟩)
    | none => none
  else none

/-- The `electric_outrigger_details` substructure (lines 337-377). -/
structure OutriggerDetails where
  wire_rolls : Option ℚ
  insulators : Option ℤ
  connectors : Option ℤ
deriving DecidableEq, Repr

def electric_outrigger_details (I : Inputs) : OutriggerDetails :=
  ⟨if (outrigger_wire_item I).isSome then some (outrigger_rolls I) else none,
   if (outrigger_insulators_item I).isSome then some (posts_required I) else none,
   if (outrigger_connectors_item I).isSome then some (connector_qty I) else none⟩

/-- The final `material_costs` mapping as returned (line 389): the base
line items followed by any outrigger line items. -/
def material_costs (I : Inputs) : List (String × Item) :=
  base_material_costs I ++ (outrigger_wire_item I).toList ++
  (outrigger_insulators_item I).toList ++ (outrigger_connectors_item I).toList

/-- The engine's returned record (lines 379-400). -/
structure Result where
  posts_required : ℤ
  post_spacing_used : ℚ
  wire_count_used : ℤ
  wire_length_meters : ℚ
  wire_rolls_required : ℚ
  labor_hours : ℚ
  labor_rate_per_hour : ℚ
  build_rate_per_hour : ℚ
  labor_cost : ℚ
  material_costs : List (String × Item)
  total_material_cost : ℚ
  total_cost : ℚ
  insulator_counts : Option InsulatorCounts
  strainer_recommendation : StrainerInfo
  staple_counts : Option StapleCounts
  netting_type : String
  netting_height_cm : Option ℚ
  netting_rolls_required : ℚ
  electric_outrigger : Bool
  electric_outrigger_details : OutriggerDetails
deriving DecidableEq, Repr

/-- Embedding of `calculate_fence_requirements` (utils.py lines 19-400). -/
def calculate_fence_requirements (I : Inputs) : Result where
  posts_required := posts_required I
  post_spacing_used := quantize_2 (spacing I)
  wire_count_used := total_wires I
  wire_length_meters := wire_length_meters I
  wire_rolls_required := wire_rolls_required I
  labor_hours := labor_hours I
  labor_rate_per_hour := lr I
  build_rate_per_hour := br I
  labor_cost := labor_cost I
  material_costs := material_costs I
  total_material_cost := total_material_cost I
  total_cost := total_cost I
  insulator_counts := insulator_counts I
  strainer_recommendation := strainer_recommendation I
  staple_counts := staple_counts I
  netting_type := netting_norm I
  netting_height_cm := netting_height_cm I
  netting_rolls_required := netting_rolls_required I
  electric_outrigger := I.rq.electric_outrigger
  electric_outrigger_details := electric_outrigger_details I

/-! ## Display combiner (utils.py lines 413-450)

The source keeps two dicts: `combined` (output key → item) and
`index_by_norm` (normalized name → output key).  Both only grow, in
lockstep, in the else-branch; the update branch mutates an existing
`combined` entry in place.  They are embedded as two association lists
and the recursion returns both, so that theorems can name the normalized
group name attached to each output entry. -/

/-- Embedding of the inner `norm` (lines 422-424): trim whitespace and
lowercase. -/
def normName (name : String) : String := strLower (strStrip name)

/-- First-match association lookup on string keys (dict membership of
`index_by_norm`). -/
def lookupStr : List (String × String) → String → Option String
  | [], _ => none
  | (k, v) :: rest, s => if k = s then some v else lookupStr rest s

/-- In-place update of the existing entry for `k` (lines 435-438): add
the new quantity and cost, keep material, unit price and position. -/
def updateEntry (l : List (String × Item)) (k : String) (q c : ℚ) :
    List (String × Item) :=
  l.map fun kv =>
    if kv.1 = k then
      (kv.1, ⟨kv.2.material, kv.2.unit_price, kv.2.quantity + q, kv.2.cost + c⟩)
    else kv

/-- The loop of `combine_duplicate_materials` (lines 426-448), returning
the `combined` mapping together with `index_by_norm`. -/
def combineAuxP :
    List (String × Item) → List (String × Item) → List (String × String) →
    List (String × Item) × List (String × String)
  | [], acc, idx => (acc, idx)
  | (key, item) :: rest, acc, idx =>
    match lookupStr idx (normName item.material) with
    | some existing_key =>
      combineAuxP rest (updateEntry acc existing_key item.quantity item.cost) idx
    | none =>
      combineAuxP rest
        (acc ++ [(key, ⟨strStrip item.material, item.unit_price, item.quantity, item.cost⟩)])
        (idx ++ [(normName item.material, key)])

/-- Embedding of `combine_duplicate_materials` (lines 413-450). -/
def combine_duplicate_materials (mc : List (String × Item)) : List (String × Item) :=
  (combineAuxP mc [] []).1

/-- The final `index_by_norm` of the combiner run: the normalized group
name of each output entry, in output order. -/
def combine_index (mc : List (String × Item)) : List (String × String) :=
  (combineAuxP mc [] []).2

/-! ## Helpers for stating the claims -/

/-- First-match lookup of a role key in a `material_costs` mapping. -/
def lookupKey : List (String × Item) → String → Option Item
  | [], _ => none
  | (k, it) :: rest, s => if k = s then some it else lookupKey rest s

/-- Wire-role keys: the line items produced by the wire builder of §4.3
(`wire_standard` and the two `wire_top_*` keys). -/
def isWireRoleKey (k : String) : Bool :=
  k = "wire_standard" ∨ k = "wire_top_hot" ∨ k = "wire_top_barb"

/-- Number of wire-role line items in a mapping. -/
def wireRoleCount (l : List (String × Item)) : ℕ :=
  (l.filter (fun kv => isWireRoleKey kv.1)).length

/-- Sum of the quantities of the entries whose normalized material name
is `n`. -/
def sumQtyN (n : String) (mc : List (String × Item)) : ℚ :=
  ((mc.filter (fun kv => normName kv.2.material = n)).map (fun kv => kv.2.quantity)).sum

/-- Sum of the costs of the entries whose normalized material name is
`n`. -/
def sumCostN (n : String) (mc : List (String × Item)) : ℚ :=
  ((mc.filter (fun kv => normName kv.2.material = n)).map (fun kv => kv.2.cost)).sum

/-- The first entry of `mc` whose normalized material name is `n`. -/
def firstWithNorm (n : String) (mc : List (String × Item)) : Option (String × Item) :=
  mc.find? (fun kv => normName kv.2.material = n)

/-! ## Structural lemmas about the assembled mapping -/

@[simp]
theorem lookupKey_nil (k : String) : lookupKey [] k = none := rfl

@[simp]
theorem lookupKey_cons (k1 : String) (it : Item) (rest : List (String × Item)) (k : String) :
    lookupKey ((k1, it) :: rest) k = if k1 = k then some it else lookupKey rest k := rfl

@[simp]
theorem lookupKey_append (l1 l2 : List (String × Item)) (k : String) :
    lookupKey (l1 ++ l2) k = (lookupKey l1 k <|> lookupKey l2 k) := by
  induction l1 with
  | nil => simp
  | cons hd tl ih =>
    obtain ⟨k1, it⟩ := hd
    by_cases h : k1 = k <;> simp [h, ih]

theorem lookupKey_toList_ne (o : Option (String × Item)) (k : String)
    (h : ∀ x, o = some x → x.1 ≠ k) : lookupKey o.toList k = none := by
  cases o with
  | none => rfl
  | some x =>
    obtain ⟨k1, it⟩ := x
    simp [h (k1, it) rfl]

theorem lookupKey_toList_self (o : Option (String × Item)) (k : String)
    (h : ∀ x, o = some x → x.1 = k) : lookupKey o.toList k = o.map Prod.snd := by
  cases o with
  | none => rfl
  | some x =>
    obtain ⟨k1, it⟩ := x
    have hk := h (k1, it) rfl
    simp at hk
    simp [hk]

/-! Key-shape lemmas: the key carried by each optional line item. -/

theorem twt_cases (I : Inputs) : twt I = "standard" ∨ twt I = "hot" ∨ twt I = "barb" := by
  unfold twt
  split
  · assumption
  · left; rfl

theorem netting_cases (I : Inputs) :
    netting_norm I = "none" ∨ netting_norm I = "sheep" ∨ netting_norm I = "deer" := by
  unfold netting_norm
  split
  · assumption
  · left; rfl

theorem posts_item_key {I : Inputs} {x} (h : posts_item I = some x) :
    x.1 = "posts" := by
  unfold posts_item at h
  split at h
  all_goals try split at h
  all_goals try split at h
  all_goals first
    | (rw [Option.some.injEq] at h; rw [← h])
    | exact absurd h (by simp)

theorem wire_standard_item_key {I : Inputs} {x} (h : wire_standard_item I = some x) :
    x.1 = "wire_standard" := by
  unfold wire_standard_item at h
  split at h
  all_goals try split at h
  all_goals try split at h
  all_goals first
    | (rw [Option.some.injEq] at h; rw [← h])
    | exact absurd h (by simp)

theorem wire_top_item_key {I : Inputs} {x} (h : wire_top_item I = some x) :
    x.1 = "wire_top_" ++ twt I := by
  unfold wire_top_item at h
  split at h
  all_goals try split at h
  all_goals try split at h
  all_goals first
    | (rw [Option.some.injEq] at h; rw [← h])
    | exact absurd h (by simp)

theorem netting_item_key {I : Inputs} {x} (h : netting_item I = some x) :
    x.1 = "netting" := by
  unfold netting_item at h
  split at h
  all_goals try split at h
  all_goals try split at h
  all_goals first
    | (rw [Option.some.injEq] at h; rw [← h])
    | exact absurd h (by simp)

theorem staples_item_key {I : Inputs} {x} (h : staples_item I = some x) :
    x.1 = "staples" := by
  unfold staples_item at h
  split at h
  all_goals try split at h
  all_goals try split at h
  all_goals first
    | (rw [Option.some.injEq] at h; rw [← h])
    | exact absurd h (by simp)

theorem bullnose_item_key {I : Inputs} {x} (h : bullnose_item I = some x) :
    x.1 = "insulators_bullnose" := by
  unfold bullnose_item at h
  split at h
  all_goals try split at h
  all_goals try split at h
  all_goals first
    | (rw [Option.some.injEq] at h; rw [← h])
    | exact absurd h (by simp)

theorem claw_item_key {I : Inputs} {x} (h : claw_item I = some x) :
    x.1 = "insulators_claw" := by
  unfold claw_item at h
  split at h
  all_goals try split at h
  all_goals try split at h
  all_goals first
    | (rw [Option.some.injEq] at h; rw [← h])
    | exact absurd h (by simp)

theorem strainers_item_key {I : Inputs} {x} (h : strainers_item I = some x) :
    x.1 = "strainers" := by
  unfold strainers_item at h
  split at h
  all_goals try split at h
  all_goals try split at h
  all_goals first
    | (rw [Option.some.injEq] at h; rw [← h])
    | exact absurd h (by simp)

theorem stay_posts_item_key {I : Inputs} {x} (h : stay_posts_item I = some x) :
    x.1 = "stay_posts" := by
  unfold stay_posts_item at h
  split at h
  all_goals try split at h
  all_goals try split at h
  all_goals first
    | (rw [Option.some.injEq] at h; rw [← h])
    | exact absurd h (by simp)

theorem triplex_item_key {I : Inputs} {x} (h : triplex_item I = some x) :
    x.1 = "triplex" := by
  unfold triplex_item at h
  split at h
  all_goals try split at h
  all_goals try split at h
  all_goals first
    | (rw [Option.some.injEq] at h; rw [← h])
    | exact absurd h (by simp)

theorem outrigger_wire_item_key {I : Inputs} {x} (h : outrigger_wire_item I = some x) :
    x.1 = "outrigger_wire" := by
  unfold outrigger_wire_item at h
  split at h
  all_goals try split at h
  all_goals try split at h
  all_goals first
    | (rw [Option.some.injEq] at h; rw [← h])
    | exact absurd h (by simp)

theorem outrigger_insulators_item_key {I : Inputs} {x} (h : outrigger_insulators_item I = some x) :
    x.1 = "outrigger_insulators" := by
  unfold outrigger_insulators_item at h
  split at h
  all_goals try split at h
  all_goals try split at h
  all_goals first
    | (rw [Option.some.injEq] at h; rw [← h])
    | exact absurd h (by simp)

theorem outrigger_connectors_item_key {I : Inputs} {x} (h : outrigger_connectors_item I = some x) :
    x.1 = "outrigger_connectors" := by
  unfold outrigger_connectors_item at h
  split at h
  all_goals try split at h
  all_goals try split at h
  all_goals first
    | (rw [Option.some.injEq] at h; rw [← h])
    | exact absurd h (by simp)

theorem wire_top_key_ne {I : Inputs} {x} (h : wire_top_item I = some x) {k : String}
    (h1 : k ≠ "wire_top_standard") (h2 : k ≠ "wire_top_hot") (h3 : k ≠ "wire_top_barb") :
    x.1 ≠ k := by
  have hx := wire_top_item_key h
  rcases twt_cases I with ht | ht | ht <;> rw [ht] at hx <;> rw [hx] <;>
    first
    | exact fun hc => h1 hc.symm
    | exact fun hc => h2 hc.symm
    | exact fun hc => h3 hc.symm

/-! ## Membership and counting over the assembled mapping -/

theorem mem_material_costs {I : Inputs} {x : String × Item} :
    x ∈ material_costs I ↔
      posts_item I = some x ∨ wire_standard_item I = some x ∨ wire_top_item I = some x ∨
      netting_item I = some x ∨ staples_item I = some x ∨ bullnose_item I = some x ∨
      claw_item I = some x ∨ strainers_item I = some x ∨ stay_posts_item I = some x ∨
      triplex_item I = some x ∨ outrigger_wire_item I = some x ∨
      outrigger_insulators_item I = some x ∨ outrigger_connectors_item I = some x := by
  simp [material_costs, base_material_costs, List.mem_append, Option.mem_toList,
    Option.mem_def, or_assoc]

theorem wireRoleCount_append (l1 l2 : List (String × Item)) :
    wireRoleCount (l1 ++ l2) = wireRoleCount l1 + wireRoleCount l2 := by
  simp [wireRoleCount, List.filter_append]

theorem wireRoleCount_toList_zero (o : Option (String × Item))
    (h : ∀ x, o = some x → isWireRoleKey x.1 = false) : wireRoleCount o.toList = 0 := by
  cases o with
  | none => rfl
  | some x => simp [wireRoleCount, List.filter, h x rfl]

theorem wireRoleCount_toList_one {o : Option (String × Item)} {x}
    (h : o = some x) (hk : isWireRoleKey x.1 = true) : wireRoleCount o.toList = 1 := by
  subst h
  simp [wireRoleCount, List.filter, hk]

theorem wireRoleCount_none {o : Option (String × Item)} (h : o = none) :
    wireRoleCount o.toList = 0 := by
  subst h
  rfl

theorem lookup_mc_wire_standard (I : Inputs) :
    lookupKey (material_costs I) "wire_standard" = (wire_standard_item I).map Prod.snd := by
  have hs_posts_item : lookupKey (posts_item I).toList "wire_standard" = none :=
    lookupKey_toList_ne _ _ (fun x hx => by rw [posts_item_key hx]; decide)
  have hs_wire_standard_item : lookupKey (wire_standard_item I).toList "wire_standard" = (wire_standard_item I).map Prod.snd :=
    lookupKey_toList_self _ _ (fun x hx => wire_standard_item_key hx)
  have hs_wire_top_item : lookupKey (wire_top_item I).toList "wire_standard" = none :=
    lookupKey_toList_ne _ _ (fun x hx => wire_top_key_ne hx (by decide) (by decide) (by decide))
  have hs_netting_item : lookupKey (netting_item I).toList "wire_standard" = none :=
    lookupKey_toList_ne _ _ (fun x hx => by rw [netting_item_key hx]; decide)
  have hs_staples_item : lookupKey (staples_item I).toList "wire_standard" = none :=
    lookupKey_toList_ne _ _ (fun x hx => by rw [staples_item_key hx]; decide)
  have hs_bullnose_item : lookupKey (bullnose_item I).toList "wire_standard" = none :=
    lookupKey_toList_ne _ _ (fun x hx => by rw [bullnose_item_key hx]; decide)
  have hs_claw_item : lookupKey (claw_item I).toList "wire_standard" = none :=
    lookupKey_toList_ne _ _ (fun x hx => by rw [claw_item_key hx]; decide)
  have hs_strainers_item : lookupKey (strainers_item I).toList "wire_standard" = none :=
    lookupKey_toList_ne _ _ (fun x hx => by rw [strainers_item_key hx]; decide)
  have hs_stay_posts_item : lookupKey (stay_posts_item I).toList "wire_standard" = none :=
    lookupKey_toList_ne _ _ (fun x hx => by rw [stay_posts_item_key hx]; decide)
  have hs_triplex_item : lookupKey (triplex_item I).toList "wire_standard" = none :=
    lookupKey_toList_ne _ _ (fun x hx => by rw [triplex_item_key hx]; decide)
  have hs_outrigger_wire_item : lookupKey (outrigger_wire_item I).toList "wire_standard" = none :=
    lookupKey_toList_ne _ _ (fun x hx => by rw [outrigger_wire_item_key hx]; decide)
  have hs_outrigger_insulators_item : lookupKey (outrigger_insulators_item I).toList "wire_standard" = none :=
    lookupKey_toList_ne _ _ (fun x hx => by rw [outrigger_insulators_item_key hx]; decide)
  have hs_outrigger_connectors_item : lookupKey (outrigger_connectors_item I).toList "wire_standard" = none :=
    lookupKey_toList_ne _ _ (fun x hx => by rw [outrigger_connectors_item_key hx]; decide)
  simp [material_costs, base_material_costs, hs_posts_item, hs_wire_standard_item, hs_wire_top_item, hs_netting_item, hs_staples_item, hs_bullnose_item, hs_claw_item, hs_strainers_item, hs_stay_posts_item, hs_triplex_item, hs_outrigger_wire_item, hs_outrigger_insulators_item, hs_outrigger_connectors_item]

theorem lookup_mc_netting (I : Inputs) :
    lookupKey (material_costs I) "netting" = (netting_item I).map Prod.snd := by
  have hs_posts_item : lookupKey (posts_item I).toList "netting" = none :=
    lookupKey_toList_ne _ _ (fun x hx => by rw [posts_item_key hx]; decide)
  have hs_wire_standard_item : lookupKey (wire_standard_item I).toList "netting" = none :=
    lookupKey_toList_ne _ _ (fun x hx => by rw [wire_standard_item_key hx]; decide)
  have hs_wire_top_item : lookupKey (wire_top_item I).toList "netting" = none :=
    lookupKey_toList_ne _ _ (fun x hx => wire_top_key_ne hx (by decide) (by decide) (by decide))
  have hs_netting_item : lookupKey (netting_item I).toList "netting" = (netting_item I).map Prod.snd :=
    lookupKey_toList_self _ _ (fun x hx => netting_item_key hx)
  have hs_staples_item : lookupKey (staples_item I).toList "netting" = none :=
    lookupKey_toList_ne _ _ (fun x hx => by rw [staples_item_key hx]; decide)
  have hs_bullnose_item : lookupKey (bullnose_item I).toList "netting" = none :=
    lookupKey_toList_ne _ _ (fun x hx => by rw [bullnose_item_key hx]; decide)
  have hs_claw_item : lookupKey (claw_item I).toList "netting" = none :=
    lookupKey_toList_ne _ _ (fun x hx => by rw [claw_item_key hx]; decide)
  have hs_strainers_item : lookupKey (strainers_item I).toList "netting" = none :=
    lookupKey_toList_ne _ _ (fun x hx => by rw [strainers_item_key hx]; decide)
  have hs_stay_posts_item : lookupKey (stay_posts_item I).toList "netting" = none :=
    lookupKey_toList_ne _ _ (fun x hx => by rw [stay_posts_item_key hx]; decide)
  have hs_triplex_item : lookupKey (triplex_item I).toList "netting" = none :=
    lookupKey_toList_ne _ _ (fun x hx => by rw [triplex_item_key hx]; decide)
  have hs_outrigger_wire_item : lookupKey (outrigger_wire_item I).toList "netting" = none :=
    lookupKey_toList_ne _ _ (fun x hx => by rw [outrigger_wire_item_key hx]; decide)
  have hs_outrigger_insulators_item : lookupKey (outrigger_insulators_item I).toList "netting" = none :=
    lookupKey_toList_ne _ _ (fun x hx => by rw [outrigger_insulators_item_key hx]; decide)
  have hs_outrigger_connectors_item : lookupKey (outrigger_connectors_item I).toList "netting" = none :=
    lookupKey_toList_ne _ _ (fun x hx => by rw [outrigger_connectors_item_key hx]; decide)
  simp [material_costs, base_material_costs, hs_posts_item, hs_wire_standard_item, hs_wire_top_item, hs_netting_item, hs_staples_item, hs_bullnose_item, hs_claw_item, hs_strainers_item, hs_stay_posts_item, hs_triplex_item, hs_outrigger_wire_item, hs_outrigger_insulators_item, hs_outrigger_connectors_item]

theorem lookup_mc_staples (I : Inputs) :
    lookupKey (material_costs I) "staples" = (staples_item I).map Prod.snd := by
  have hs_posts_item : lookupKey (posts_item I).toList "staples" = none :=
    lookupKey_toList_ne _ _ (fun x hx => by rw [posts_item_key hx]; decide)
  have hs_wire_standard_item : lookupKey (wire_standard_item I).toList "staples" = none :=
    lookupKey_toList_ne _ _ (fun x hx => by rw [wire_standard_item_key hx]; decide)
  have hs_wire_top_item : lookupKey (wire_top_item I).toList "staples" = none :=
    lookupKey_toList_ne _ _ (fun x hx => wire_top_key_ne hx (by decide) (by decide) (by decide))
  have hs_netting_item : lookupKey (netting_item I).toList "staples" = none :=
    lookupKey_toList_ne _ _ (fun x hx => by rw [netting_item_key hx]; decide)
  have hs_staples_item : lookupKey (staples_item I).toList "staples" = (staples_item I).map Prod.snd :=
    lookupKey_toList_self _ _ (fun x hx => staples_item_key hx)
  have hs_bullnose_item : lookupKey (bullnose_item I).toList "staples" = none :=
    lookupKey_toList_ne _ _ (fun x hx => by rw [bullnose_item_key hx]; decide)
  have hs_claw_item : lookupKey (claw_item I).toList "staples" = none :=
    lookupKey_toList_ne _ _ (fun x hx => by rw [claw_item_key hx]; decide)
  have hs_strainers_item : lookupKey (strainers_item I).toList "staples" = none :=
    lookupKey_toList_ne _ _ (fun x hx => by rw [strainers_item_key hx]; decide)
  have hs_stay_posts_item : lookupKey (stay_posts_item I).toList "staples" = none :=
    lookupKey_toList_ne _ _ (fun x hx => by rw [stay_posts_item_key hx]; decide)
  have hs_triplex_item : lookupKey (triplex_item I).toList "staples" = none :=
    lookupKey_toList_ne _ _ (fun x hx => by rw [triplex_item_key hx]; decide)
  have hs_outrigger_wire_item : lookupKey (outrigger_wire_item I).toList "staples" = none :=
    lookupKey_toList_ne _ _ (fun x hx => by rw [outrigger_wire_item_key hx]; decide)
  have hs_outrigger_insulators_item : lookupKey (outrigger_insulators_item I).toList "staples" = none :=
    lookupKey_toList_ne _ _ (fun x hx => by rw [outrigger_insulators_item_key hx]; decide)
  have hs_outrigger_connectors_item : lookupKey (outrigger_connectors_item I).toList "staples" = none :=
    lookupKey_toList_ne _ _ (fun x hx => by rw [outrigger_connectors_item_key hx]; decide)
  simp [material_costs, base_material_costs, hs_posts_item, hs_wire_standard_item, hs_wire_top_item, hs_netting_item, hs_staples_item, hs_bullnose_item, hs_claw_item, hs_strainers_item, hs_stay_posts_item, hs_triplex_item, hs_outrigger_wire_item, hs_outrigger_insulators_item, hs_outrigger_connectors_item]

theorem lookup_mc_strainers (I : Inputs) :
    lookupKey (material_costs I) "strainers" = (strainers_item I).map Prod.snd := by
  have hs_posts_item : lookupKey (posts_item I).toList "strainers" = none :=
    lookupKey_toList_ne _ _ (fun x hx => by rw [posts_item_key hx]; decide)
  have hs_wire_standard_item : lookupKey (wire_standard_item I).toList "strainers" = none :=
    lookupKey_toList_ne _ _ (fun x hx => by rw [wire_standard_item_key hx]; decide)
  have hs_wire_top_item : lookupKey (wire_top_item I).toList "strainers" = none :=
    lookupKey_toList_ne _ _ (fun x hx => wire_top_key_ne hx (by decide) (by decide) (by decide))
  have hs_netting_item : lookupKey (netting_item I).toList "strainers" = none :=
    lookupKey_toList_ne _ _ (fun x hx => by rw [netting_item_key hx]; decide)
  have hs_staples_item : lookupKey (staples_item I).toList "strainers" = none :=
    lookupKey_toList_ne _ _ (fun x hx => by rw [staples_item_key hx]; decide)
  have hs_bullnose_item : lookupKey (bullnose_item I).toList "strainers" = none :=
    lookupKey_toList_ne _ _ (fun x hx => by rw [bullnose_item_key hx]; decide)
  have hs_claw_item : lookupKey (claw_item I).toList "strainers" = none :=
    lookupKey_toList_ne _ _ (fun x hx => by rw [claw_item_key hx]; decide)
  have hs_strainers_item : lookupKey (strainers_item I).toList "strainers" = (strainers_item I).map Prod.snd :=
    lookupKey_toList_self _ _ (fun x hx => strainers_item_key hx)
  have hs_stay_posts_item : lookupKey (stay_posts_item I).toList "strainers" = none :=
    lookupKey_toList_ne _ _ (fun x hx => by rw [stay_posts_item_key hx]; decide)
  have hs_triplex_item : lookupKey (triplex_item I).toList "strainers" = none :=
    lookupKey_toList_ne _ _ (fun x hx => by rw [triplex_item_key hx]; decide)
  have hs_outrigger_wire_item : lookupKey (outrigger_wire_item I).toList "strainers" = none :=
    lookupKey_toList_ne _ _ (fun x hx => by rw [outrigger_wire_item_key hx]; decide)
  have hs_outrigger_insulators_item : lookupKey (outrigger_insulators_item I).toList "strainers" = none :=
    lookupKey_toList_ne _ _ (fun x hx => by rw [outrigger_insulators_item_key hx]; decide)
  have hs_outrigger_connectors_item : lookupKey (outrigger_connectors_item I).toList "strainers" = none :=
    lookupKey_toList_ne _ _ (fun x hx => by rw [outrigger_connectors_item_key hx]; decide)
  simp [material_costs, base_material_costs, hs_posts_item, hs_wire_standard_item, hs_wire_top_item, hs_netting_item, hs_staples_item, hs_bullnose_item, hs_claw_item, hs_strainers_item, hs_stay_posts_item, hs_triplex_item, hs_outrigger_wire_item, hs_outrigger_insulators_item, hs_outrigger_connectors_item]

theorem lookup_mc_stay_posts (I : Inputs) :
    lookupKey (material_costs I) "stay_posts" = (stay_posts_item I).map Prod.snd := by
  have hs_posts_item : lookupKey (posts_item I).toList "stay_posts" = none :=
    lookupKey_toList_ne _ _ (fun x hx => by rw [posts_item_key hx]; decide)
  have hs_wire_standard_item : lookupKey (wire_standard_item I).toList "stay_posts" = none :=
    lookupKey_toList_ne _ _ (fun x hx => by rw [wire_standard_item_key hx]; decide)
  have hs_wire_top_item : lookupKey (wire_top_item I).toList "stay_posts" = none :=
    lookupKey_toList_ne _ _ (fun x hx => wire_top_key_ne hx (by decide) (by decide) (by decide))
  have hs_netting_item : lookupKey (netting_item I).toList "stay_posts" = none :=
    lookupKey_toList_ne _ _ (fun x hx => by rw [netting_item_key hx]; decide)
  have hs_staples_item : lookupKey (staples_item I).toList "stay_posts" = none :=
    lookupKey_toList_ne _ _ (fun x hx => by rw [staples_item_key hx]; decide)
  have hs_bullnose_item : lookupKey (bullnose_item I).toList "stay_posts" = none :=
    lookupKey_toList_ne _ _ (fun x hx => by rw [bullnose_item_key hx]; decide)
  have hs_claw_item : lookupKey (claw_item I).toList "stay_posts" = none :=
    lookupKey_toList_ne _ _ (fun x hx => by rw [claw_item_key hx]; decide)
  have hs_strainers_item : lookupKey (strainers_item I).toList "stay_posts" = none :=
    lookupKey_toList_ne _ _ (fun x hx => by rw [strainers_item_key hx]; decide)
  have hs_stay_posts_item : lookupKey (stay_posts_item I).toList "stay_posts" = (stay_posts_item I).map Prod.snd :=
    lookupKey_toList_self _ _ (fun x hx => stay_posts_item_key hx)
  have hs_triplex_item : lookupKey (triplex_item I).toList "stay_posts" = none :=
    lookupKey_toList_ne _ _ (fun x hx => by rw [triplex_item_key hx]; decide)
  have hs_outrigger_wire_item : lookupKey (outrigger_wire_item I).toList "stay_posts" = none :=
    lookupKey_toList_ne _ _ (fun x hx => by rw [outrigger_wire_item_key hx]; decide)
  have hs_outrigger_insulators_item : lookupKey (outrigger_insulators_item I).toList "stay_posts" = none :=
    lookupKey_toList_ne _ _ (fun x hx => by rw [outrigger_insulators_item_key hx]; decide)
  have hs_outrigger_connectors_item : lookupKey (outrigger_connectors_item I).toList "stay_posts" = none :=
    lookupKey_toList_ne _ _ (fun x hx => by rw [outrigger_connectors_item_key hx]; decide)
  simp [material_costs, base_material_costs, hs_posts_item, hs_wire_standard_item, hs_wire_top_item, hs_netting_item, hs_staples_item, hs_bullnose_item, hs_claw_item, hs_strainers_item, hs_stay_posts_item, hs_triplex_item, hs_outrigger_wire_item, hs_outrigger_insulators_item, hs_outrigger_connectors_item]

theorem lookup_mc_triplex (I : Inputs) :
    lookupKey (material_costs I) "triplex" = (triplex_item I).map Prod.snd := by
  have hs_posts_item : lookupKey (posts_item I).toList "triplex" = none :=
    lookupKey_toList_ne _ _ (fun x hx => by rw [posts_item_key hx]; decide)
  have hs_wire_standard_item : lookupKey (wire_standard_item I).toList "triplex" = none :=
    lookupKey_toList_ne _ _ (fun x hx => by rw [wire_standard_item_key hx]; decide)
  have hs_wire_top_item : lookupKey (wire_top_item I).toList "triplex" = none :=
    lookupKey_toList_ne _ _ (fun x hx => wire_top_key_ne hx (by decide) (by decide) (by decide))
  have hs_netting_item : lookupKey (netting_item I).toList "triplex" = none :=
    lookupKey_toList_ne _ _ (fun x hx => by rw [netting_item_key hx]; decide)
  have hs_staples_item : lookupKey (staples_item I).toList "triplex" = none :=
    lookupKey_toList_ne _ _ (fun x hx => by rw [staples_item_key hx]; decide)
  have hs_bullnose_item : lookupKey (bullnose_item I).toList "triplex" = none :=
    lookupKey_toList_ne _ _ (fun x hx => by rw [bullnose_item_key hx]; decide)
  have hs_claw_item : lookupKey (claw_item I).toList "triplex" = none :=
    lookupKey_toList_ne _ _ (fun x hx => by rw [claw_item_key hx]; decide)
  have hs_strainers_item : lookupKey (strainers_item I).toList "triplex" = none :=
    lookupKey_toList_ne _ _ (fun x hx => by rw [strainers_item_key hx]; decide)
  have hs_stay_posts_item : lookupKey (stay_posts_item I).toList "triplex" = none :=
    lookupKey_toList_ne _ _ (fun x hx => by rw [stay_posts_item_key hx]; decide)
  have hs_triplex_item : lookupKey (triplex_item I).toList "triplex" = (triplex_item I).map Prod.snd :=
    lookupKey_toList_self _ _ (fun x hx => triplex_item_key hx)
  have hs_outrigger_wire_item : lookupKey (outrigger_wire_item I).toList "triplex" = none :=
    lookupKey_toList_ne _ _ (fun x hx => by rw [outrigger_wire_item_key hx]; decide)
  have hs_outrigger_insulators_item : lookupKey (outrigger_insulators_item I).toList "triplex" = none :=
    lookupKey_toList_ne _ _ (fun x hx => by rw [outrigger_insulators_item_key hx]; decide)
  have hs_outrigger_connectors_item : lookupKey (outrigger_connectors_item I).toList "triplex" = none :=
    lookupKey_toList_ne _ _ (fun x hx => by rw [outrigger_connectors_item_key hx]; decide)
  simp [material_costs, base_material_costs, hs_posts_item, hs_wire_standard_item, hs_wire_top_item, hs_netting_item, hs_staples_item, hs_bullnose_item, hs_claw_item, hs_strainers_item, hs_stay_posts_item, hs_triplex_item, hs_outrigger_wire_item, hs_outrigger_insulators_item, hs_outrigger_connectors_item]

theorem lookup_mc_bullnose (I : Inputs) :
    lookupKey (material_costs I) "insulators_bullnose" = (bullnose_item I).map Prod.snd := by
  have hs_posts_item : lookupKey (posts_item I).toList "insulators_bullnose" = none :=
    lookupKey_toList_ne _ _ (fun x hx => by rw [posts_item_key hx]; decide)
  have hs_wire_standard_item : lookupKey (wire_standard_item I).toList "insulators_bullnose" = none :=
    lookupKey_toList_ne _ _ (fun x hx => by rw [wire_standard_item_key hx]; decide)
  have hs_wire_top_item : lookupKey (wire_top_item I).toList "insulators_bullnose" = none :=
    lookupKey_toList_ne _ _ (fun x hx => wire_top_key_ne hx (by decide) (by decide) (by decide))
  have hs_netting_item : lookupKey (netting_item I).toList "insulators_bullnose" = none :=
    lookupKey_toList_ne _ _ (fun x hx => by rw [netting_item_key hx]; decide)
  have hs_staples_item : lookupKey (staples_item I).toList "insulators_bullnose" = none :=
    lookupKey_toList_ne _ _ (fun x hx => by rw [staples_item_key hx]; decide)
  have hs_bullnose_item : lookupKey (bullnose_item I).toList "insulators_bullnose" = (bullnose_item I).map Prod.snd :=
    lookupKey_toList_self _ _ (fun x hx => bullnose_item_key hx)
  have hs_claw_item : lookupKey (claw_item I).toList "insulators_bullnose" = none :=
    lookupKey_toList_ne _ _ (fun x hx => by rw [claw_item_key hx]; decide)
  have hs_strainers_item : lookupKey (strainers_item I).toList "insulators_bullnose" = none :=
    lookupKey_toList_ne _ _ (fun x hx => by rw [strainers_item_key hx]; decide)
  have hs_stay_posts_item : lookupKey (stay_posts_item I).toList "insulators_bullnose" = none :=
    lookupKey_toList_ne _ _ (fun x hx => by rw [stay_posts_item_key hx]; decide)
  have hs_triplex_item : lookupKey (triplex_item I).toList "insulators_bullnose" = none :=
    lookupKey_toList_ne _ _ (fun x hx => by rw [triplex_item_key hx]; decide)
  have hs_outrigger_wire_item : lookupKey (outrigger_wire_item I).toList "insulators_bullnose" = none :=
    lookupKey_toList_ne _ _ (fun x hx => by rw [outrigger_wire_item_key hx]; decide)
  have hs_outrigger_insulators_item : lookupKey (outrigger_insulators_item I).toList "insulators_bullnose" = none :=
    lookupKey_toList_ne _ _ (fun x hx => by rw [outrigger_insulators_item_key hx]; decide)
  have hs_outrigger_connectors_item : lookupKey (outrigger_connectors_item I).toList "insulators_bullnose" = none :=
    lookupKey_toList_ne _ _ (fun x hx => by rw [outrigger_connectors_item_key hx]; decide)
  simp [material_costs, base_material_costs, hs_posts_item, hs_wire_standard_item, hs_wire_top_item, hs_netting_item, hs_staples_item, hs_bullnose_item, hs_claw_item, hs_strainers_item, hs_stay_posts_item, hs_triplex_item, hs_outrigger_wire_item, hs_outrigger_insulators_item, hs_outrigger_connectors_item]

theorem lookup_mc_claw (I : Inputs) :
    lookupKey (material_costs I) "insulators_claw" = (claw_item I).map Prod.snd := by
  have hs_posts_item : lookupKey (posts_item I).toList "insulators_claw" = none :=
    lookupKey_toList_ne _ _ (fun x hx => by rw [posts_item_key hx]; decide)
  have hs_wire_standard_item : lookupKey (wire_standard_item I).toList "insulators_claw" = none :=
    lookupKey_toList_ne _ _ (fun x hx => by rw [wire_standard_item_key hx]; decide)
  have hs_wire_top_item : lookupKey (wire_top_item I).toList "insulators_claw" = none :=
    lookupKey_toList_ne _ _ (fun x hx => wire_top_key_ne hx (by decide) (by decide) (by decide))
  have hs_netting_item : lookupKey (netting_item I).toList "insulators_claw" = none :=
    lookupKey_toList_ne _ _ (fun x hx => by rw [netting_item_key hx]; decide)
  have hs_staples_item : lookupKey (staples_item I).toList "insulators_claw" = none :=
    lookupKey_toList_ne _ _ (fun x hx => by rw [staples_item_key hx]; decide)
  have hs_bullnose_item : lookupKey (bullnose_item I).toList "insulators_claw" = none :=
    lookupKey_toList_ne _ _ (fun x hx => by rw [bullnose_item_key hx]; decide)
  have hs_claw_item : lookupKey (claw_item I).toList "insulators_claw" = (claw_item I).map Prod.snd :=
    lookupKey_toList_self _ _ (fun x hx => claw_item_key hx)
  have hs_strainers_item : lookupKey (strainers_item I).toList "insulators_claw" = none :=
    lookupKey_toList_ne _ _ (fun x hx => by rw [strainers_item_key hx]; decide)
  have hs_stay_posts_item : lookupKey (stay_posts_item I).toList "insulators_claw" = none :=
    lookupKey_toList_ne _ _ (fun x hx => by rw [stay_posts_item_key hx]; decide)
  have hs_triplex_item : lookupKey (triplex_item I).toList "insulators_claw" = none :=
    lookupKey_toList_ne _ _ (fun x hx => by rw [triplex_item_key hx]; decide)
  have hs_outrigger_wire_item : lookupKey (outrigger_wire_item I).toList "insulators_claw" = none :=
    lookupKey_toList_ne _ _ (fun x hx => by rw [outrigger_wire_item_key hx]; decide)
  have hs_outrigger_insulators_item : lookupKey (outrigger_insulators_item I).toList "insulators_claw" = none :=
    lookupKey_toList_ne _ _ (fun x hx => by rw [outrigger_insulators_item_key hx]; decide)
  have hs_outrigger_connectors_item : lookupKey (outrigger_connectors_item I).toList "insulators_claw" = none :=
    lookupKey_toList_ne _ _ (fun x hx => by rw [outrigger_connectors_item_key hx]; decide)
  simp [material_costs, base_material_costs, hs_posts_item, hs_wire_standard_item, hs_wire_top_item, hs_netting_item, hs_staples_item, hs_bullnose_item, hs_claw_item, hs_strainers_item, hs_stay_posts_item, hs_triplex_item, hs_outrigger_wire_item, hs_outrigger_insulators_item, hs_outrigger_connectors_item]

theorem lookup_mc_wire_top_hot (I : Inputs) (ht : twt I = "hot") :
    lookupKey (material_costs I) "wire_top_hot" = (wire_top_item I).map Prod.snd := by
  have hs_posts_item : lookupKey (posts_item I).toList "wire_top_hot" = none :=
    lookupKey_toList_ne _ _ (fun x hx => by rw [posts_item_key hx]; decide)
  have hs_wire_standard_item : lookupKey (wire_standard_item I).toList "wire_top_hot" = none :=
    lookupKey_toList_ne _ _ (fun x hx => by rw [wire_standard_item_key hx]; decide)
  have hs_wire_top_item : lookupKey (wire_top_item I).toList "wire_top_hot" = (wire_top_item I).map Prod.snd :=
    lookupKey_toList_self _ _ (fun x hx => by rw [wire_top_item_key hx, ht]; decide)
  have hs_netting_item : lookupKey (netting_item I).toList "wire_top_hot" = none :=
    lookupKey_toList_ne _ _ (fun x hx => by rw [netting_item_key hx]; decide)
  have hs_staples_item : lookupKey (staples_item I).toList "wire_top_hot" = none :=
    lookupKey_toList_ne _ _ (fun x hx => by rw [staples_item_key hx]; decide)
  have hs_bullnose_item : lookupKey (bullnose_item I).toList "wire_top_hot" = none :=
    lookupKey_toList_ne _ _ (fun x hx => by rw [bullnose_item_key hx]; decide)
  have hs_claw_item : lookupKey (claw_item I).toList "wire_top_hot" = none :=
    lookupKey_toList_ne _ _ (fun x hx => by rw [claw_item_key hx]; decide)
  have hs_strainers_item : lookupKey (strainers_item I).toList "wire_top_hot" = none :=
    lookupKey_toList_ne _ _ (fun x hx => by rw [strainers_item_key hx]; decide)
  have hs_stay_posts_item : lookupKey (stay_posts_item I).toList "wire_top_hot" = none :=
    lookupKey_toList_ne _ _ (fun x hx => by rw [stay_posts_item_key hx]; decide)
  have hs_triplex_item : lookupKey (triplex_item I).toList "wire_top_hot" = none :=
    lookupKey_toList_ne _ _ (fun x hx => by rw [triplex_item_key hx]; decide)
  have hs_outrigger_wire_item : lookupKey (outrigger_wire_item I).toList "wire_top_hot" = none :=
    lookupKey_toList_ne _ _ (fun x hx => by rw [outrigger_wire_item_key hx]; decide)
  have hs_outrigger_insulators_item : lookupKey (outrigger_insulators_item I).toList "wire_top_hot" = none :=
    lookupKey_toList_ne _ _ (fun x hx => by rw [outrigger_insulators_item_key hx]; decide)
  have hs_outrigger_connectors_item : lookupKey (outrigger_connectors_item I).toList "wire_top_hot" = none :=
    lookupKey_toList_ne _ _ (fun x hx => by rw [outrigger_connectors_item_key hx]; decide)
  simp [material_costs, base_material_costs, hs_posts_item, hs_wire_standard_item, hs_wire_top_item, hs_netting_item, hs_staples_item, hs_bullnose_item, hs_claw_item, hs_strainers_item, hs_stay_posts_item, hs_triplex_item, hs_outrigger_wire_item, hs_outrigger_insulators_item, hs_outrigger_connectors_item]

theorem lookup_mc_wire_top_barb (I : Inputs) (ht : twt I = "barb") :
    lookupKey (material_costs I) "wire_top_barb" = (wire_top_item I).map Prod.snd := by
  have hs_posts_item : lookupKey (posts_item I).toList "wire_top_barb" = none :=
    lookupKey_toList_ne _ _ (fun x hx => by rw [posts_item_key hx]; decide)
  have hs_wire_standard_item : lookupKey (wire_standard_item I).toList "wire_top_barb" = none :=
    lookupKey_toList_ne _ _ (fun x hx => by rw [wire_standard_item_key hx]; decide)
  have hs_wire_top_item : lookupKey (wire_top_item I).toList "wire_top_barb" = (wire_top_item I).map Prod.snd :=
    lookupKey_toList_self _ _ (fun x hx => by rw [wire_top_item_key hx, ht]; decide)
  have hs_netting_item : lookupKey (netting_item I).toList "wire_top_barb" = none :=
    lookupKey_toList_ne _ _ (fun x hx => by rw [netting_item_key hx]; decide)
  have hs_staples_item : lookupKey (staples_item I).toList "wire_top_barb" = none :=
    lookupKey_toList_ne _ _ (fun x hx => by rw [staples_item_key hx]; decide)
  have hs_bullnose_item : lookupKey (bullnose_item I).toList "wire_top_barb" = none :=
    lookupKey_toList_ne _ _ (fun x hx => by rw [bullnose_item_key hx]; decide)
  have hs_claw_item : lookupKey (claw_item I).toList "wire_top_barb" = none :=
    lookupKey_toList_ne _ _ (fun x hx => by rw [claw_item_key hx]; decide)
  have hs_strainers_item : lookupKey (strainers_item I).toList "wire_top_barb" = none :=
    lookupKey_toList_ne _ _ (fun x hx => by rw [strainers_item_key hx]; decide)
  have hs_stay_posts_item : lookupKey (stay_posts_item I).toList "wire_top_barb" = none :=
    lookupKey_toList_ne _ _ (fun x hx => by rw [stay_posts_item_key hx]; decide)
  have hs_triplex_item : lookupKey (triplex_item I).toList "wire_top_barb" = none :=
    lookupKey_toList_ne _ _ (fun x hx => by rw [triplex_item_key hx]; decide)
  have hs_outrigger_wire_item : lookupKey (outrigger_wire_item I).toList "wire_top_barb" = none :=
    lookupKey_toList_ne _ _ (fun x hx => by rw [outrigger_wire_item_key hx]; decide)
  have hs_outrigger_insulators_item : lookupKey (outrigger_insulators_item I).toList "wire_top_barb" = none :=
    lookupKey_toList_ne _ _ (fun x hx => by rw [outrigger_insulators_item_key hx]; decide)
  have hs_outrigger_connectors_item : lookupKey (outrigger_connectors_item I).toList "wire_top_barb" = none :=
    lookupKey_toList_ne _ _ (fun x hx => by rw [outrigger_connectors_item_key hx]; decide)
  simp [material_costs, base_material_costs, hs_posts_item, hs_wire_standard_item, hs_wire_top_item, hs_netting_item, hs_staples_item, hs_bullnose_item, hs_claw_item, hs_strainers_item, hs_stay_posts_item, hs_triplex_item, hs_outrigger_wire_item, hs_outrigger_insulators_item, hs_outrigger_connectors_item]

theorem lookup_mc_posts (I : Inputs) :
    lookupKey (material_costs I) "posts" = (posts_item I).map Prod.snd := by
  have hs_posts_item : lookupKey (posts_item I).toList "posts" = (posts_item I).map Prod.snd :=
    lookupKey_toList_self _ _ (fun x hx => posts_item_key hx)
  have hs_wire_standard_item : lookupKey (wire_standard_item I).toList "posts" = none :=
    lookupKey_toList_ne _ _ (fun x hx => by rw [wire_standard_item_key hx]; decide)
  have hs_wire_top_item : lookupKey (wire_top_item I).toList "posts" = none :=
    lookupKey_toList_ne _ _ (fun x hx => wire_top_key_ne hx (by decide) (by decide) (by decide))
  have hs_netting_item : lookupKey (netting_item I).toList "posts" = none :=
    lookupKey_toList_ne _ _ (fun x hx => by rw [netting_item_key hx]; decide)
  have hs_staples_item : lookupKey (staples_item I).toList "posts" = none :=
    lookupKey_toList_ne _ _ (fun x hx => by rw [staples_item_key hx]; decide)
  have hs_bullnose_item : lookupKey (bullnose_item I).toList "posts" = none :=
    lookupKey_toList_ne _ _ (fun x hx => by rw [bullnose_item_key hx]; decide)
  have hs_claw_item : lookupKey (claw_item I).toList "posts" = none :=
    lookupKey_toList_ne _ _ (fun x hx => by rw [claw_item_key hx]; decide)
  have hs_strainers_item : lookupKey (strainers_item I).toList "posts" = none :=
    lookupKey_toList_ne _ _ (fun x hx => by rw [strainers_item_key hx]; decide)
  have hs_stay_posts_item : lookupKey (stay_posts_item I).toList "posts" = none :=
    lookupKey_toList_ne _ _ (fun x hx => by rw [stay_posts_item_key hx]; decide)
  have hs_triplex_item : lookupKey (triplex_item I).toList "posts" = none :=
    lookupKey_toList_ne _ _ (fun x hx => by rw [triplex_item_key hx]; decide)
  have hs_outrigger_wire_item : lookupKey (outrigger_wire_item I).toList "posts" = none :=
    lookupKey_toList_ne _ _ (fun x hx => by rw [outrigger_wire_item_key hx]; decide)
  have hs_outrigger_insulators_item : lookupKey (outrigger_insulators_item I).toList "posts" = none :=
    lookupKey_toList_ne _ _ (fun x hx => by rw [outrigger_insulators_item_key hx]; decide)
  have hs_outrigger_connectors_item : lookupKey (outrigger_connectors_item I).toList "posts" = none :=
    lookupKey_toList_ne _ _ (fun x hx => by rw [outrigger_connectors_item_key hx]; decide)
  simp [material_costs, base_material_costs, hs_posts_item, hs_wire_standard_item, hs_wire_top_item, hs_netting_item, hs_staples_item, hs_bullnose_item, hs_claw_item, hs_strainers_item, hs_stay_posts_item, hs_triplex_item, hs_outrigger_wire_item, hs_outrigger_insulators_item, hs_outrigger_connectors_item]

/-! ## Basic engine-level lemmas -/

theorem wire_rolls_required_eq (I : Inputs) :
    wire_rolls_required I = standard_wire_rolls I + special_wire_rolls0 I := by
  unfold wire_rolls_required total_standard_wire_rolls special_wire_rolls
  by_cases h : wire_combined I <;> simp [h] <;> ring

theorem interval_m_pos (I : Inputs) : 0 < interval_m I := by
  unfold interval_m
  split <;> norm_num

theorem total_wires_nonneg (I : Inputs) : 0 ≤ total_wires I := by
  unfold total_wires
  cases I.rq.wire_count_override <;> simp <;> positivity

theorem standard_wires_nonneg (I : Inputs) : 0 ≤ standard_wires I := le_max_right _ _

theorem standard_wire_len_nonneg (I : Inputs) (hL : 0 ≤ I.rq.fence_length) :
    0 ≤ standard_wire_len_m I :=
  quantize_2_nonneg (mul_nonneg (by exact_mod_cast standard_wires_nonneg I) hL)

theorem spacing_of_override {I : Inputs} {s : ℚ} (h : I.rq.post_spacing_override = some s)
    (hs : 0 < s) : spacing I = s := by
  unfold spacing
  rw [h]
  simp [ne_of_gt hs]

theorem spacing_of_none {I : Inputs} (h : I.rq.post_spacing_override = none) :
    spacing I = I.ft.post_spacing := by
  unfold spacing
  rw [h]

/-! ## Shared concrete fixtures for witnesses and counterexamples -/

/-- A post material priced 12.50 each. -/
def mPost : Material := ⟨1, "Standard Post", 25/2, none, none⟩

/-- A 500 m roll of standard wire priced 139.00. -/
def mWire : Material := ⟨2, "HT Wire", 139, none, some 500⟩

/-- A 250 m roll of barbed wire priced 120.00, distinct from `mWire`. -/
def mBarb : Material := ⟨3, "Barb Wire", 120, none, some 250⟩

/-- A 100 m roll of deer netting priced 310.00. -/
def mNet : Material := ⟨4, "Deer Netting 200cm", 310, none, some 100⟩

/-- Stay posts priced 30.00. -/
def mStay : Material := ⟨5, "5 inch stay posts", 30, none, none⟩

/-- Triplex priced 40.00. -/
def mTriplex : Material := ⟨6, "Triplex", 40, none, none⟩

/-- A strainer priced 50.00. -/
def mStrainer : Material := ⟨7, "2.5/7 inch Strainer", 50, none, none⟩

/-- An outrigger insulator priced 10.00. -/
def mOutIns : Material := ⟨8, "Outrigger Insulator", 10, none, none⟩

/-- The repository's shipped configuration (settings.py lines 78-91). -/
def stgD : Settings := ⟨500, 55, 20, true, "U Staples (Box of 2000)", 2000, 18399/100, 1, 2, 4⟩

/-- An empty catalog: none of the fixed-name materials exist. -/
def catEmpty : Catalog := ⟨none, none, none, none, none, none, none, none, none, none⟩

/-! ## C3 — price resolution -/

/-- Spec-reading of the price resolution rule, for comparison with the
code (claim C3): override if the identity key is present, else the
current price whenever it is present, else the default price; a null
material resolves to 0. -/
def eff_price_claimed (overrides : List (ℕ × ℚ)) (m? : Option Material) : ℚ :=
  match m? with
  | none => 0
  | some m =>
    match lookupOverride overrides m.id with
    | some p => p
    | none =>
      match m.current_price with
      | some c => c
      | none => m.default_price

/-- C3 counterexample: for a material with `current_price = 0.00`
present and `default_price = 5`, and no override, the code resolves the
price to the default 5, not to the present current price 0 claimed by
the spec (Python `or` treats `Decimal('0')` as absent). -/
theorem C3_counterexample :
    eff_price [] (some ⟨9, "Zero Priced Wire", 5, some 0, none⟩) ≠
      eff_price_claimed [] (some ⟨9, "Zero Priced Wire", 5, some 0, none⟩) := by
  decide

/-- C3 (amended): the override value wins whenever the identity key is
present; otherwise the current price is used when present **and
non-zero**, else the default price; a null material reference resolves
to exactly 0, and the line items keyed on a null fence-type material
reference (posts, standard wire, netting) are suppressed. -/
theorem C3_amended_price_resolution :
    (∀ ovl (m : Material) p, lookupOverride ovl m.id = some p →
      eff_price ovl (some m) = p) ∧
    (∀ ovl (m : Material), lookupOverride ovl m.id = none →
      eff_price ovl (some m) =
        (match m.current_price with
          | some c => if c = 0 then m.default_price else c
          | none => m.default_price)) ∧
    (∀ ovl, eff_price ovl none = 0) ∧
    (∀ I : Inputs, I.ft.post_material = none →
      lookupKey (calculate_fence_requirements I).material_costs "posts" = none) ∧
    (∀ I : Inputs, I.ft.wire_material = none →
      lookupKey (calculate_fence_requirements I).material_costs "wire_standard" = none) ∧
    (∀ I : Inputs, I.ft.netting_material = none →
      lookupKey (calculate_fence_requirements I).material_costs "netting" = none) := by
  refine ⟨?_, ?_, ?_, ?_, ?_, ?_⟩
  · intro ovl m p h
    simp [eff_price, h]
  · intro ovl m h
    simp [eff_price, h, currentOrDefault]
  · intro ovl
    rfl
  · intro I h
    have : (calculate_fence_requirements I).material_costs = material_costs I := rfl
    rw [this, lookup_mc_posts]
    unfold posts_item
    rw [h]
    rfl
  · intro I h
    have : (calculate_fence_requirements I).material_costs = material_costs I := rfl
    rw [this, lookup_mc_wire_standard]
    unfold wire_standard_item
    rw [h]
    rfl
  · intro I h
    have : (calculate_fence_requirements I).material_costs = material_costs I := rfl
    rw [this, lookup_mc_netting]
    unfold netting_item
    rw [h]
    rfl

/-- Witness for the amended C3 at concrete inputs: an override of 150
on `mWire` (id 2) beats its catalog price, and a null material resolves
to 0. -/
theorem C3_amended_witness :
    eff_price [(2, 150)] (some mWire) = 150 ∧ eff_price [(2, 150)] none = 0 :=
  ⟨C3_amended_price_resolution.1 [(2, 150)] mWire 150 (by decide),
   C3_amended_price_resolution.2.2.1 [(2, 150)]⟩

/-! ## C6 — post count and zero-length boundary -/

/-- C6: for positive fence length and positive effective spacing the
post count is the exact ceiling of length over spacing plus one, the
effective spacing is the override when supplied (else the base spacing),
and a zero-length fence yields 1 post, 0 wire meters and 0 wire rolls
with the computation total. -/
theorem C6_posts_and_zero_length (I : Inputs) :
    (0 < I.rq.fence_length → 0 < spacing I →
      (calculate_fence_requirements I).posts_required =
        ⌈I.rq.fence_length / spacing I⌉ + 1) ∧
    (∀ s, I.rq.post_spacing_override = some s → 0 < s → spacing I = s) ∧
    (I.rq.post_spacing_override = none → spacing I = I.ft.post_spacing) ∧
    (I.rq.fence_length = 0 →
      (calculate_fence_requirements I).posts_required = 1 ∧
      (calculate_fence_requirements I).wire_length_meters = 0 ∧
      (calculate_fence_requirements I).wire_rolls_required = 0) := by
  refine ⟨?_, ?_, ?_, ?_⟩
  · intro hL hS
    show posts_required I = ⌈I.rq.fence_length / spacing I⌉ + 1
    unfold posts_required
    rw [ceil_div_eq_ceil hL.le hS]
  · intro s h hs
    exact spacing_of_override h hs
  · intro h
    exact spacing_of_none h
  · intro h0
    have hstd : standard_wire_len_m I = 0 := by
      unfold standard_wire_len_m
      rw [h0, mul_zero, quantize_2_zero]
    have hspec : special_wire_len_m I = 0 := by
      unfold special_wire_len_m
      rw [h0, mul_zero, quantize_2_zero]
    refine ⟨?_, ?_, ?_⟩
    · show posts_required I = 1
      unfold posts_required
      rw [h0, ceil_div_zero_left]
      norm_num
    · show wire_length_meters I = 0
      unfold wire_length_meters
      rw [h0, mul_zero, quantize_2_zero]
    · show wire_rolls_required I = 0
      rw [wire_rolls_required_eq]
      have h1 : standard_wire_rolls I = 0 := by
        unfold standard_wire_rolls
        rw [hstd]
        simp
      have h2 : special_wire_rolls0 I = 0 := by
        unfold special_wire_rolls0
        rw [hspec]
        simp
      rw [h1, h2, add_zero]

/-- The spec scenario fence: 2-wire electric, spacing 8 m, 500 m rolls. -/
def ftElec : FenceType := ⟨8, 2, true, some mPost, some mWire, none, none⟩

/-- Scenario request: 100 m of 2-wire electric fence. -/
def I6pos : Inputs := ⟨ftElec, catEmpty, stgD, ⟨100, some 55, none, [], none, none, none, none, none, "none", false⟩⟩

/-- Zero-length request on the same fence type. -/
def I6zero : Inputs := ⟨ftElec, catEmpty, stgD, ⟨0, some 55, none, [], none, none, none, none, none, "none", false⟩⟩

/-- Witness for C6: at 100 m and spacing 8 m the engine reports
ceil(100/8)+1 = 14 posts, and at length 0 it reports 1 post, 0 wire
meters and 0 rolls. -/
theorem C6_witness :
    (calculate_fence_requirements I6pos).posts_required = 14 ∧
    (calculate_fence_requirements I6zero).posts_required = 1 ∧
    (calculate_fence_requirements I6zero).wire_length_meters = 0 ∧
    (calculate_fence_requirements I6zero).wire_rolls_required = 0 := by
  have h1 := (C6_posts_and_zero_length I6pos).1 (by decide) (by decide)
  have h2 := (C6_posts_and_zero_length I6zero).2.2.2 (by decide)
  refine ⟨?_, h2.1, h2.2.1, h2.2.2⟩
  rw [h1]
  have hs : spacing I6pos = 8 := by decide
  have hl : I6pos.rq.fence_length = 100 := rfl
  rw [hs, hl]
  have hc : ⌈(100 : ℚ) / 8⌉ = 13 := by
    rw [Int.ceil_eq_iff] <;> norm_num
  rw [hc]
  decide

/-! ## C7 — strainer, stay-post and triplex interval rules -/

/-- C7: with positive fence length the recommended strainer total is
`max ⌈L / I⌉ 2` where the interval is 50 m for deer netting and 100 m
otherwise; a stay-posts line item carries the same `max ⌈L / I⌉ 2`
quantity; a triplex line item carries `⌈L / 500⌉` with no floor. -/
theorem C7_interval_counts (I : Inputs) (hL : 0 < I.rq.fence_length) :
    (calculate_fence_requirements I).strainer_recommendation.recommended_strainers_total
      = max ⌈I.rq.fence_length / interval_m I⌉ 2 ∧
    interval_m I = (if netting_norm I = "deer" then 50 else 100) ∧
    (∀ it, lookupKey (calculate_fence_requirements I).material_costs "stay_posts" = some it →
      it.quantity = ((max ⌈I.rq.fence_length / interval_m I⌉ 2 : ℤ) : ℚ)) ∧
    (∀ it, lookupKey (calculate_fence_requirements I).material_costs "triplex" = some it →
      it.quantity = ((⌈I.rq.fence_length / 500⌉ : ℤ) : ℚ)) := by
  have hiv : 0 < interval_m I := interval_m_pos I
  have hceil : round_up (I.rq.fence_length / interval_m I) = ⌈I.rq.fence_length / interval_m I⌉ :=
    round_up_eq_ceil (div_nonneg hL.le hiv.le)
  refine ⟨?_, rfl, ?_, ?_⟩
  · show (strainer_recommendation I).recommended_strainers_total = _
    unfold strainer_recommendation total_recommended_strainers
    simp only [hL, if_true, hceil]
  · intro it h
    rw [show (calculate_fence_requirements I).material_costs = material_costs I from rfl,
      lookup_mc_stay_posts] at h
    unfold stay_posts_item at h
    cases hm : stay_posts_mat I
    · simp only [hm, Option.map_none'] at h
      exact absurd h (by simp)
    · simp only [hm, if_pos hL, Option.map_some', Option.some.injEq] at h
      rw [← h]
      show ((stay_posts_qty I : ℤ) : ℚ) = _
      unfold stay_posts_qty
      rw [hceil]
  · intro it h
    rw [show (calculate_fence_requirements I).material_costs = material_costs I from rfl,
      lookup_mc_triplex] at h
    unfold triplex_item at h
    cases hm : I.cat.triplex_mat
    · simp only [hm, Option.map_none'] at h
      exact absurd h (by simp)
    · simp only [hm, if_pos hL, Option.map_some', Option.some.injEq] at h
      rw [← h]
      show ((triplex_qty I : ℤ) : ℚ) = _
      unfold triplex_qty
      rw [round_up_eq_ceil (div_nonneg hL.le (by norm_num))]

/-- Catalog holding only stay posts and triplex. -/
def cat7 : Catalog := ⟨none, none, none, none, some mStay, none, some mTriplex, none, none, none⟩

/-- A 60 m request against that catalog. -/
def I7 : Inputs := ⟨ftElec, cat7, stgD, ⟨60, some 55, none, [], none, none, none, none, none, "none", false⟩⟩

/-- Witness for C7 at 60 m without deer netting: interval 100 m, so the
recommended strainer total is max(ceil(60/100), 2) = 2. -/
theorem C7_witness :
    (calculate_fence_requirements I7).strainer_recommendation.recommended_strainers_total = 2 := by
  have h := (C7_interval_counts I7 (by decide)).1
  rw [h]
  have hl : I7.rq.fence_length = 60 := rfl
  have hint : interval_m I7 = 100 := by decide
  rw [hl, hint]
  have hc : ⌈(60 : ℚ) / 100⌉ = 1 := by
    rw [Int.ceil_eq_iff] <;> norm_num
  rw [hc]
  decide

/-! ## C10 — netting line item is independent of the requested netting type -/

/-- The same inputs with only the request netting type replaced. -/
def withNet (I : Inputs) (nt : String) : Inputs :=
  ⟨I.ft, I.cat, I.stg, {I.rq with netting_type := nt}⟩

/-- C10: two requests differing only in `netting_type` produce the same
`netting` line item (presence, quantity and all) and the same
`netting_rolls_required`; in particular a fence type carrying a netting
material yields a netting line item even for netting type "none". -/
theorem C10_netting_independent (I : Inputs) (nt1 nt2 : String) :
    lookupKey (calculate_fence_requirements (withNet I nt1)).material_costs "netting"
      = lookupKey (calculate_fence_requirements (withNet I nt2)).material_costs "netting" ∧
    (calculate_fence_requirements (withNet I nt1)).netting_rolls_required
      = (calculate_fence_requirements (withNet I nt2)).netting_rolls_required ∧
    (∀ nm, I.ft.netting_material = some nm → 0 < I.rq.fence_length →
      0 < netting_roll_length nm →
      lookupKey (calculate_fence_requirements (withNet I "none")).material_costs "netting"
        ≠ none) := by
  refine ⟨?_, rfl, ?_⟩
  · rw [show (calculate_fence_requirements (withNet I nt1)).material_costs
        = material_costs (withNet I nt1) from rfl,
      show (calculate_fence_requirements (withNet I nt2)).material_costs
        = material_costs (withNet I nt2) from rfl,
      lookup_mc_netting, lookup_mc_netting]
    rfl
  · intro nm hnm hL hroll
    rw [show (calculate_fence_requirements (withNet I "none")).material_costs
        = material_costs (withNet I "none") from rfl, lookup_mc_netting]
    have hmat : (withNet I "none").ft.netting_material = some nm := hnm
    have hrolls : 0 < netting_rolls_required (withNet I "none") := by
      simp only [netting_rolls_required, hmat]
      show (0 : ℚ) < ((ceil_div I.rq.fence_length (netting_roll_length nm) : ℤ) : ℚ)
      exact_mod_cast ceil_div_pos hL hroll
    simp only [netting_item, hmat, if_pos hrolls]
    simp

/-- A deer fence type carrying a netting material. -/
def ftDeer : FenceType := ⟨6, 0, true, some mPost, some mWire, none, some mNet⟩

/-- A 60 m request on the deer fence type. -/
def I10 : Inputs := ⟨ftDeer, catEmpty, stgD, ⟨60, some 55, none, [], none, none, none, none, none, "deer", false⟩⟩

/-- Witness for C10: on a fence type with netting material, a request
with netting type "none" still gets a netting line item. -/
theorem C10_witness :
    lookupKey (calculate_fence_requirements (withNet I10 "none")).material_costs "netting"
      ≠ none :=
  (C10_netting_independent I10 "deer" "sheep").2.2 mNet rfl (by decide) (by decide)

/-! ## C2 — hot top wire merges into a single wire line item -/

theorem dec2_int_mul {x : ℚ} (h : Dec2 x) (z : ℤ) : Dec2 ((z : ℚ) * x) := by
  obtain ⟨n, rfl⟩ := h
  exact ⟨z * n, by push_cast; ring⟩

theorem special_wires_hot_bounds {I : Inputs} (htwt : twt I = "hot")
    (htw : 0 < total_wires I)
    (hhw : I.rq.hot_wire_count = none ∨ ∃ k, I.rq.hot_wire_count = some k ∧ 1 ≤ k) :
    1 ≤ special_wires I ∧ special_wires I ≤ total_wires I := by
  unfold special_wires
  rcases hhw with h | ⟨k, hk, hk1⟩
  · simp only [h, htwt]
    norm_num [htw]
    omega
  · simp only [hk, htwt]
    have hkne : k ≠ 0 := by omega
    norm_num [htw, hkne]
    omega

theorem special_wires_barb {I : Inputs} (htwt : twt I = "barb")
    (htw : 0 < total_wires I) : special_wires I = 1 := by
  unfold special_wires
  cases h : I.rq.hot_wire_count <;> simp [h, htwt, htw]

theorem standard_wire_rolls_eq {I : Inputs} {wm : Material}
    (hwm : I.ft.wire_material = some wm) (hL : 0 ≤ I.rq.fence_length) :
    standard_wire_rolls I =
      ((ceil_div (standard_wire_len_m I) (get_roll_length I.stg (some wm)) : ℤ) : ℚ) := by
  unfold standard_wire_rolls
  rw [hwm]
  by_cases hpos : 0 < standard_wire_len_m I
  · simp [hpos]
  · have h0 : standard_wire_len_m I = 0 :=
      le_antisymm (not_lt.mp hpos) (standard_wire_len_nonneg I hL)
    simp [hpos, h0, ceil_div_zero_left]

/-- C2 (amended): for a request with top-wire type "hot", a positive
two-decimal fence length, a positive total wire count, a present
standard wire material, a positive resolved roll length and a positive
requested hot-wire count when supplied, the result carries exactly one
wire-role line item — the `wire_standard` entry, never `wire_top_hot` —
and its quantity is ceil(standard_len/roll) + ceil(hot_len/roll) against
the standard wire's roll length. -/
theorem C2_amended (I : Inputs) (wm : Material)
    (ht : I.rq.top_wire_type = some "hot")
    (hhw : I.rq.hot_wire_count = none ∨ ∃ k, I.rq.hot_wire_count = some k ∧ 1 ≤ k)
    (hL : 0 < I.rq.fence_length) (hld : Dec2 I.rq.fence_length)
    (htw : 0 < total_wires I)
    (hwm : I.ft.wire_material = some wm)
    (hroll : 0 < get_roll_length I.stg (some wm)) :
    wireRoleCount (calculate_fence_requirements I).material_costs = 1 ∧
    lookupKey (calculate_fence_requirements I).material_costs "wire_top_hot" = none ∧
    (∃ it, lookupKey (calculate_fence_requirements I).material_costs "wire_standard"
        = some it ∧
      it.quantity =
        ((ceil_div (standard_wire_len_m I) (get_roll_length I.stg (some wm)) : ℤ) : ℚ) +
        ((ceil_div (special_wire_len_m I) (get_roll_length I.stg (some wm)) : ℤ) : ℚ)) := by
  have htwt : twt I = "hot" := by
    unfold twt
    rw [ht]
    decide
  obtain ⟨hsw1, hsw2⟩ := special_wires_hot_bounds htwt htw hhw
  have hslen : 0 < special_wire_len_m I := by
    unfold special_wire_len_m
    rw [quantize_2_of_dec2 (dec2_int_mul hld (special_wires I))]
    exact mul_pos (by exact_mod_cast hsw1) hL
  have hmat0 : special_wire_material0 I = some wm := by
    unfold special_wire_material0
    simp [hslen, htwt, hwm]
  have hcomb : wire_combined I = true := by
    unfold wire_combined
    rw [hmat0, hwm]
    simp
  have hwtop : special_wire_rolls I = 0 := by
    unfold special_wire_rolls
    rw [hcomb]
    rfl
  have hwtitem : wire_top_item I = none := by
    unfold wire_top_item
    simp [hwtop]
  have hrolls0 : special_wire_rolls0 I =
      ((ceil_div (special_wire_len_m I) (get_roll_length I.stg (some wm)) : ℤ) : ℚ) := by
    unfold special_wire_rolls0
    simp [hslen, hmat0]
  have hstd := standard_wire_rolls_eq hwm hL.le
  have htot : total_standard_wire_rolls I = standard_wire_rolls I + special_wire_rolls0 I := by
    unfold total_standard_wire_rolls
    rw [hcomb]
    rfl
  have htotpos : 0 < total_standard_wire_rolls I := by
    rw [htot, hstd, hrolls0]
    have h1 : (0 : ℤ) ≤ ceil_div (standard_wire_len_m I) (get_roll_length I.stg (some wm)) :=
      ceil_div_nonneg (standard_wire_len_nonneg I hL.le) hroll.le
    have h2 : (1 : ℤ) ≤ ceil_div (special_wire_len_m I) (get_roll_length I.stg (some wm)) :=
      ceil_div_pos hslen hroll
    have h1q : (0 : ℚ) ≤
        ((ceil_div (standard_wire_len_m I) (get_roll_length I.stg (some wm)) : ℤ) : ℚ) := by
      exact_mod_cast h1
    have h2q : (1 : ℚ) ≤
        ((ceil_div (special_wire_len_m I) (get_roll_length I.stg (some wm)) : ℤ) : ℚ) := by
      exact_mod_cast h2
    linarith
  have hwsitem : wire_standard_item I = some ("wire_standard",
      ⟨wm.name, quantize_2 (eff_price (ov I) (some wm)), total_standard_wire_rolls I,
        quantize_2 (eff_price (ov I) (some wm) * total_standard_wire_rolls I)⟩) := by
    unfold wire_standard_item
    simp only [hwm]
    rw [if_pos htotpos]
  refine ⟨?_, ?_, ?_⟩
  · show wireRoleCount (material_costs I) = 1
    unfold material_costs base_material_costs
    simp only [wireRoleCount_append]
    rw [wireRoleCount_toList_zero _ (fun x hx => by rw [posts_item_key hx]; decide),
      wireRoleCount_toList_one hwsitem (by simp [isWireRoleKey]),
      wireRoleCount_none hwtitem,
      wireRoleCount_toList_zero _ (fun x hx => by rw [netting_item_key hx]; decide),
      wireRoleCount_toList_zero _ (fun x hx => by rw [staples_item_key hx]; decide),
      wireRoleCount_toList_zero _ (fun x hx => by rw [bullnose_item_key hx]; decide),
      wireRoleCount_toList_zero _ (fun x hx => by rw [claw_item_key hx]; decide),
      wireRoleCount_toList_zero _ (fun x hx => by rw [strainers_item_key hx]; decide),
      wireRoleCount_toList_zero _ (fun x hx => by rw [stay_posts_item_key hx]; decide),
      wireRoleCount_toList_zero _ (fun x hx => by rw [triplex_item_key hx]; decide),
      wireRoleCount_toList_zero _ (fun x hx => by rw [outrigger_wire_item_key hx]; decide),
      wireRoleCount_toList_zero _ (fun x hx => by rw [outrigger_insulators_item_key hx]; decide),
      wireRoleCount_toList_zero _ (fun x hx => by rw [outrigger_connectors_item_key hx]; decide)]
  · rw [show (calculate_fence_requirements I).material_costs = material_costs I from rfl,
      lookup_mc_wire_top_hot I htwt, hwtitem]
    rfl
  · refine ⟨⟨wm.name, quantize_2 (eff_price (ov I) (some wm)), total_standard_wire_rolls I,
      quantize_2 (eff_price (ov I) (some wm) * total_standard_wire_rolls I)⟩, ?_, ?_⟩
    · rw [show (calculate_fence_requirements I).material_costs = material_costs I from rfl,
        lookup_mc_wire_standard, hwsitem]
      rfl
    · show total_standard_wire_rolls I = _
      rw [htot, hstd, hrolls0]

/-- A 9-wire fence type on the standard materials. -/
def ftHot9 : FenceType := ⟨8, 9, true, some mPost, some mWire, none, none⟩

/-- A 100 m hot-top request with 2 hot wires. -/
def I2w : Inputs := ⟨ftHot9, catEmpty, stgD,
  ⟨100, some 55, none, [], some "hot", none, none, some 2, none, "none", false⟩⟩

/-- Witness for the amended C2 at a concrete 9-wire hot request. -/
theorem C2_witness :
    wireRoleCount (calculate_fence_requirements I2w).material_costs = 1 :=
  (C2_amended I2w mWire rfl (Or.inr ⟨2, rfl, by norm_num⟩) (by decide)
    ⟨10000, by with_unfolding_all decide⟩ (by decide) rfl (by decide)).1

/-- A deer fence request (zero wires permitted for deer netting) with
top-wire type "hot". -/
def I2cex : Inputs := ⟨ftDeer, catEmpty, stgD,
  ⟨100, some 55, none, [], some "hot", none, some 0, none, none, "deer", false⟩⟩

/-- C2 counterexample: with top-wire type "hot" but a wire count of 0
(legal for deer netting), the result contains no wire-role line item at
all, not exactly one. -/
theorem C2_counterexample :
    wireRoleCount (calculate_fence_requirements I2cex).material_costs ≠ 1 := by
  with_unfolding_all decide

/-! ## C4 — distinct barb wire yields two wire line items -/

/-- C4 (amended): for a request with top-wire type "barb", a positive
two-decimal fence length, a total wire count of at least 2, a present
standard wire material, a present distinct barb wire material and
positive resolved roll lengths, the result carries exactly two
wire-role line items: `wire_standard` and `wire_top_barb`. -/
theorem C4_amended (I : Inputs) (wm bm : Material)
    (ht : I.rq.top_wire_type = some "barb")
    (hL : 0 < I.rq.fence_length) (hld : Dec2 I.rq.fence_length)
    (htw : 2 ≤ total_wires I)
    (hwm : I.ft.wire_material = some wm)
    (hbm : I.ft.barb_wire_material = some bm)
    (hdiff : bm.id ≠ wm.id)
    (hrollw : 0 < get_roll_length I.stg (some wm))
    (hrollb : 0 < get_roll_length I.stg (some bm)) :
    wireRoleCount (calculate_fence_requirements I).material_costs = 2 ∧
    (lookupKey (calculate_fence_requirements I).material_costs "wire_standard").isSome ∧
    (lookupKey (calculate_fence_requirements I).material_costs "wire_top_barb").isSome := by
  have htwt : twt I = "barb" := by
    unfold twt
    rw [ht]
    decide
  have hsp : special_wires I = 1 := special_wires_barb htwt (by omega)
  have hstdw : standard_wires I = total_wires I - 1 := by
    unfold standard_wires
    rw [hsp]
    omega
  have hstdlen : 0 < standard_wire_len_m I := by
    unfold standard_wire_len_m
    rw [quantize_2_of_dec2 (dec2_int_mul hld (standard_wires I))]
    refine mul_pos ?_ hL
    rw [hstdw]
    have : (1 : ℤ) ≤ total_wires I - 1 := by omega
    exact_mod_cast lt_of_lt_of_le zero_lt_one (by exact_mod_cast this)
  have hsplen : 0 < special_wire_len_m I := by
    unfold special_wire_len_m
    rw [quantize_2_of_dec2 (dec2_int_mul hld (special_wires I))]
    rw [hsp]
    simpa using hL
  have hmat0 : special_wire_material0 I = some bm := by
    unfold special_wire_material0
    simp [hsplen, htwt, hbm]
  have hcomb : wire_combined I = false := by
    unfold wire_combined
    rw [hmat0, hwm]
    simp [hdiff]
  have hsprolls : special_wire_rolls I =
      ((ceil_div (special_wire_len_m I) (get_roll_length I.stg (some bm)) : ℤ) : ℚ) := by
    unfold special_wire_rolls
    rw [hcomb]
    show special_wire_rolls0 I = _
    unfold special_wire_rolls0
    simp [hsplen, hmat0]
  have hposr : 0 < special_wire_rolls I := by
    rw [hsprolls]
    exact_mod_cast ceil_div_pos hsplen hrollb
  have hspmat : special_wire_material I = some bm := by
    unfold special_wire_material
    rw [hcomb]
    exact hmat0
  have hwtitem : wire_top_item I = some ("wire_top_barb",
      ⟨bm.name, quantize_2 (eff_price (ov I) (some bm)), special_wire_rolls I,
        quantize_2 (eff_price (ov I) (some bm) * special_wire_rolls I)⟩) := by
    unfold wire_top_item
    rw [if_pos hposr]
    simp only [hspmat]
    rw [htwt]
    with_unfolding_all rfl
  have hstdrolls : standard_wire_rolls I =
      ((ceil_div (standard_wire_len_m I) (get_roll_length I.stg (some wm)) : ℤ) : ℚ) := by
    unfold standard_wire_rolls
    rw [hwm]
    simp [hstdlen]
  have htot : total_standard_wire_rolls I = standard_wire_rolls I := by
    unfold total_standard_wire_rolls
    rw [hcomb]
    simp
  have htotpos : 0 < total_standard_wire_rolls I := by
    rw [htot, hstdrolls]
    exact_mod_cast ceil_div_pos hstdlen hrollw
  have hwsitem : wire_standard_item I = some ("wire_standard",
      ⟨wm.name, quantize_2 (eff_price (ov I) (some wm)), total_standard_wire_rolls I,
        quantize_2 (eff_price (ov I) (some wm) * total_standard_wire_rolls I)⟩) := by
    unfold wire_standard_item
    simp only [hwm]
    rw [if_pos htotpos]
  refine ⟨?_, ?_, ?_⟩
  · show wireRoleCount (material_costs I) = 2
    unfold material_costs base_material_costs
    simp only [wireRoleCount_append]
    rw [wireRoleCount_toList_zero _ (fun x hx => by rw [posts_item_key hx]; decide),
      wireRoleCount_toList_one hwsitem (by simp [isWireRoleKey]),
      wireRoleCount_toList_one hwtitem (by simp [isWireRoleKey]),
      wireRoleCount_toList_zero _ (fun x hx => by rw [netting_item_key hx]; decide),
      wireRoleCount_toList_zero _ (fun x hx => by rw [staples_item_key hx]; decide),
      wireRoleCount_toList_zero _ (fun x hx => by rw [bullnose_item_key hx]; decide),
      wireRoleCount_toList_zero _ (fun x hx => by rw [claw_item_key hx]; decide),
      wireRoleCount_toList_zero _ (fun x hx => by rw [strainers_item_key hx]; decide),
      wireRoleCount_toList_zero _ (fun x hx => by rw [stay_posts_item_key hx]; decide),
      wireRoleCount_toList_zero _ (fun x hx => by rw [triplex_item_key hx]; decide),
      wireRoleCount_toList_zero _ (fun x hx => by rw [outrigger_wire_item_key hx]; decide),
      wireRoleCount_toList_zero _ (fun x hx => by rw [outrigger_insulators_item_key hx]; decide),
      wireRoleCount_toList_zero _ (fun x hx => by rw [outrigger_connectors_item_key hx]; decide)]
  · rw [show (calculate_fence_requirements I).material_costs = material_costs I from rfl,
      lookup_mc_wire_standard, hwsitem]
    rfl
  · rw [show (calculate_fence_requirements I).material_costs = material_costs I from rfl,
      lookup_mc_wire_top_barb I htwt, hwtitem]
    rfl

/-- A 9-wire fence type with a distinct barb wire material. -/
def ftBarb9 : FenceType := ⟨8, 9, true, some mPost, some mWire, some mBarb, none⟩

/-- A 100 m barb-top request over 9 wires. -/
def I4w : Inputs := ⟨ftBarb9, catEmpty, stgD,
  ⟨100, some 55, none, [], some "barb", none, none, none, none, "none", false⟩⟩

/-- Witness for the amended C4 at a concrete 9-wire barb request. -/
theorem C4_witness :
    wireRoleCount (calculate_fence_requirements I4w).material_costs = 2 :=
  (C4_amended I4w mWire mBarb rfl (by decide) ⟨10000, by with_unfolding_all decide⟩
    (by decide) rfl rfl (by decide) (by decide) (by decide)).1

/-- A single-wire fence type with a distinct barb wire material. -/
def ftBarb1 : FenceType := ⟨8, 1, true, some mPost, some mWire, some mBarb, none⟩

/-- A 100 m barb-top request over a single wire. -/
def I4cex : Inputs := ⟨ftBarb1, catEmpty, stgD,
  ⟨100, some 55, none, [], some "barb", none, none, none, none, "none", false⟩⟩

/-- C4 counterexample: with a distinct barb material but only one wire
in total, the single wire becomes the barb top wire and no standard wire
line item exists, so only one wire-role line item appears, not two. -/
theorem C4_counterexample :
    wireRoleCount (calculate_fence_requirements I4cex).material_costs ≠ 2 := by
  with_unfolding_all decide

/-! ## C5 — omission of line items for absent catalog materials -/

/-- The same inputs with only the catalog replaced. -/
def withCat (I : Inputs) (c : Catalog) : Inputs := ⟨I.ft, c, I.stg, I.rq⟩

/-- A 100 m 2-wire request against the empty catalog, with staples
enabled. -/
def I5cex : Inputs := ⟨ftElec, catEmpty, stgD,
  ⟨100, some 55, none, [], none, none, none, none, none, "none", false⟩⟩

/-- C5 counterexample: the staples catalog material is absent, yet a
"staples" line item is still emitted (with the configured default price
and name), contradicting the claimed omission. -/
theorem C5_counterexample :
    lookupKey (calculate_fence_requirements I5cex).material_costs "staples" ≠ none := by
  with_unfolding_all decide

/-- C5 (amended): for positive fence length, every line item of the
netting, insulator, strainer, stay-post and triplex roles appears only
with its material present and a non-zero quantity; the **staples** role
is the exception: with staples enabled and a positive box count but no
catalog staples material, the line item is still emitted with the
configured default name and price; and the diagnostic substructures
(staple_counts, insulator_counts, strainer_recommendation) never depend
on the catalog. -/
theorem C5_amended_omission (I : Inputs) (hL : 0 < I.rq.fence_length) :
    (∀ it, lookupKey (calculate_fence_requirements I).material_costs "netting" = some it →
      I.ft.netting_material ≠ none ∧ it.quantity ≠ 0) ∧
    (∀ it, lookupKey (calculate_fence_requirements I).material_costs "insulators_bullnose"
        = some it → I.cat.bullnose_mat ≠ none ∧ it.quantity ≠ 0) ∧
    (∀ it, lookupKey (calculate_fence_requirements I).material_costs "insulators_claw"
        = some it → I.cat.claw_mat ≠ none ∧ it.quantity ≠ 0) ∧
    (∀ it, lookupKey (calculate_fence_requirements I).material_costs "strainers" = some it →
      I.cat.strainer_mat ≠ none ∧ it.quantity ≠ 0) ∧
    (∀ it, lookupKey (calculate_fence_requirements I).material_costs "stay_posts" = some it →
      stay_posts_mat I ≠ none ∧ it.quantity ≠ 0) ∧
    (∀ it, lookupKey (calculate_fence_requirements I).material_costs "triplex" = some it →
      I.cat.triplex_mat ≠ none ∧ it.quantity ≠ 0) ∧
    (I.stg.STAPLES_ENABLED = true → 0 < boxes I → I.cat.staples_mat = none →
      lookupKey (calculate_fence_requirements I).material_costs "staples" =
        some ⟨I.stg.STAPLES_MATERIAL_NAME, quantize_2 I.stg.STAPLES_DEFAULT_PRICE,
          (boxes I : ℚ),
          quantize_2 (I.stg.STAPLES_DEFAULT_PRICE * (boxes I : ℚ))⟩) ∧
    (∀ c1 c2 : Catalog,
      (calculate_fence_requirements (withCat I c1)).staple_counts
        = (calculate_fence_requirements (withCat I c2)).staple_counts ∧
      (calculate_fence_requirements (withCat I c1)).insulator_counts
        = (calculate_fence_requirements (withCat I c2)).insulator_counts ∧
      (calculate_fence_requirements (withCat I c1)).strainer_recommendation
        = (calculate_fence_requirements (withCat I c2)).strainer_recommendation) := by
  have hmc : (calculate_fence_requirements I).material_costs = material_costs I := rfl
  refine ⟨?_, ?_, ?_, ?_, ?_, ?_, ?_, ?_⟩
  · intro it h
    rw [hmc, lookup_mc_netting] at h
    unfold netting_item at h
    cases hm : I.ft.netting_material
    · simp only [hm, Option.map_none'] at h
      exact absurd h (by simp)
    · simp only [hm] at h
      split at h
      · simp only [Option.map_some', Option.some.injEq] at h
        rw [← h]
        refine ⟨by simp [hm], ?_⟩
        show netting_rolls_required I ≠ 0
        next hpos => exact ne_of_gt hpos
      · exact absurd h (by simp)
  · intro it h
    rw [hmc, lookup_mc_bullnose] at h
    unfold bullnose_item at h
    by_cases hq : 0 < bullnose_qty I
    · split at h
      · cases hm : I.cat.bullnose_mat
        · simp only [hm, Option.map_none'] at h
          exact absurd h (by simp)
        · simp only [hm, if_pos hq, Option.map_some', Option.some.injEq] at h
          rw [← h]
          refine ⟨by simp [hm], ?_⟩
          show ((bullnose_qty I : ℤ) : ℚ) ≠ 0
          exact_mod_cast ne_of_gt hq
      · exact absurd h (by simp)
    · split at h
      · cases hm : I.cat.bullnose_mat
        · simp only [hm, Option.map_none'] at h
          exact absurd h (by simp)
        · simp only [hm, if_neg hq, Option.map_none'] at h
          exact absurd h (by simp)
      · exact absurd h (by simp)
  · intro it h
    rw [hmc, lookup_mc_claw] at h
    unfold claw_item at h
    by_cases hq : 0 < claw_qty I
    · split at h
      · cases hm : I.cat.claw_mat
        · simp only [hm, Option.map_none'] at h
          exact absurd h (by simp)
        · simp only [hm, if_pos hq, Option.map_some', Option.some.injEq] at h
          rw [← h]
          refine ⟨by simp [hm], ?_⟩
          show ((claw_qty I : ℤ) : ℚ) ≠ 0
          exact_mod_cast ne_of_gt hq
      · exact absurd h (by simp)
    · split at h
      · cases hm : I.cat.claw_mat
        · simp only [hm, Option.map_none'] at h
          exact absurd h (by simp)
        · simp only [hm, if_neg hq, Option.map_none'] at h
          exact absurd h (by simp)
      · exact absurd h (by simp)
  · intro it h
    rw [hmc, lookup_mc_strainers] at h
    unfold strainers_item at h
    split at h
    · cases hm : I.cat.strainer_mat
      · simp only [hm, Option.map_none'] at h
        exact absurd h (by simp)
      · simp only [hm, Option.map_some', Option.some.injEq] at h
        rw [← h]
        refine ⟨by simp [hm], ?_⟩
        show ((total_recommended_strainers I : ℤ) : ℚ) ≠ 0
        have h2 : (2 : ℤ) ≤ total_recommended_strainers I := by
          unfold total_recommended_strainers
          rw [if_pos hL]
          exact le_max_right _ _
        have : (0 : ℤ) < total_recommended_strainers I := by omega
        exact_mod_cast ne_of_gt this
    · exact absurd h (by simp)
  · intro it h
    rw [hmc, lookup_mc_stay_posts] at h
    unfold stay_posts_item at h
    cases hm : stay_posts_mat I
    · simp only [hm, Option.map_none'] at h
      exact absurd h (by simp)
    · simp only [hm, if_pos hL, Option.map_some', Option.some.injEq] at h
      rw [← h]
      refine ⟨by simp [hm], ?_⟩
      show ((stay_posts_qty I : ℤ) : ℚ) ≠ 0
      have h2 : (2 : ℤ) ≤ stay_posts_qty I := le_max_right _ _
      have : (0 : ℤ) < stay_posts_qty I := by omega
      exact_mod_cast ne_of_gt this
  · intro it h
    rw [hmc, lookup_mc_triplex] at h
    unfold triplex_item at h
    cases hm : I.cat.triplex_mat
    · simp only [hm, Option.map_none'] at h
      exact absurd h (by simp)
    · simp only [hm, if_pos hL, Option.map_some', Option.some.injEq] at h
      rw [← h]
      refine ⟨by simp [hm], ?_⟩
      show ((triplex_qty I : ℤ) : ℚ) ≠ 0
      have : (1 : ℤ) ≤ triplex_qty I :=
        round_up_pos (div_pos hL (by norm_num))
      exact_mod_cast by omega
  · intro hen hbox hnone
    rw [hmc, lookup_mc_staples]
    unfold staples_item
    rw [if_pos ⟨hen, hbox⟩, hnone]
    rfl
  · intro c1 c2
    exact ⟨rfl, rfl, rfl⟩

/-- Witness for the amended C5: against the empty catalog the staples
line item carries the configured default name and price. -/
theorem C5_witness :
    lookupKey (calculate_fence_requirements I5cex).material_costs "staples" =
      some ⟨"U Staples (Box of 2000)", 18399/100, 1, 18399/100⟩ := by
  have hbox : boxes I5cex = 1 := by with_unfolding_all rfl
  have h := (C5_amended_omission I5cex (by decide)).2.2.2.2.2.2.1 rfl
    (by rw [hbox]; norm_num) rfl
  rw [h, hbox]
  with_unfolding_all rfl

/-! ## C1 — totals are computed before the outrigger items are appended -/

/-- Catalog holding only the outrigger insulator. -/
def catOut : Catalog := ⟨none, none, none, none, none, none, none, none, some mOutIns, none⟩

/-- A 100 m deer-netting request with the electric outrigger enabled,
staples disabled for clarity, against `catOut`. -/
def I1cex : Inputs := ⟨⟨10, 0, false, none, none, none, none⟩, catOut,
  ⟨500, 55, 20, false, "U Staples (Box of 2000)", 2000, 18399/100, 1, 2, 4⟩,
  ⟨100, some 55, none, [], none, none, none, none, none, "deer", true⟩⟩

/-- C1 failing input: with the electric outrigger enabled, the returned
`material_costs` contains the outrigger insulator line item
(cost 10 × 11 posts = 110), but `total_material_cost` (and hence
`total_cost`) was computed before the outrigger block ran and equals 0,
not the 2-decimal rounding of the sum of all entries of the returned
mapping. -/
theorem C1_totals_exclude_outrigger :
    (calculate_fence_requirements I1cex).total_material_cost ≠
      quantize_2 (costSum (calculate_fence_requirements I1cex).material_costs) ∧
    (calculate_fence_requirements I1cex).total_material_cost = 0 ∧
    costSum (calculate_fence_requirements I1cex).material_costs = 110 := by
  refine ⟨?_, ?_, ?_⟩ <;> with_unfolding_all decide

/-! ## C9 — display combiner: helper lemmas -/

theorem lookupStr_mem {l : List (String × String)} {s v : String}
    (h : lookupStr l s = some v) : (s, v) ∈ l := by
  induction l with
  | nil => exact absurd h (by simp [lookupStr])
  | cons hd tl ih =>
    obtain ⟨k, w⟩ := hd
    by_cases hk : k = s
    · subst hk
      rw [show lookupStr ((k, w) :: tl) k = some w from by simp [lookupStr]] at h
      rw [Option.some.injEq] at h
      subst h
      exact List.mem_cons_self _ _
    · simp only [lookupStr, if_neg hk] at h
      exact List.mem_cons_of_mem _ (ih h)

theorem lookupStr_eq_none {l : List (String × String)} {s : String} :
    lookupStr l s = none ↔ s ∉ l.map Prod.fst := by
  induction l with
  | nil => simp [lookupStr]
  | cons hd tl ih =>
    obtain ⟨k, w⟩ := hd
    by_cases hk : k = s
    · subst hk
      simp [lookupStr]
    · simp [lookupStr, hk, ih, Ne.symm hk]

@[simp]
theorem updateEntry_nil (k : String) (q c : ℚ) : updateEntry [] k q c = [] := rfl

@[simp]
theorem updateEntry_cons (k1 : String) (it : Item) (rest : List (String × Item))
    (k : String) (q c : ℚ) :
    updateEntry ((k1, it) :: rest) k q c =
      (if k1 = k then (k1, ⟨it.material, it.unit_price, it.quantity + q, it.cost + c⟩)
        else (k1, it)) :: updateEntry rest k q c := by
  rfl

theorem updateEntry_keys (l : List (String × Item)) (k : String) (q c : ℚ) :
    (updateEntry l k q c).map Prod.fst = l.map Prod.fst := by
  induction l with
  | nil => rfl
  | cons hd tl ih =>
    obtain ⟨k1, it⟩ := hd
    by_cases hk : k1 = k <;> simp [hk, ih]

theorem updateEntry_of_not_mem {l : List (String × Item)} {k : String} (q c : ℚ)
    (h : k ∉ l.map Prod.fst) : updateEntry l k q c = l := by
  induction l with
  | nil => rfl
  | cons hd tl ih =>
    obtain ⟨k1, it⟩ := hd
    simp only [List.map_cons, List.mem_cons] at h
    push_neg at h
    simp [Ne.symm h.1, ih h.2]

@[simp]
theorem costSum_nil : costSum [] = 0 := rfl

@[simp]
theorem costSum_cons (kv : String × Item) (l : List (String × Item)) :
    costSum (kv :: l) = kv.2.cost + costSum l := by
  simp [costSum]

@[simp]
theorem costSum_append (l1 l2 : List (String × Item)) :
    costSum (l1 ++ l2) = costSum l1 + costSum l2 := by
  simp [costSum]

theorem costSum_updateEntry {l : List (String × Item)} {k : String} (q c : ℚ)
    (hnd : (l.map Prod.fst).Nodup) (hmem : k ∈ l.map Prod.fst) :
    costSum (updateEntry l k q c) = costSum l + c := by
  induction l with
  | nil => simp at hmem
  | cons hd tl ih =>
    obtain ⟨k1, it⟩ := hd
    simp only [List.map_cons, List.nodup_cons] at hnd
    rcases List.mem_cons.mp hmem with hk | hk
    · subst hk
      rw [updateEntry_cons, if_pos rfl, costSum_cons,
        updateEntry_of_not_mem q c hnd.1, costSum_cons]
      show it.cost + c + costSum tl = it.cost + costSum tl + c
      ring
    · have hne : k1 ≠ k := by
        intro hc
        subst hc
        exact hnd.1 hk
      rw [updateEntry_cons, if_neg hne, costSum_cons, ih hnd.2 hk, costSum_cons]
      ring

theorem forall₂_snd_fst_map_eq {idx : List (String × String)} {acc : List (String × Item)}
    (h : List.Forall₂ (fun (nk : String × String) (kit : String × Item) => nk.2 = kit.1)
      idx acc) : idx.map Prod.snd = acc.map Prod.fst := by
  induction h with
  | nil => rfl
  | cons hr _ ih => simp [hr, ih]

theorem sumQtyN_cons_eq {n : String} {k : String} {it : Item}
    (h : normName it.material = n) (rest : List (String × Item)) :
    sumQtyN n ((k, it) :: rest) = it.quantity + sumQtyN n rest := by
  simp [sumQtyN, List.filter, h]

theorem sumQtyN_cons_ne {n : String} {k : String} {it : Item}
    (h : normName it.material ≠ n) (rest : List (String × Item)) :
    sumQtyN n ((k, it) :: rest) = sumQtyN n rest := by
  simp [sumQtyN, List.filter, h]

theorem sumCostN_cons_eq {n : String} {k : String} {it : Item}
    (h : normName it.material = n) (rest : List (String × Item)) :
    sumCostN n ((k, it) :: rest) = it.cost + sumCostN n rest := by
  simp [sumCostN, List.filter, h]

theorem sumCostN_cons_ne {n : String} {k : String} {it : Item}
    (h : normName it.material ≠ n) (rest : List (String × Item)) :
    sumCostN n ((k, it) :: rest) = sumCostN n rest := by
  simp [sumCostN, List.filter, h]

theorem firstWithNorm_cons_eq {n : String} {k : String} {it : Item}
    (h : normName it.material = n) (rest : List (String × Item)) :
    firstWithNorm n ((k, it) :: rest) = some (k, it) := by
  simp [firstWithNorm, List.find?, h]

theorem firstWithNorm_cons_ne {n : String} {k : String} {it : Item}
    (h : normName it.material ≠ n) (rest : List (String × Item)) :
    firstWithNorm n ((k, it) :: rest) = firstWithNorm n rest := by
  simp [firstWithNorm, List.find?, h]

/-! ## C9 — display combiner: the grouping invariant -/

/-- Relation between a pre-existing group (its `index_by_norm` entry
paired with its `combined` entry at the start of a combiner run) and the
corresponding output entry: same key, material and unit price, with the
quantities and costs of the matching remaining input added. -/
def oldRel (mc : List (String × Item)) (p : (String × String) × (String × Item))
    (kit : String × Item) : Prop :=
  kit.1 = p.2.1 ∧ kit.2.material = p.2.2.material ∧
  kit.2.unit_price = p.2.2.unit_price ∧
  kit.2.quantity = p.2.2.quantity + sumQtyN p.1.1 mc ∧
  kit.2.cost = p.2.2.cost + sumCostN p.1.1 mc

/-- Relation between a freshly created `index_by_norm` entry and its
output entry: the group's normalized name is new, the key and unit price
come from the first input entry of that name, the material is its
trimmed name, and quantity and cost are the sums over the whole input. -/
def newRel (idx0 : List (String × String)) (mc : List (String × Item))
    (nk : String × String) (kit : String × Item) : Prop :=
  nk.1 ∉ idx0.map Prod.fst ∧ kit.1 = nk.2 ∧
  ∃ kit0 : String × Item, firstWithNorm nk.1 mc = some kit0 ∧ kit0.1 = nk.2 ∧
    nk.1 = normName kit0.2.material ∧ kit.2.material = strStrip kit0.2.material ∧
    kit.2.unit_price = kit0.2.unit_price ∧
    kit.2.quantity = sumQtyN nk.1 mc ∧ kit.2.cost = sumCostN nk.1 mc

/-- The bump applied by `updateEntry` to the entry of the looked-up key. -/
def updFn (k : String) (q c : ℚ) (kv : String × Item) : String × Item :=
  if kv.1 = k then (kv.1, ⟨kv.2.material, kv.2.unit_price, kv.2.quantity + q, kv.2.cost + c⟩)
  else kv

theorem updateEntry_eq_map (l : List (String × Item)) (k : String) (q c : ℚ) :
    updateEntry l k q c = l.map (updFn k q c) := rfl

theorem combineAuxP_nil (acc : List (String × Item)) (idx : List (String × String)) :
    combineAuxP [] acc idx = (acc, idx) := rfl

theorem combineAuxP_cons_update (idx : List (String × String)) (item : Item)
    (key k0 : String) (rest : List (String × Item)) (acc : List (String × Item))
    (h : lookupStr idx (normName item.material) = some k0) :
    combineAuxP ((key, item) :: rest) acc idx =
      combineAuxP rest (updateEntry acc k0 item.quantity item.cost) idx := by
  simp [combineAuxP, h]

theorem combineAuxP_cons_new (idx : List (String × String)) (item : Item)
    (key : String) (rest : List (String × Item)) (acc : List (String × Item))
    (h : lookupStr idx (normName item.material) = none) :
    combineAuxP ((key, item) :: rest) acc idx =
      combineAuxP rest
        (acc ++ [(key, ⟨strStrip item.material, item.unit_price, item.quantity, item.cost⟩)])
        (idx ++ [(normName item.material, key)]) := by
  simp [combineAuxP, h]

theorem forall₂_lock_updateEntry {idx : List (String × String)} {acc : List (String × Item)}
    (h : List.Forall₂ (fun (nk : String × String) (kit : String × Item) => nk.2 = kit.1)
      idx acc) (k : String) (q c : ℚ) :
    List.Forall₂ (fun (nk : String × String) (kit : String × Item) => nk.2 = kit.1)
      idx (updateEntry acc k q c) := by
  induction h with
  | nil => exact List.Forall₂.nil
  | cons hr ht ih =>
    rename_i nk kit l1 l2
    obtain ⟨k1, it⟩ := kit
    rw [updateEntry_cons]
    refine List.Forall₂.cons ?_ ih
    by_cases hk : k1 = k <;> simp [hk] at hr ⊢ <;> simp [hr]

theorem forall₂_append_split {α : Type} {β : Type} {R : α → β → Prop}
    {l1 l2 : List α} {out : List β} (h : List.Forall₂ R (l1 ++ l2) out) :
    ∃ o1 o2, out = o1 ++ o2 ∧ List.Forall₂ R l1 o1 ∧ List.Forall₂ R l2 o2 := by
  induction l1 generalizing out with
  | nil => exact ⟨[], out, rfl, List.Forall₂.nil, h⟩
  | cons a t ih =>
    cases h with
    | cons hr ht =>
      obtain ⟨o1, o2, rfl, h1, h2⟩ := ih ht
      exact ⟨_ :: o1, o2, rfl, List.Forall₂.cons hr h1, h2⟩

theorem forall₂_singleton_right {α : Type} {β : Type} {R : α → β → Prop}
    {a : α} {out : List β} (h : List.Forall₂ R [a] out) :
    ∃ b, out = [b] ∧ R a b := by
  cases h with
  | cons hr ht =>
    cases ht
    exact ⟨_, rfl, hr⟩

theorem forall₂_oldRel_nil {idx : List (String × String)} {acc : List (String × Item)}
    (hlock : List.Forall₂ (fun (nk : String × String) (kit : String × Item) => nk.2 = kit.1)
      idx acc) : List.Forall₂ (oldRel []) (idx.zip acc) acc := by
  induction hlock with
  | nil => exact List.Forall₂.nil
  | cons hr ht ih =>
    rename_i nk kit l1 l2
    rw [List.zip_cons_cons]
    exact List.Forall₂.cons ⟨rfl, rfl, rfl, by simp [sumQtyN], by simp [sumCostN]⟩ ih

/-- The central invariant of `combine_duplicate_materials`: one run of the
loop adds the quantities and costs of the input to the matching
pre-existing groups and creates one fresh group per new normalized name,
keyed and priced by its first entry; the total cost is preserved. -/
theorem combineAuxP_spec (mc : List (String × Item)) :
    ∀ (acc : List (String × Item)) (idx : List (String × String)),
    List.Forall₂ (fun (nk : String × String) (kit : String × Item) => nk.2 = kit.1) idx acc →
    (idx.map Prod.fst).Nodup →
    (acc.map Prod.fst).Nodup →
    (∀ kv ∈ mc, kv.1 ∉ acc.map Prod.fst) →
    (mc.map Prod.fst).Nodup →
    costSum (combineAuxP mc acc idx).1 = costSum acc + costSum mc ∧
    ((combineAuxP mc acc idx).2.map Prod.fst).Nodup ∧
    ∃ accOld accNew idxNew,
      (combineAuxP mc acc idx).1 = accOld ++ accNew ∧
      (combineAuxP mc acc idx).2 = idx ++ idxNew ∧
      List.Forall₂ (oldRel mc) (idx.zip acc) accOld ∧
      List.Forall₂ (newRel idx mc) idxNew accNew := by
  induction mc with
  | nil =>
    intro acc idx hlock hnorms hkeys hfresh hmck
    exact ⟨by simp [combineAuxP_nil], by simpa [combineAuxP_nil] using hnorms,
      acc, [], [], by simp [combineAuxP_nil], by simp [combineAuxP_nil],
      forall₂_oldRel_nil hlock, List.Forall₂.nil⟩
  | cons hd rest ih =>
    intro acc idx hlock hnorms hkeys hfresh hmck
    obtain ⟨key, item⟩ := hd
    rw [List.map_cons, List.nodup_cons] at hmck
    cases hls : lookupStr idx (normName item.material) with
    | some k0 =>
      have hstep := combineAuxP_cons_update idx item key k0 rest acc hls
      have hmemidx : (normName item.material, k0) ∈ idx := lookupStr_mem hls
      have hsndeq : idx.map Prod.snd = acc.map Prod.fst := forall₂_snd_fst_map_eq hlock
      have hk0acc : k0 ∈ acc.map Prod.fst := by
        rw [← hsndeq]
        exact List.mem_map_of_mem _ hmemidx
      have hlock2 := forall₂_lock_updateEntry hlock k0 item.quantity item.cost
      have hkeys2 : ((updateEntry acc k0 item.quantity item.cost).map Prod.fst).Nodup := by
        rw [updateEntry_keys]
        exact hkeys
      have hfresh2 : ∀ kv ∈ rest,
          kv.1 ∉ (updateEntry acc k0 item.quantity item.cost).map Prod.fst := by
        intro kv hkv
        rw [updateEntry_keys]
        exact hfresh kv (List.mem_cons_of_mem _ hkv)
      obtain ⟨hC, hN, accOld, accNew, idxNew, ho1, ho2, hOld, hNew⟩ :=
        ih (updateEntry acc k0 item.quantity item.cost) idx hlock2 hnorms hkeys2 hfresh2 hmck.2
      rw [hstep]
      refine ⟨?_, hN, accOld, accNew, idxNew, ho1, ho2, ?_, ?_⟩
      · rw [hC, costSum_updateEntry item.quantity item.cost hkeys hk0acc, costSum_cons]
        ring
      · rw [List.forall₂_iff_zip] at hOld ⊢
        have hlenzip : (idx.zip (updateEntry acc k0 item.quantity item.cost)).length
            = (idx.zip acc).length := by
          rw [updateEntry_eq_map, List.zip_map_right, List.length_map]
        refine ⟨by rw [← hlenzip]; exact hOld.1, ?_⟩
        intro p kit hmem
        obtain ⟨nk, kv⟩ := p
        have hmem2 : ((nk, updFn k0 item.quantity item.cost kv), kit) ∈
            (idx.zip (updateEntry acc k0 item.quantity item.cost)).zip accOld := by
          rw [updateEntry_eq_map, List.zip_map_right, List.zip_map_left]
          exact List.mem_map_of_mem _ hmem
        have hrel := hOld.2 hmem2
        have hmemzz := List.of_mem_zip hmem
        have hmemidx2 : nk ∈ idx := (List.of_mem_zip hmemzz.1).1
        have hpair : nk.2 = kv.1 := List.forall₂_zip hlock hmemzz.1
        by_cases hkk : kv.1 = k0
        · have hnk : nk = (normName item.material, k0) := by
            have hsnodup : (idx.map Prod.snd).Nodup := by
              rw [hsndeq]
              exact hkeys
            refine List.inj_on_of_nodup_map hsnodup hmemidx2 hmemidx ?_
            show nk.2 = k0
            rw [hpair, hkk]
          have hnk1 : nk.1 = normName item.material := by rw [hnk]
          have hupd : updFn k0 item.quantity item.cost kv = (kv.1,
              ⟨kv.2.material, kv.2.unit_price, kv.2.quantity + item.quantity,
                kv.2.cost + item.cost⟩) := by
            unfold updFn
            rw [if_pos hkk]
          rw [hupd] at hrel
          obtain ⟨h1, h2, h3, h4, h5⟩ := hrel
          refine ⟨h1, h2, h3, ?_, ?_⟩
          · rw [hnk1, sumQtyN_cons_eq rfl]
            rw [hnk1] at h4
            rw [h4]
            show kv.2.quantity + item.quantity + _ = _
            ring
          · rw [hnk1, sumCostN_cons_eq rfl]
            rw [hnk1] at h5
            rw [h5]
            show kv.2.cost + item.cost + _ = _
            ring
        · have hne : normName item.material ≠ nk.1 := by
            intro hc
            apply hkk
            have hnk : nk = (normName item.material, k0) := by
              refine List.inj_on_of_nodup_map hnorms hmemidx2 hmemidx ?_
              show nk.1 = normName item.material
              rw [hc]
            rw [← hpair, hnk]
          have hupd : updFn k0 item.quantity item.cost kv = kv := by
            unfold updFn
            rw [if_neg hkk]
          rw [hupd] at hrel
          obtain ⟨h1, h2, h3, h4, h5⟩ := hrel
          exact ⟨h1, h2, h3, by rw [sumQtyN_cons_ne hne]; exact h4,
            by rw [sumCostN_cons_ne hne]; exact h5⟩
      · refine hNew.imp ?_
        intro nk kit hr
        obtain ⟨hni, hk1, kit0, hf, hk0b, hnn, hm2, hu, hq, hc⟩ := hr
        have hne : normName item.material ≠ nk.1 := by
          intro hc2
          apply hni
          rw [← hc2]
          exact List.mem_map_of_mem _ hmemidx
        exact ⟨hni, hk1, kit0, by rw [firstWithNorm_cons_ne hne]; exact hf, hk0b, hnn, hm2, hu,
          by rw [sumQtyN_cons_ne hne]; exact hq, by rw [sumCostN_cons_ne hne]; exact hc⟩
    | none =>
      have hstep := combineAuxP_cons_new idx item key rest acc hls
      have hn0 : normName item.material ∉ idx.map Prod.fst := lookupStr_eq_none.mp hls
      have hkeyfresh : key ∉ acc.map Prod.fst := hfresh (key, item) (List.mem_cons_self _ _)
      have hlock2 : List.Forall₂ (fun (nk : String × String) (kit : String × Item) =>
          nk.2 = kit.1) (idx ++ [(normName item.material, key)])
          (acc ++ [(key, ⟨strStrip item.material, item.unit_price, item.quantity, item.cost⟩)]) :=
        List.rel_append hlock (List.Forall₂.cons rfl List.Forall₂.nil)
      have hnorms2 : (((idx ++ [(normName item.material, key)]).map Prod.fst)).Nodup := by
        rw [List.map_append, List.nodup_append]
        refine ⟨hnorms, List.nodup_singleton _, ?_⟩
        intro a ha hb
        simp only [List.map_cons, List.map_nil, List.mem_singleton] at hb
        rw [hb] at ha
        exact hn0 ha
      have hkeys2 : ((acc ++
          [(key, (⟨strStrip item.material, item.unit_price, item.quantity, item.cost⟩ : Item))]).map
            Prod.fst).Nodup := by
        rw [List.map_append, List.nodup_append]
        refine ⟨hkeys, List.nodup_singleton _, ?_⟩
        intro a ha hb
        simp only [List.map_cons, List.map_nil, List.mem_singleton] at hb
        rw [hb] at ha
        exact hkeyfresh ha
      have hfresh2 : ∀ kv ∈ rest, kv.1 ∉ (acc ++
          [(key, (⟨strStrip item.material, item.unit_price, item.quantity, item.cost⟩ : Item))]).map
            Prod.fst := by
        intro kv hkv
        rw [List.map_append, List.mem_append]
        rintro (h | h)
        · exact hfresh kv (List.mem_cons_of_mem _ hkv) h
        · simp only [List.map_cons, List.map_nil, List.mem_singleton] at h
          have hkeynot : key ∉ rest.map Prod.fst := hmck.1
          apply hkeynot
          rw [← h]
          exact List.mem_map_of_mem _ hkv
      obtain ⟨hC, hN, accOld2, accNew2, idxNew2, ho1, ho2, hOld2, hNew2⟩ :=
        ih (acc ++ [(key, ⟨strStrip item.material, item.unit_price, item.quantity, item.cost⟩)])
          (idx ++ [(normName item.material, key)]) hlock2 hnorms2 hkeys2 hfresh2 hmck.2
      rw [hstep]
      have hzip : (idx ++ [(normName item.material, key)]).zip
          (acc ++ [(key, (⟨strStrip item.material, item.unit_price, item.quantity,
            item.cost⟩ : Item))]) = idx.zip acc ++ [((normName item.material, key),
            (key, ⟨strStrip item.material, item.unit_price, item.quantity, item.cost⟩))] :=
        List.zip_append hlock.length_eq
      rw [hzip] at hOld2
      obtain ⟨X, Y, hXY, hX, hY⟩ := forall₂_append_split hOld2
      obtain ⟨y0, hy0, hrel0⟩ := forall₂_singleton_right hY
      subst hy0
      refine ⟨?_, hN, X, y0 :: accNew2, (normName item.material, key) :: idxNew2, ?_, ?_, ?_, ?_⟩
      · rw [hC, costSum_append, costSum_cons, costSum_nil, costSum_cons]
        show costSum acc + ((⟨strStrip item.material, item.unit_price, item.quantity,
          item.cost⟩ : Item).cost + 0) + costSum rest = costSum acc + (item.cost + costSum rest)
        show costSum acc + (item.cost + 0) + costSum rest = _
        ring
      · rw [ho1, hXY, List.append_assoc]
        rfl
      · rw [ho2, List.append_assoc]
        rfl
      · rw [List.forall₂_iff_zip] at hX ⊢
        refine ⟨hX.1, ?_⟩
        intro p kit hmem
        have hrel := hX.2 hmem
        obtain ⟨nk, kv⟩ := p
        have hmemzz := List.of_mem_zip hmem
        have hmemidx2 : nk ∈ idx := (List.of_mem_zip hmemzz.1).1
        have hne : normName item.material ≠ nk.1 := by
          intro hc
          apply hn0
          rw [hc]
          exact List.mem_map_of_mem _ hmemidx2
        obtain ⟨h1, h2, h3, h4, h5⟩ := hrel
        exact ⟨h1, h2, h3, by rw [sumQtyN_cons_ne hne]; exact h4,
          by rw [sumCostN_cons_ne hne]; exact h5⟩
      · refine List.Forall₂.cons ?_ (hNew2.imp ?_)
        · obtain ⟨h1, h2, h3, h4, h5⟩ := hrel0
          refine ⟨hn0, h1, (key, item), firstWithNorm_cons_eq rfl rest, rfl, rfl, h2, h3, ?_, ?_⟩
          · rw [sumQtyN_cons_eq rfl, h4]
          · rw [sumCostN_cons_eq rfl, h5]
        · intro nk kit hr
          obtain ⟨hni, hk1, kit0, hf, hk0b, hnn, hm2, hu, hq, hc⟩ := hr
          rw [List.map_append, List.mem_append] at hni
          push_neg at hni
          have hnotidx : nk.1 ∉ idx.map Prod.fst := hni.1
          have hnen0 : nk.1 ≠ normName item.material := by
            have := hni.2
            simp only [List.map_cons, List.map_nil, List.mem_singleton] at this
            exact this
          have hne : normName item.material ≠ nk.1 := fun hc2 => hnen0 hc2.symm
          exact ⟨hnotidx, hk1, kit0, by rw [firstWithNorm_cons_ne hne]; exact hf, hk0b, hnn,
            hm2, hu, by rw [sumQtyN_cons_ne hne]; exact hq,
            by rw [sumCostN_cons_ne hne]; exact hc⟩

/-- C9: the display combiner groups the entries of a `material_costs`
mapping by case-insensitive, whitespace-trimmed material name; every
output group carries the key, trimmed material name and unit price of
the first-seen entry of its normalized name, and the sums of the
quantities and costs of all entries with that name; the group names are
pairwise distinct and the total cost over the output equals the total
cost over the input. -/
theorem C9_combiner (mc : List (String × Item)) (hkeys : (mc.map Prod.fst).Nodup) :
    costSum (combine_duplicate_materials mc) = costSum mc ∧
    ((combine_index mc).map Prod.fst).Nodup ∧
    List.Forall₂ (fun (nk : String × String) (kit : String × Item) =>
      kit.1 = nk.2 ∧
      ∃ kit0 : String × Item, firstWithNorm nk.1 mc = some kit0 ∧ kit0.1 = nk.2 ∧
        nk.1 = normName kit0.2.material ∧ kit.2.material = strStrip kit0.2.material ∧
        kit.2.unit_price = kit0.2.unit_price ∧
        kit.2.quantity = sumQtyN nk.1 mc ∧ kit.2.cost = sumCostN nk.1 mc)
      (combine_index mc) (combine_duplicate_materials mc) := by
  obtain ⟨hC, hN, accOld, accNew, idxNew, ho1, ho2, hOld, hNew⟩ :=
    combineAuxP_spec mc [] [] List.Forall₂.nil (by simp) (by simp) (by simp) hkeys
  cases hOld
  refine ⟨?_, ?_, ?_⟩
  · show costSum (combineAuxP mc [] []).1 = costSum mc
    rw [hC]
    simp
  · exact hN
  · show List.Forall₂ _ (combineAuxP mc [] []).2 (combineAuxP mc [] []).1
    rw [ho1, ho2, List.nil_append, List.nil_append]
    refine hNew.imp ?_
    intro nk kit hr
    obtain ⟨hni, hk1, kit0, hf, hk0b, hnn, hm2, hu, hq, hc⟩ := hr
    exact ⟨hk1, kit0, hf, hk0b, hnn, hm2, hu, hq, hc⟩

/-- A mapping with two differently-keyed entries whose material names
collide up to case and whitespace. -/
def mcW : List (String × Item) :=
  [("wire_standard", ⟨" HT Wire ", 139, 1, 139⟩),
   ("wire_top_barb", ⟨"ht wire", 150, 2, 300⟩),
   ("posts", ⟨"Post", 10, 3, 30⟩)]

/-- Witness for C9 at `mcW`: the combiner preserves the total cost, and
concretely merges the two wire entries into one group with summed
quantity 3 and cost 439, keeping the first-seen unit price 139 and the
trimmed first-seen name. -/
theorem C9_witness :
    costSum (combine_duplicate_materials mcW) = costSum mcW ∧
    combine_duplicate_materials mcW =
      [("wire_standard", ⟨"HT Wire", 139, 3, 439⟩), ("posts", ⟨"Post", 10, 3, 30⟩)] :=
  ⟨(C9_combiner mcW (by decide)).1, by with_unfolding_all decide⟩

/-! ## C8 — monotonicity in the fence length -/

/-- The same inputs with only the fence length replaced. -/
def withLen (I : Inputs) (L : ℚ) : Inputs := ⟨I.ft, I.cat, I.stg, {I.rq with fence_length := L}⟩

@[simp]
theorem withLen_len (I : Inputs) (L : ℚ) : (withLen I L).rq.fence_length = L := rfl

@[simp]
theorem spacing_withLen (I : Inputs) (L : ℚ) : spacing (withLen I L) = spacing I := rfl

@[simp]
theorem twt_withLen (I : Inputs) (L : ℚ) : twt (withLen I L) = twt I := rfl

@[simp]
theorem netting_norm_withLen (I : Inputs) (L : ℚ) :
    netting_norm (withLen I L) = netting_norm I := rfl

@[simp]
theorem total_wires_withLen (I : Inputs) (L : ℚ) :
    total_wires (withLen I L) = total_wires I := rfl

@[simp]
theorem special_wires_withLen (I : Inputs) (L : ℚ) :
    special_wires (withLen I L) = special_wires I := rfl

@[simp]
theorem standard_wires_withLen (I : Inputs) (L : ℚ) :
    standard_wires (withLen I L) = standard_wires I := rfl

@[simp]
theorem lr_withLen (I : Inputs) (L : ℚ) : lr (withLen I L) = lr I := rfl

@[simp]
theorem br_withLen (I : Inputs) (L : ℚ) : br (withLen I L) = br I := rfl

@[simp]
theorem ov_withLen (I : Inputs) (L : ℚ) : ov (withLen I L) = ov I := rfl

@[simp]
theorem interval_m_withLen (I : Inputs) (L : ℚ) :
    interval_m (withLen I L) = interval_m I := rfl

@[simp]
theorem spb_withLen (I : Inputs) (L : ℚ) : spb (withLen I L) = spb I := rfl

@[simp]
theorem stapled_wires_withLen (I : Inputs) (L : ℚ) :
    stapled_wires (withLen I L) = stapled_wires I := rfl

@[simp]
theorem num_hot_wires_withLen (I : Inputs) (L : ℚ) :
    num_hot_wires (withLen I L) = num_hot_wires I := rfl

@[simp]
theorem stay_posts_mat_withLen (I : Inputs) (L : ℚ) :
    stay_posts_mat (withLen I L) = stay_posts_mat I := rfl

@[simp]
theorem ft_withLen (I : Inputs) (L : ℚ) : (withLen I L).ft = I.ft := rfl

@[simp]
theorem cat_withLen (I : Inputs) (L : ℚ) : (withLen I L).cat = I.cat := rfl

@[simp]
theorem stg_withLen (I : Inputs) (L : ℚ) : (withLen I L).stg = I.stg := rfl

theorem cost_term_mono {p q1 q2 : ℚ} (hp : 0 ≤ p) (hq : q1 ≤ q2) :
    quantize_2 (p * q1) ≤ quantize_2 (p * q2) :=
  quantize_2_mono (mul_le_mul_of_nonneg_left hq hp)

theorem cost_term_nonneg {p q : ℚ} (hp : 0 ≤ p) (hq : 0 ≤ q) :
    0 ≤ quantize_2 (p * q) :=
  quantize_2_nonneg (mul_nonneg hp hq)

theorem posts_required_withLen (I : Inputs) (L : ℚ) :
    posts_required (withLen I L) = ceil_div L (spacing I) + 1 := rfl

theorem posts_required_mono (I : Inputs) {L1 L2 : ℚ} (hs : 0 < spacing I) (h12 : L1 ≤ L2) :
    posts_required (withLen I L1) ≤ posts_required (withLen I L2) := by
  rw [posts_required_withLen, posts_required_withLen]
  exact add_le_add_right (ceil_div_mono hs h12) 1

theorem posts_required_pos (I : Inputs) {L : ℚ} (h0 : 0 ≤ L) (hs : 0 < spacing I) :
    1 ≤ posts_required (withLen I L) := by
  rw [posts_required_withLen]
  have := ceil_div_nonneg h0 hs.le
  omega

theorem standard_wire_len_m_withLen (I : Inputs) (L : ℚ) :
    standard_wire_len_m (withLen I L) = quantize_2 ((standard_wires I : ℚ) * L) := rfl

theorem special_wire_len_m_withLen (I : Inputs) (L : ℚ) :
    special_wire_len_m (withLen I L) = quantize_2 ((special_wires I : ℚ) * L) := rfl

theorem standard_wire_len_m_mono (I : Inputs) {L1 L2 : ℚ} (h12 : L1 ≤ L2) :
    standard_wire_len_m (withLen I L1) ≤ standard_wire_len_m (withLen I L2) := by
  rw [standard_wire_len_m_withLen, standard_wire_len_m_withLen]
  refine quantize_2_mono (mul_le_mul_of_nonneg_left h12 ?_)
  exact_mod_cast standard_wires_nonneg I

theorem special_wire_len_m_mono (I : Inputs) {L1 L2 : ℚ} (h12 : L1 ≤ L2)
    (hsw : 0 ≤ special_wires I) :
    special_wire_len_m (withLen I L1) ≤ special_wire_len_m (withLen I L2) := by
  rw [special_wire_len_m_withLen, special_wire_len_m_withLen]
  exact quantize_2_mono (mul_le_mul_of_nonneg_left h12 (by exact_mod_cast hsw))

theorem pos_of_quantize_2_pos {x : ℚ} (h : 0 < quantize_2 x) : 0 < x := by
  by_contra hc
  push_neg at hc
  have := quantize_2_mono hc
  rw [quantize_2_zero] at this
  linarith

theorem special_wires_pos_of_len_pos (I : Inputs) {L : ℚ} (h0 : 0 ≤ L)
    (h : 0 < special_wire_len_m (withLen I L)) : 0 < special_wires I := by
  rw [special_wire_len_m_withLen] at h
  have hx := pos_of_quantize_2_pos h
  by_contra hc
  push_neg at hc
  have : (special_wires I : ℚ) * L ≤ 0 :=
    mul_nonpos_of_nonpos_of_nonneg (by exact_mod_cast hc) h0
  linarith

theorem special_mat0_cases (I : Inputs) (L : ℚ) :
    special_wire_material0 (withLen I L) = none ∨
    special_wire_material0 (withLen I L) = I.ft.wire_material ∨
    special_wire_material0 (withLen I L) = I.ft.barb_wire_material := by
  unfold special_wire_material0
  simp only [ft_withLen, twt_withLen]
  split
  · split
    · right
      left
      rfl
    · split
      · cases hb : I.ft.barb_wire_material with
        | some b =>
          right
          right
          rfl
        | none =>
          right
          left
          rfl
      · left
        rfl
  · left
    rfl

theorem special_roll_pos (I : Inputs) (L : ℚ)
    (hrw : 0 < get_roll_length I.stg I.ft.wire_material)
    (hrb : 0 < get_roll_length I.stg I.ft.barb_wire_material)
    {m : Material} (hm : special_wire_material0 (withLen I L) = some m) :
    0 < get_roll_length I.stg (some m) := by
  rcases special_mat0_cases I L with h | h | h
  · rw [h] at hm
    cases hm
  · rw [h] at hm
    exact hm ▸ hrw
  · rw [h] at hm
    exact hm ▸ hrb

theorem special_mat0_eq (I : Inputs) {L1 L2 : ℚ}
    (h1 : 0 < special_wire_len_m (withLen I L1))
    (h2 : 0 < special_wire_len_m (withLen I L2)) :
    special_wire_material0 (withLen I L1) = special_wire_material0 (withLen I L2) := by
  unfold special_wire_material0
  rw [if_pos h1, if_pos h2]
  simp only [twt_withLen, ft_withLen]

theorem special_wire_rolls0_nonneg (I : Inputs) (L : ℚ)
    (hrw : 0 < get_roll_length I.stg I.ft.wire_material)
    (hrb : 0 < get_roll_length I.stg I.ft.barb_wire_material) :
    0 ≤ special_wire_rolls0 (withLen I L) := by
  unfold special_wire_rolls0
  split
  · rename_i hlen
    cases hm : special_wire_material0 (withLen I L) with
    | none => exact le_refl 0
    | some m =>
      have := special_roll_pos I L hrw hrb hm
      have hc := ceil_div_nonneg (le_of_lt hlen) this.le
      show (0 : ℚ) ≤
        ((ceil_div (special_wire_len_m (withLen I L)) (get_roll_length I.stg (some m)) : ℤ) : ℚ)
      exact_mod_cast hc
  · exact le_refl 0

theorem special_wire_rolls0_mono (I : Inputs) {L1 L2 : ℚ} (h0 : 0 ≤ L1) (h12 : L1 ≤ L2)
    (hrw : 0 < get_roll_length I.stg I.ft.wire_material)
    (hrb : 0 < get_roll_length I.stg I.ft.barb_wire_material) :
    special_wire_rolls0 (withLen I L1) ≤ special_wire_rolls0 (withLen I L2) := by
  by_cases hp1 : 0 < special_wire_len_m (withLen I L1)
  · have hsw : 0 < special_wires I := special_wires_pos_of_len_pos I h0 hp1
    have hlenm : special_wire_len_m (withLen I L1) ≤ special_wire_len_m (withLen I L2) :=
      special_wire_len_m_mono I h12 hsw.le
    have hp2 : 0 < special_wire_len_m (withLen I L2) := lt_of_lt_of_le hp1 hlenm
    have hmat := special_mat0_eq I hp1 hp2
    unfold special_wire_rolls0
    rw [if_pos hp1, if_pos hp2, ← hmat]
    cases hm : special_wire_material0 (withLen I L1) with
    | none => exact le_refl 0
    | some m =>
      have hroll := special_roll_pos I L1 hrw hrb hm
      have := ceil_div_mono hroll hlenm
      show ((ceil_div (special_wire_len_m (withLen I L1)) (get_roll_length I.stg (some m)) : ℤ) : ℚ) ≤
        ((ceil_div (special_wire_len_m (withLen I L2)) (get_roll_length I.stg (some m)) : ℤ) : ℚ)
      exact_mod_cast this
  · have h1 : special_wire_rolls0 (withLen I L1) = 0 := by
      unfold special_wire_rolls0
      rw [if_neg hp1]
    rw [h1]
    exact special_wire_rolls0_nonneg I L2 hrw hrb

theorem standard_wire_rolls_nonneg (I : Inputs) (L : ℚ) (h0 : 0 ≤ L)
    (hrw : 0 < get_roll_length I.stg I.ft.wire_material) :
    0 ≤ standard_wire_rolls (withLen I L) := by
  unfold standard_wire_rolls
  split
  · rename_i hcond
    have hc := ceil_div_nonneg (le_of_lt hcond.1) (by simpa using hrw.le)
    exact_mod_cast hc
  · exact le_refl 0

theorem standard_wire_rolls_mono (I : Inputs) {L1 L2 : ℚ} (h0 : 0 ≤ L1) (h12 : L1 ≤ L2)
    (hrw : 0 < get_roll_length I.stg I.ft.wire_material) :
    standard_wire_rolls (withLen I L1) ≤ standard_wire_rolls (withLen I L2) := by
  have hlenm := standard_wire_len_m_mono I h12
  by_cases hp1 : 0 < standard_wire_len_m (withLen I L1) ∧
      (withLen I L1).ft.wire_material.isSome
  · have hp2 : 0 < standard_wire_len_m (withLen I L2) ∧
        (withLen I L2).ft.wire_material.isSome :=
      ⟨lt_of_lt_of_le hp1.1 hlenm, hp1.2⟩
    unfold standard_wire_rolls
    rw [if_pos hp1, if_pos hp2]
    have := ceil_div_mono (by simpa using hrw) hlenm
    exact_mod_cast this
  · have h1 : standard_wire_rolls (withLen I L1) = 0 := by
      unfold standard_wire_rolls
      rw [if_neg hp1]
    rw [h1]
    exact standard_wire_rolls_nonneg I L2 (le_trans h0 h12) hrw

theorem wire_combined_len_pos {I : Inputs} {L : ℚ} (h : wire_combined (withLen I L) = true) :
    0 < special_wire_len_m (withLen I L) := by
  by_contra hc
  have hm : special_wire_material0 (withLen I L) = none := by
    unfold special_wire_material0
    rw [if_neg hc]
  unfold wire_combined at h
  rw [hm] at h
  exact absurd h (by simp)

theorem wire_combined_eq (I : Inputs) {L1 L2 : ℚ}
    (h1 : 0 < special_wire_len_m (withLen I L1))
    (h2 : 0 < special_wire_len_m (withLen I L2)) :
    wire_combined (withLen I L1) = wire_combined (withLen I L2) := by
  unfold wire_combined
  rw [special_mat0_eq I h1 h2]
  simp only [ft_withLen]

theorem total_standard_wire_rolls_nonneg (I : Inputs) (L : ℚ) (h0 : 0 ≤ L)
    (hrw : 0 < get_roll_length I.stg I.ft.wire_material)
    (hrb : 0 < get_roll_length I.stg I.ft.barb_wire_material) :
    0 ≤ total_standard_wire_rolls (withLen I L) := by
  unfold total_standard_wire_rolls
  split
  · exact add_nonneg (standard_wire_rolls_nonneg I L h0 hrw)
      (special_wire_rolls0_nonneg I L hrw hrb)
  · exact standard_wire_rolls_nonneg I L h0 hrw

theorem total_standard_wire_rolls_mono (I : Inputs) {L1 L2 : ℚ} (h0 : 0 ≤ L1)
    (h12 : L1 ≤ L2)
    (hrw : 0 < get_roll_length I.stg I.ft.wire_material)
    (hrb : 0 < get_roll_length I.stg I.ft.barb_wire_material) :
    total_standard_wire_rolls (withLen I L1) ≤ total_standard_wire_rolls (withLen I L2) := by
  have hstdm := standard_wire_rolls_mono I h0 h12 hrw
  by_cases hc1 : wire_combined (withLen I L1) = true
  · have hl1 := wire_combined_len_pos hc1
    have hsw := special_wires_pos_of_len_pos I h0 hl1
    have hl2 : 0 < special_wire_len_m (withLen I L2) :=
      lt_of_lt_of_le hl1 (special_wire_len_m_mono I h12 hsw.le)
    have hc2 : wire_combined (withLen I L2) = true := by
      rw [← wire_combined_eq I hl1 hl2]
      exact hc1
    unfold total_standard_wire_rolls
    rw [hc1, hc2]
    simp only [if_true]
    exact add_le_add hstdm (special_wire_rolls0_mono I h0 h12 hrw hrb)
  · have h1 : total_standard_wire_rolls (withLen I L1) = standard_wire_rolls (withLen I L1) := by
      unfold total_standard_wire_rolls
      rw [if_neg hc1]
    rw [h1]
    unfold total_standard_wire_rolls
    split
    · calc standard_wire_rolls (withLen I L1) ≤ standard_wire_rolls (withLen I L2) := hstdm
        _ ≤ standard_wire_rolls (withLen I L2) + special_wire_rolls0 (withLen I L2) := by
            have := special_wire_rolls0_nonneg I L2 hrw hrb
            linarith
    · exact hstdm

theorem special_wire_rolls_nonneg (I : Inputs) (L : ℚ)
    (hrw : 0 < get_roll_length I.stg I.ft.wire_material)
    (hrb : 0 < get_roll_length I.stg I.ft.barb_wire_material) :
    0 ≤ special_wire_rolls (withLen I L) := by
  unfold special_wire_rolls
  split
  · exact le_refl 0
  · exact special_wire_rolls0_nonneg I L hrw hrb

theorem special_wire_rolls_mono (I : Inputs) {L1 L2 : ℚ} (h0 : 0 ≤ L1) (h12 : L1 ≤ L2)
    (hrw : 0 < get_roll_length I.stg I.ft.wire_material)
    (hrb : 0 < get_roll_length I.stg I.ft.barb_wire_material) :
    special_wire_rolls (withLen I L1) ≤ special_wire_rolls (withLen I L2) := by
  by_cases hp1 : 0 < special_wire_len_m (withLen I L1)
  · have hsw := special_wires_pos_of_len_pos I h0 hp1
    have hp2 : 0 < special_wire_len_m (withLen I L2) :=
      lt_of_lt_of_le hp1 (special_wire_len_m_mono I h12 hsw.le)
    have hcomb := wire_combined_eq I hp1 hp2
    unfold special_wire_rolls
    rw [← hcomb]
    by_cases hc1 : wire_combined (withLen I L1) = true
    · rw [hc1]
      simp
    · rw [Bool.not_eq_true] at hc1
      rw [hc1]
      simp only [Bool.false_eq_true, if_false]
      exact special_wire_rolls0_mono I h0 h12 hrw hrb
  · have h1 : special_wire_rolls (withLen I L1) = 0 := by
      unfold special_wire_rolls
      split
      · rfl
      · unfold special_wire_rolls0
        rw [if_neg hp1]
    rw [h1]
    exact special_wire_rolls_nonneg I L2 hrw hrb

theorem wire_rolls_required_mono (I : Inputs) {L1 L2 : ℚ} (h0 : 0 ≤ L1) (h12 : L1 ≤ L2)
    (hrw : 0 < get_roll_length I.stg I.ft.wire_material)
    (hrb : 0 < get_roll_length I.stg I.ft.barb_wire_material) :
    wire_rolls_required (withLen I L1) ≤ wire_rolls_required (withLen I L2) := by
  rw [wire_rolls_required_eq, wire_rolls_required_eq]
  exact add_le_add (standard_wire_rolls_mono I h0 h12 hrw)
    (special_wire_rolls0_mono I h0 h12 hrw hrb)

theorem end_posts_nonneg (I : Inputs) {L : ℚ} (h0 : 0 ≤ L) (hs : 0 < spacing I) :
    0 ≤ end_posts (withLen I L) := by
  have h1 := posts_required_pos I h0 hs
  unfold end_posts
  split <;> omega

theorem end_posts_mono (I : Inputs) {L1 L2 : ℚ} (hs : 0 < spacing I) (h12 : L1 ≤ L2) :
    end_posts (withLen I L1) ≤ end_posts (withLen I L2) := by
  have hp := posts_required_mono I hs h12
  unfold end_posts
  split <;> split <;> omega

theorem line_posts_nonneg (I : Inputs) (L : ℚ) : 0 ≤ line_posts (withLen I L) :=
  le_max_right _ _

theorem line_posts_mono (I : Inputs) {L1 L2 : ℚ} (hs : 0 < spacing I) (h12 : L1 ≤ L2) :
    line_posts (withLen I L1) ≤ line_posts (withLen I L2) := by
  have hp := posts_required_mono I hs h12
  unfold line_posts end_posts
  split <;> split <;> omega

theorem stapled_wires_nonneg (I : Inputs) : 0 ≤ stapled_wires I := by
  unfold stapled_wires
  split
  · exact total_wires_nonneg I
  · exact standard_wires_nonneg I

theorem line_staples_nonneg (I : Inputs) {L : ℚ}
    (hsl : 0 ≤ I.stg.STAPLES_PER_WIRE_PER_LINE_POST) :
    0 ≤ line_staples (withLen I L) := by
  unfold line_staples
  simp only [stapled_wires_withLen, stg_withLen]
  exact mul_nonneg (mul_nonneg (line_posts_nonneg I L) (stapled_wires_nonneg I)) hsl

theorem line_staples_mono (I : Inputs) {L1 L2 : ℚ} (hs : 0 < spacing I) (h12 : L1 ≤ L2)
    (hsl : 0 ≤ I.stg.STAPLES_PER_WIRE_PER_LINE_POST) :
    line_staples (withLen I L1) ≤ line_staples (withLen I L2) := by
  unfold line_staples
  simp only [stapled_wires_withLen, stg_withLen]
  exact mul_le_mul_of_nonneg_right
    (mul_le_mul_of_nonneg_right (line_posts_mono I hs h12) (stapled_wires_nonneg I)) hsl

theorem end_staples_nonneg (I : Inputs) {L : ℚ} (h0 : 0 ≤ L) (hs : 0 < spacing I)
    (hse : 0 ≤ I.stg.STAPLES_PER_WIRE_PER_END_POST) :
    0 ≤ end_staples (withLen I L) := by
  unfold end_staples
  simp only [stapled_wires_withLen, stg_withLen]
  exact mul_nonneg (mul_nonneg (end_posts_nonneg I h0 hs) (stapled_wires_nonneg I)) hse

theorem end_staples_mono (I : Inputs) {L1 L2 : ℚ} (hs : 0 < spacing I) (h12 : L1 ≤ L2)
    (hse : 0 ≤ I.stg.STAPLES_PER_WIRE_PER_END_POST) :
    end_staples (withLen I L1) ≤ end_staples (withLen I L2) := by
  unfold end_staples
  simp only [stapled_wires_withLen, stg_withLen]
  exact mul_le_mul_of_nonneg_right
    (mul_le_mul_of_nonneg_right (end_posts_mono I hs h12) (stapled_wires_nonneg I)) hse

theorem netting_staples_nonneg (I : Inputs) {L : ℚ} (h0 : 0 ≤ L) (hs : 0 < spacing I)
    (hsn : 0 ≤ I.stg.STAPLES_PER_POST_FOR_NETTING) :
    0 ≤ netting_staples (withLen I L) := by
  have h1 := posts_required_pos I h0 hs
  unfold netting_staples
  simp only [ft_withLen, stg_withLen]
  split
  · exact mul_nonneg (by omega) hsn
  · exact le_refl 0

theorem netting_staples_mono (I : Inputs) {L1 L2 : ℚ} (hs : 0 < spacing I) (h12 : L1 ≤ L2)
    (hsn : 0 ≤ I.stg.STAPLES_PER_POST_FOR_NETTING) :
    netting_staples (withLen I L1) ≤ netting_staples (withLen I L2) := by
  have hp := posts_required_mono I hs h12
  unfold netting_staples
  simp only [ft_withLen, stg_withLen]
  by_cases hn : I.ft.netting_material.isSome = true
  · rw [if_pos hn, if_pos hn]
    exact mul_le_mul_of_nonneg_right hp hsn
  · rw [if_neg hn, if_neg hn]

theorem total_staples_nonneg (I : Inputs) {L : ℚ} (h0 : 0 ≤ L) (hs : 0 < spacing I)
    (hsl : 0 ≤ I.stg.STAPLES_PER_WIRE_PER_LINE_POST)
    (hse : 0 ≤ I.stg.STAPLES_PER_WIRE_PER_END_POST)
    (hsn : 0 ≤ I.stg.STAPLES_PER_POST_FOR_NETTING) :
    0 ≤ total_staples (withLen I L) := by
  unfold total_staples
  have h1 := line_staples_nonneg I (L := L) hsl
  have h2 := end_staples_nonneg I h0 hs hse
  have h3 := netting_staples_nonneg I h0 hs hsn
  omega

theorem total_staples_mono (I : Inputs) {L1 L2 : ℚ} (hs : 0 < spacing I) (h12 : L1 ≤ L2)
    (hsl : 0 ≤ I.stg.STAPLES_PER_WIRE_PER_LINE_POST)
    (hse : 0 ≤ I.stg.STAPLES_PER_WIRE_PER_END_POST)
    (hsn : 0 ≤ I.stg.STAPLES_PER_POST_FOR_NETTING) :
    total_staples (withLen I L1) ≤ total_staples (withLen I L2) := by
  unfold total_staples
  have h1 := line_staples_mono I hs h12 hsl
  have h2 := end_staples_mono I hs h12 hse
  have h3 := netting_staples_mono I hs h12 hsn
  omega

theorem boxes_nonneg (I : Inputs) {L : ℚ} (h0 : 0 ≤ L) (hs : 0 < spacing I)
    (hsl : 0 ≤ I.stg.STAPLES_PER_WIRE_PER_LINE_POST)
    (hse : 0 ≤ I.stg.STAPLES_PER_WIRE_PER_END_POST)
    (hsn : 0 ≤ I.stg.STAPLES_PER_POST_FOR_NETTING) :
    0 ≤ boxes (withLen I L) := by
  unfold boxes
  simp only [spb_withLen]
  split
  · rename_i hb
    apply round_up_nonneg
    apply div_nonneg
    · exact_mod_cast total_staples_nonneg I h0 hs hsl hse hsn
    · exact_mod_cast hb.le
  · exact le_refl 0

theorem boxes_mono (I : Inputs) {L1 L2 : ℚ} (hs : 0 < spacing I) (h12 : L1 ≤ L2)
    (hsl : 0 ≤ I.stg.STAPLES_PER_WIRE_PER_LINE_POST)
    (hse : 0 ≤ I.stg.STAPLES_PER_WIRE_PER_END_POST)
    (hsn : 0 ≤ I.stg.STAPLES_PER_POST_FOR_NETTING) :
    boxes (withLen I L1) ≤ boxes (withLen I L2) := by
  unfold boxes
  simp only [spb_withLen]
  by_cases hb : 0 < spb I
  · rw [if_pos hb, if_pos hb]
    apply round_up_mono
    have hbq : (0 : ℚ) < (spb I : ℚ) := by exact_mod_cast hb
    rw [div_le_div_iff_of_pos_right hbq]
    exact_mod_cast total_staples_mono I hs h12 hsl hse hsn
  · rw [if_neg hb, if_neg hb]

theorem total_recommended_strainers_eq (I : Inputs) (L : ℚ) :
    total_recommended_strainers (withLen I L) =
      if 0 < L then max (round_up (L / interval_m I)) 2
      else round_up (L / interval_m I) := rfl

theorem total_recommended_strainers_nonneg (I : Inputs) {L : ℚ} (h0 : 0 ≤ L) :
    0 ≤ total_recommended_strainers (withLen I L) := by
  have hr : 0 ≤ round_up (L / interval_m I) := by
    apply round_up_nonneg
    exact div_nonneg h0 (interval_m_pos I).le
  rw [total_recommended_strainers_eq]
  split <;> omega

theorem total_recommended_strainers_mono (I : Inputs) {L1 L2 : ℚ} (h0 : 0 ≤ L1)
    (h12 : L1 ≤ L2) :
    total_recommended_strainers (withLen I L1) ≤ total_recommended_strainers (withLen I L2) := by
  have hi := interval_m_pos I
  have hrm : round_up (L1 / interval_m I) ≤ round_up (L2 / interval_m I) := by
    apply round_up_mono
    rw [div_le_div_iff_of_pos_right hi]
    exact h12
  have hr1 : 0 ≤ round_up (L1 / interval_m I) := by
    apply round_up_nonneg
    exact div_nonneg h0 (interval_m_pos I).le
  rw [total_recommended_strainers_eq, total_recommended_strainers_eq]
  by_cases hp1 : 0 < L1
  · have hp2 : 0 < L2 := lt_of_lt_of_le hp1 h12
    rw [if_pos hp1, if_pos hp2]
    omega
  · have hL1 : L1 = 0 := le_antisymm (not_lt.mp hp1) h0
    have ht1 : round_up (L1 / interval_m I) = 0 := by
      rw [hL1, zero_div, round_up_zero]
    rw [if_neg hp1]
    split <;> omega

theorem stay_posts_qty_nonneg (I : Inputs) (L : ℚ) : 0 ≤ stay_posts_qty (withLen I L) := by
  unfold stay_posts_qty
  omega

theorem stay_posts_qty_mono (I : Inputs) {L1 L2 : ℚ} (h12 : L1 ≤ L2) :
    stay_posts_qty (withLen I L1) ≤ stay_posts_qty (withLen I L2) := by
  have hi := interval_m_pos I
  have hrm : round_up ((withLen I L1).rq.fence_length / interval_m (withLen I L1)) ≤
      round_up ((withLen I L2).rq.fence_length / interval_m (withLen I L2)) := by
    apply round_up_mono
    simp only [withLen_len, interval_m_withLen]
    rw [div_le_div_iff_of_pos_right hi]
    exact h12
  unfold stay_posts_qty
  omega

theorem triplex_qty_nonneg (I : Inputs) {L : ℚ} (h0 : 0 ≤ L) :
    0 ≤ triplex_qty (withLen I L) := by
  apply round_up_nonneg
  apply div_nonneg h0
  norm_num

theorem triplex_qty_mono (I : Inputs) {L1 L2 : ℚ} (h12 : L1 ≤ L2) :
    triplex_qty (withLen I L1) ≤ triplex_qty (withLen I L2) := by
  apply round_up_mono
  simp only [withLen_len]
  have h500 : (0 : ℚ) < 500 := by norm_num
  rw [div_le_div_iff_of_pos_right h500]
  exact h12

theorem bullnose_per_wire_nonneg (I : Inputs) (L : ℚ) :
    0 ≤ bullnose_per_wire (withLen I L) := by
  unfold bullnose_per_wire
  split
  · omega
  · omega

theorem bullnose_per_wire_mono (I : Inputs) {L1 L2 : ℚ} (hs : 0 < spacing I) (h12 : L1 ≤ L2) :
    bullnose_per_wire (withLen I L1) ≤ bullnose_per_wire (withLen I L2) := by
  have hp := posts_required_mono I hs h12
  unfold bullnose_per_wire
  split <;> split <;> omega

theorem claw_per_wire_nonneg (I : Inputs) (L : ℚ) : 0 ≤ claw_per_wire (withLen I L) :=
  le_max_right _ _

theorem claw_per_wire_mono (I : Inputs) {L1 L2 : ℚ} (hs : 0 < spacing I) (h12 : L1 ≤ L2) :
    claw_per_wire (withLen I L1) ≤ claw_per_wire (withLen I L2) := by
  have hp := posts_required_mono I hs h12
  unfold claw_per_wire
  omega

theorem netting_rolls_required_nonneg (I : Inputs) {L : ℚ} (h0 : 0 ≤ L)
    (hrn : ∀ nm, I.ft.netting_material = some nm → 0 < netting_roll_length nm) :
    0 ≤ netting_rolls_required (withLen I L) := by
  unfold netting_rolls_required
  simp only [ft_withLen, withLen_len]
  cases hn : I.ft.netting_material with
  | none => exact le_refl 0
  | some nm =>
    have := hrn nm hn
    have hc := ceil_div_nonneg h0 this.le
    show (0 : ℚ) ≤ ((ceil_div L (netting_roll_length nm) : ℤ) : ℚ)
    exact_mod_cast hc

theorem netting_rolls_required_mono (I : Inputs) {L1 L2 : ℚ} (h12 : L1 ≤ L2)
    (hrn : ∀ nm, I.ft.netting_material = some nm → 0 < netting_roll_length nm) :
    netting_rolls_required (withLen I L1) ≤ netting_rolls_required (withLen I L2) := by
  unfold netting_rolls_required
  simp only [ft_withLen, withLen_len]
  cases hn : I.ft.netting_material with
  | none => exact le_refl 0
  | some nm =>
    have := hrn nm hn
    have hc := ceil_div_mono this h12
    show ((ceil_div L1 (netting_roll_length nm) : ℤ) : ℚ) ≤
      ((ceil_div L2 (netting_roll_length nm) : ℤ) : ℚ)
    exact_mod_cast hc

/-- Cost contribution of an optional line item. -/
def optCost (o : Option (String × Item)) : ℚ :=
  match o with
  | some kit => kit.2.cost
  | none => 0

theorem optCost_toList (o : Option (String × Item)) : costSum o.toList = optCost o := by
  cases o
  · rfl
  · simp [costSum, optCost]

theorem costSum_base (I : Inputs) :
    costSum (base_material_costs I) =
      optCost (posts_item I) + optCost (wire_standard_item I) + optCost (wire_top_item I) +
      optCost (netting_item I) + optCost (staples_item I) + optCost (bullnose_item I) +
      optCost (claw_item I) + optCost (strainers_item I) + optCost (stay_posts_item I) +
      optCost (triplex_item I) := by
  unfold base_material_costs
  simp only [costSum_append, optCost_toList]

theorem special_len_pos_of_rolls_pos {I : Inputs} {L : ℚ}
    (h : 0 < special_wire_rolls (withLen I L)) :
    0 < special_wire_len_m (withLen I L) := by
  by_contra hc
  have hz : special_wire_rolls (withLen I L) = 0 := by
    unfold special_wire_rolls
    split
    · rfl
    · unfold special_wire_rolls0
      rw [if_neg hc]
  rw [hz] at h
  exact lt_irrefl 0 h

theorem special_mat_price_nonneg (I : Inputs) (L : ℚ)
    (hpw : 0 ≤ eff_price (ov I) I.ft.wire_material)
    (hpb : 0 ≤ eff_price (ov I) I.ft.barb_wire_material)
    {sm : Material} (hm : special_wire_material (withLen I L) = some sm) :
    0 ≤ eff_price (ov I) (some sm) := by
  have hm0 : special_wire_material0 (withLen I L) = some sm := by
    unfold special_wire_material at hm
    split at hm
    · exact absurd hm (by simp)
    · exact hm
  rcases special_mat0_cases I L with h | h | h
  · rw [h] at hm0
    cases hm0
  · rw [h] at hm0
    exact hm0 ▸ hpw
  · rw [h] at hm0
    exact hm0 ▸ hpb

theorem optCost_posts_nonneg (I : Inputs) {L : ℚ} (h0 : 0 ≤ L) (hs : 0 < spacing I)
    (hp : 0 ≤ eff_price (ov I) I.ft.post_material) :
    0 ≤ optCost (posts_item (withLen I L)) := by
  unfold posts_item
  simp only [ft_withLen, ov_withLen]
  cases hm : I.ft.post_material with
  | none => exact le_refl 0
  | some pm =>
    show 0 ≤ quantize_2 (eff_price (ov I) (some pm) * (posts_required (withLen I L) : ℚ))
    apply cost_term_nonneg (hm ▸ hp)
    have h1 := posts_required_pos I h0 hs
    exact_mod_cast (by omega : (0 : ℤ) ≤ posts_required (withLen I L))

theorem optCost_posts_mono (I : Inputs) {L1 L2 : ℚ} (hs : 0 < spacing I) (h12 : L1 ≤ L2)
    (hp : 0 ≤ eff_price (ov I) I.ft.post_material) :
    optCost (posts_item (withLen I L1)) ≤ optCost (posts_item (withLen I L2)) := by
  unfold posts_item
  simp only [ft_withLen, ov_withLen]
  cases hm : I.ft.post_material with
  | none => exact le_refl 0
  | some pm =>
    show quantize_2 (eff_price (ov I) (some pm) * (posts_required (withLen I L1) : ℚ)) ≤
      quantize_2 (eff_price (ov I) (some pm) * (posts_required (withLen I L2) : ℚ))
    apply cost_term_mono (hm ▸ hp)
    exact_mod_cast posts_required_mono I hs h12

theorem optCost_wire_standard_nonneg (I : Inputs) (L : ℚ)
    (hp : 0 ≤ eff_price (ov I) I.ft.wire_material) :
    0 ≤ optCost (wire_standard_item (withLen I L)) := by
  unfold wire_standard_item
  simp only [ft_withLen, ov_withLen]
  cases hm : I.ft.wire_material with
  | none => exact le_refl 0
  | some wm =>
    dsimp only
    split
    · rename_i hg
      show 0 ≤ quantize_2 (eff_price (ov I) (some wm) * total_standard_wire_rolls (withLen I L))
      exact cost_term_nonneg (hm ▸ hp) (le_of_lt hg)
    · exact le_refl 0

theorem optCost_wire_standard_mono (I : Inputs) {L1 L2 : ℚ} (h0 : 0 ≤ L1) (h12 : L1 ≤ L2)
    (hrw : 0 < get_roll_length I.stg I.ft.wire_material)
    (hrb : 0 < get_roll_length I.stg I.ft.barb_wire_material)
    (hp : 0 ≤ eff_price (ov I) I.ft.wire_material) :
    optCost (wire_standard_item (withLen I L1)) ≤ optCost (wire_standard_item (withLen I L2)) := by
  have htm := total_standard_wire_rolls_mono I h0 h12 hrw hrb
  by_cases hg1 : 0 < total_standard_wire_rolls (withLen I L1)
  · have hg2 := lt_of_lt_of_le hg1 htm
    unfold wire_standard_item
    simp only [ft_withLen, ov_withLen]
    cases hm : I.ft.wire_material with
    | none => exact le_refl 0
    | some wm =>
      dsimp only
      rw [if_pos hg1, if_pos hg2]
      show quantize_2 (eff_price (ov I) (some wm) * total_standard_wire_rolls (withLen I L1)) ≤
        quantize_2 (eff_price (ov I) (some wm) * total_standard_wire_rolls (withLen I L2))
      exact cost_term_mono (hm ▸ hp) htm
  · have h1 : optCost (wire_standard_item (withLen I L1)) = 0 := by
      unfold wire_standard_item
      simp only [ft_withLen, ov_withLen]
      cases hm : I.ft.wire_material with
      | none => rfl
      | some wm =>
        dsimp only
        rw [if_neg hg1]
        rfl
    rw [h1]
    exact optCost_wire_standard_nonneg I L2 hp

theorem optCost_wire_top_nonneg (I : Inputs) (L : ℚ)
    (hpw : 0 ≤ eff_price (ov I) I.ft.wire_material)
    (hpb : 0 ≤ eff_price (ov I) I.ft.barb_wire_material) :
    0 ≤ optCost (wire_top_item (withLen I L)) := by
  unfold wire_top_item
  split
  · rename_i hg
    cases hm : special_wire_material (withLen I L) with
    | none => exact le_refl 0
    | some sm =>
      show 0 ≤ quantize_2 (eff_price (ov (withLen I L)) (some sm) * special_wire_rolls (withLen I L))
      simp only [ov_withLen]
      exact cost_term_nonneg (special_mat_price_nonneg I L hpw hpb hm) (le_of_lt hg)
  · exact le_refl 0

theorem optCost_wire_top_mono (I : Inputs) {L1 L2 : ℚ} (h0 : 0 ≤ L1) (h12 : L1 ≤ L2)
    (hrw : 0 < get_roll_length I.stg I.ft.wire_material)
    (hrb : 0 < get_roll_length I.stg I.ft.barb_wire_material)
    (hpw : 0 ≤ eff_price (ov I) I.ft.wire_material)
    (hpb : 0 ≤ eff_price (ov I) I.ft.barb_wire_material) :
    optCost (wire_top_item (withLen I L1)) ≤ optCost (wire_top_item (withLen I L2)) := by
  have hswm := special_wire_rolls_mono I h0 h12 hrw hrb
  by_cases hg1 : 0 < special_wire_rolls (withLen I L1)
  · have hg2 := lt_of_lt_of_le hg1 hswm
    have hlen1 := special_len_pos_of_rolls_pos hg1
    have hsw := special_wires_pos_of_len_pos I h0 hlen1
    have hlen2 : 0 < special_wire_len_m (withLen I L2) :=
      lt_of_lt_of_le hlen1 (special_wire_len_m_mono I h12 hsw.le)
    have hmat : special_wire_material (withLen I L1) = special_wire_material (withLen I L2) := by
      unfold special_wire_material
      rw [wire_combined_eq I hlen1 hlen2, special_mat0_eq I hlen1 hlen2]
    unfold wire_top_item
    rw [if_pos hg1, if_pos hg2, ← hmat]
    cases hm : special_wire_material (withLen I L1) with
    | none => exact le_refl 0
    | some sm =>
      show quantize_2 (eff_price (ov (withLen I L1)) (some sm) * special_wire_rolls (withLen I L1)) ≤
        quantize_2 (eff_price (ov (withLen I L2)) (some sm) * special_wire_rolls (withLen I L2))
      simp only [ov_withLen]
      exact cost_term_mono (special_mat_price_nonneg I L1 hpw hpb hm) hswm
  · have h1 : optCost (wire_top_item (withLen I L1)) = 0 := by
      unfold wire_top_item
      rw [if_neg hg1]
      rfl
    rw [h1]
    exact optCost_wire_top_nonneg I L2 hpw hpb

theorem optCost_netting_nonneg (I : Inputs) (L : ℚ)
    (hpn : 0 ≤ eff_price (ov I) I.ft.netting_material) :
    0 ≤ optCost (netting_item (withLen I L)) := by
  unfold netting_item
  simp only [ft_withLen, ov_withLen]
  cases hm : I.ft.netting_material with
  | none => exact le_refl 0
  | some nm =>
    dsimp only
    split
    · rename_i hg
      show 0 ≤ quantize_2 (eff_price (ov I) (some nm) * netting_rolls_required (withLen I L))
      exact cost_term_nonneg (hm ▸ hpn) (le_of_lt hg)
    · exact le_refl 0

theorem optCost_netting_mono (I : Inputs) {L1 L2 : ℚ} (h12 : L1 ≤ L2)
    (hrn : ∀ nm, I.ft.netting_material = some nm → 0 < netting_roll_length nm)
    (hpn : 0 ≤ eff_price (ov I) I.ft.netting_material) :
    optCost (netting_item (withLen I L1)) ≤ optCost (netting_item (withLen I L2)) := by
  have hnm := netting_rolls_required_mono I h12 hrn
  by_cases hg1 : 0 < netting_rolls_required (withLen I L1)
  · have hg2 := lt_of_lt_of_le hg1 hnm
    unfold netting_item
    simp only [ft_withLen, ov_withLen]
    cases hm : I.ft.netting_material with
    | none => exact le_refl 0
    | some nm =>
      dsimp only
      rw [if_pos hg1, if_pos hg2]
      show quantize_2 (eff_price (ov I) (some nm) * netting_rolls_required (withLen I L1)) ≤
        quantize_2 (eff_price (ov I) (some nm) * netting_rolls_required (withLen I L2))
      exact cost_term_mono (hm ▸ hpn) hnm
  · have h1 : optCost (netting_item (withLen I L1)) = 0 := by
      unfold netting_item
      simp only [ft_withLen, ov_withLen]
      cases hm : I.ft.netting_material with
      | none => rfl
      | some nm =>
        dsimp only
        rw [if_neg hg1]
        rfl
    rw [h1]
    exact optCost_netting_nonneg I L2 hpn

theorem optCost_staples_nonneg (I : Inputs) (L : ℚ)
    (hps : 0 ≤ eff_price (ov I) I.cat.staples_mat)
    (hdp : 0 ≤ I.stg.STAPLES_DEFAULT_PRICE) :
    0 ≤ optCost (staples_item (withLen I L)) := by
  unfold staples_item
  simp only [cat_withLen, ov_withLen, stg_withLen]
  split
  · rename_i hg
    cases hm : I.cat.staples_mat with
    | some sm =>
      show 0 ≤ quantize_2 (eff_price (ov I) (some sm) * (boxes (withLen I L) : ℚ))
      apply cost_term_nonneg (hm ▸ hps)
      exact_mod_cast le_of_lt hg.2
    | none =>
      show 0 ≤ quantize_2 (I.stg.STAPLES_DEFAULT_PRICE * (boxes (withLen I L) : ℚ))
      apply cost_term_nonneg hdp
      exact_mod_cast le_of_lt hg.2
  · exact le_refl 0

theorem optCost_staples_mono (I : Inputs) {L1 L2 : ℚ} (hs : 0 < spacing I) (h12 : L1 ≤ L2)
    (hsl : 0 ≤ I.stg.STAPLES_PER_WIRE_PER_LINE_POST)
    (hse : 0 ≤ I.stg.STAPLES_PER_WIRE_PER_END_POST)
    (hsn : 0 ≤ I.stg.STAPLES_PER_POST_FOR_NETTING)
    (hps : 0 ≤ eff_price (ov I) I.cat.staples_mat)
    (hdp : 0 ≤ I.stg.STAPLES_DEFAULT_PRICE) :
    optCost (staples_item (withLen I L1)) ≤ optCost (staples_item (withLen I L2)) := by
  have hbm := boxes_mono I hs h12 hsl hse hsn
  by_cases hg1 : I.stg.STAPLES_ENABLED = true ∧ 0 < boxes (withLen I L1)
  · have hg2 : I.stg.STAPLES_ENABLED = true ∧ 0 < boxes (withLen I L2) :=
      ⟨hg1.1, lt_of_lt_of_le hg1.2 hbm⟩
    unfold staples_item
    simp only [cat_withLen, ov_withLen, stg_withLen]
    rw [if_pos hg1, if_pos hg2]
    cases hm : I.cat.staples_mat with
    | some sm =>
      show quantize_2 (eff_price (ov I) (some sm) * (boxes (withLen I L1) : ℚ)) ≤
        quantize_2 (eff_price (ov I) (some sm) * (boxes (withLen I L2) : ℚ))
      apply cost_term_mono (hm ▸ hps)
      exact_mod_cast hbm
    | none =>
      show quantize_2 (I.stg.STAPLES_DEFAULT_PRICE * (boxes (withLen I L1) : ℚ)) ≤
        quantize_2 (I.stg.STAPLES_DEFAULT_PRICE * (boxes (withLen I L2) : ℚ))
      apply cost_term_mono hdp
      exact_mod_cast hbm
  · have h1 : optCost (staples_item (withLen I L1)) = 0 := by
      unfold staples_item
      simp only [cat_withLen, ov_withLen, stg_withLen]
      rw [if_neg hg1]
      rfl
    rw [h1]
    exact optCost_staples_nonneg I L2 hps hdp

theorem optCost_bullnose_nonneg (I : Inputs) (L : ℚ)
    (hpb : 0 ≤ eff_price (ov I) I.cat.bullnose_mat) :
    0 ≤ optCost (bullnose_item (withLen I L)) := by
  unfold bullnose_item
  simp only [twt_withLen, cat_withLen, ov_withLen, num_hot_wires_withLen]
  split
  · cases hm : I.cat.bullnose_mat with
    | some bm =>
      dsimp only
      split
      · rename_i hq
        show 0 ≤ quantize_2 (eff_price (ov I) (some bm) * (bullnose_qty (withLen I L) : ℚ))
        apply cost_term_nonneg (hm ▸ hpb)
        exact_mod_cast le_of_lt hq
      · exact le_refl 0
    | none => exact le_refl 0
  · exact le_refl 0

theorem optCost_bullnose_mono (I : Inputs) {L1 L2 : ℚ} (hs : 0 < spacing I) (h12 : L1 ≤ L2)
    (hpb : 0 ≤ eff_price (ov I) I.cat.bullnose_mat) :
    optCost (bullnose_item (withLen I L1)) ≤ optCost (bullnose_item (withLen I L2)) := by
  by_cases hq1 : 0 < bullnose_qty (withLen I L1)
  · have hper1 := bullnose_per_wire_nonneg I L1
    have hnh : 0 < num_hot_wires I := by
      by_contra hc
      push_neg at hc
      have hle : bullnose_qty (withLen I L1) ≤ 0 := by
        unfold bullnose_qty
        rw [num_hot_wires_withLen]
        exact mul_nonpos_iff.mpr (Or.inl ⟨hper1, hc⟩)
      omega
    have hqm : bullnose_qty (withLen I L1) ≤ bullnose_qty (withLen I L2) := by
      unfold bullnose_qty
      rw [num_hot_wires_withLen, num_hot_wires_withLen]
      exact mul_le_mul_of_nonneg_right (bullnose_per_wire_mono I hs h12) hnh.le
    have hq2 := lt_of_lt_of_le hq1 hqm
    by_cases ht : twt I = "hot"
    · unfold bullnose_item
      simp only [twt_withLen, cat_withLen, ov_withLen, num_hot_wires_withLen]
      rw [if_pos ht, if_pos ht]
      cases hm : I.cat.bullnose_mat with
      | none => exact le_refl 0
      | some bm =>
        dsimp only
        rw [if_pos hq1, if_pos hq2]
        show quantize_2 (eff_price (ov I) (some bm) * (bullnose_qty (withLen I L1) : ℚ)) ≤
          quantize_2 (eff_price (ov I) (some bm) * (bullnose_qty (withLen I L2) : ℚ))
        apply cost_term_mono (hm ▸ hpb)
        exact_mod_cast hqm
    · unfold bullnose_item
      simp only [twt_withLen]
      rw [if_neg ht, if_neg ht]
  · have h1 : optCost (bullnose_item (withLen I L1)) = 0 := by
      unfold bullnose_item
      simp only [twt_withLen, cat_withLen, ov_withLen, num_hot_wires_withLen]
      split
      · cases hm : I.cat.bullnose_mat with
        | some bm => rfl
        | none => rfl
      · rfl
    rw [h1]
    exact optCost_bullnose_nonneg I L2 hpb

theorem optCost_claw_nonneg (I : Inputs) (L : ℚ)
    (hpc : 0 ≤ eff_price (ov I) I.cat.claw_mat) :
    0 ≤ optCost (claw_item (withLen I L)) := by
  unfold claw_item
  simp only [twt_withLen, cat_withLen, ov_withLen, num_hot_wires_withLen]
  split
  · cases hm : I.cat.claw_mat with
    | some cm =>
      dsimp only
      split
      · rename_i hq
        show 0 ≤ quantize_2 (eff_price (ov I) (some cm) * (claw_qty (withLen I L) : ℚ))
        apply cost_term_nonneg (hm ▸ hpc)
        exact_mod_cast le_of_lt hq
      · exact le_refl 0
    | none => exact le_refl 0
  · exact le_refl 0

theorem optCost_claw_mono (I : Inputs) {L1 L2 : ℚ} (hs : 0 < spacing I) (h12 : L1 ≤ L2)
    (hpc : 0 ≤ eff_price (ov I) I.cat.claw_mat) :
    optCost (claw_item (withLen I L1)) ≤ optCost (claw_item (withLen I L2)) := by
  by_cases hq1 : 0 < claw_qty (withLen I L1)
  · have hper1 := claw_per_wire_nonneg I L1
    have hnh : 0 < num_hot_wires I := by
      by_contra hc
      push_neg at hc
      have hle : claw_qty (withLen I L1) ≤ 0 := by
        unfold claw_qty
        rw [num_hot_wires_withLen]
        exact mul_nonpos_iff.mpr (Or.inl ⟨hper1, hc⟩)
      omega
    have hqm : claw_qty (withLen I L1) ≤ claw_qty (withLen I L2) := by
      unfold claw_qty
      rw [num_hot_wires_withLen, num_hot_wires_withLen]
      exact mul_le_mul_of_nonneg_right (claw_per_wire_mono I hs h12) hnh.le
    have hq2 := lt_of_lt_of_le hq1 hqm
    by_cases ht : twt I = "hot"
    · unfold claw_item
      simp only [twt_withLen, cat_withLen, ov_withLen, num_hot_wires_withLen]
      rw [if_pos ht, if_pos ht]
      cases hm : I.cat.claw_mat with
      | none => exact le_refl 0
      | some cm =>
        dsimp only
        rw [if_pos hq1, if_pos hq2]
        show quantize_2 (eff_price (ov I) (some cm) * (claw_qty (withLen I L1) : ℚ)) ≤
          quantize_2 (eff_price (ov I) (some cm) * (claw_qty (withLen I L2) : ℚ))
        apply cost_term_mono (hm ▸ hpc)
        exact_mod_cast hqm
    · unfold claw_item
      simp only [twt_withLen]
      rw [if_neg ht, if_neg ht]
  · have h1 : optCost (claw_item (withLen I L1)) = 0 := by
      unfold claw_item
      simp only [twt_withLen, cat_withLen, ov_withLen, num_hot_wires_withLen]
      split
      · cases hm : I.cat.claw_mat with
        | some cm => rfl
        | none => rfl
      · rfl
    rw [h1]
    exact optCost_claw_nonneg I L2 hpc

theorem optCost_strainers_nonneg (I : Inputs) {L : ℚ} (h0 : 0 ≤ L)
    (hpst : 0 ≤ eff_price (ov I) I.cat.strainer_mat) :
    0 ≤ optCost (strainers_item (withLen I L)) := by
  unfold strainers_item
  simp only [ft_withLen, cat_withLen, ov_withLen]
  split
  · cases hm : I.cat.strainer_mat with
    | some sm =>
      show 0 ≤ quantize_2 (eff_price (ov I) (some sm) *
        (total_recommended_strainers (withLen I L) : ℚ))
      apply cost_term_nonneg (hm ▸ hpst)
      exact_mod_cast total_recommended_strainers_nonneg I h0
    | none => exact le_refl 0
  · exact le_refl 0

theorem optCost_strainers_mono (I : Inputs) {L1 L2 : ℚ} (h0 : 0 ≤ L1) (h12 : L1 ≤ L2)
    (hpst : 0 ≤ eff_price (ov I) I.cat.strainer_mat) :
    optCost (strainers_item (withLen I L1)) ≤ optCost (strainers_item (withLen I L2)) := by
  unfold strainers_item
  simp only [ft_withLen, cat_withLen, ov_withLen]
  split
  · cases hm : I.cat.strainer_mat with
    | some sm =>
      show quantize_2 (eff_price (ov I) (some sm) *
          (total_recommended_strainers (withLen I L1) : ℚ)) ≤
        quantize_2 (eff_price (ov I) (some sm) *
          (total_recommended_strainers (withLen I L2) : ℚ))
      apply cost_term_mono (hm ▸ hpst)
      exact_mod_cast total_recommended_strainers_mono I h0 h12
    | none => exact le_refl 0
  · exact le_refl 0

theorem optCost_stay_posts_nonneg (I : Inputs) (L : ℚ)
    (hpsp : 0 ≤ eff_price (ov I) (stay_posts_mat I)) :
    0 ≤ optCost (stay_posts_item (withLen I L)) := by
  unfold stay_posts_item
  simp only [stay_posts_mat_withLen, withLen_len, ov_withLen]
  cases hm : stay_posts_mat I with
  | none => exact le_refl 0
  | some sm =>
    dsimp only
    split
    · show 0 ≤ quantize_2 (eff_price (ov I) (some sm) * (stay_posts_qty (withLen I L) : ℚ))
      apply cost_term_nonneg (hm ▸ hpsp)
      exact_mod_cast stay_posts_qty_nonneg I L
    · exact le_refl 0

theorem optCost_stay_posts_mono (I : Inputs) {L1 L2 : ℚ} (h0 : 0 ≤ L1) (h12 : L1 ≤ L2)
    (hpsp : 0 ≤ eff_price (ov I) (stay_posts_mat I)) :
    optCost (stay_posts_item (withLen I L1)) ≤ optCost (stay_posts_item (withLen I L2)) := by
  by_cases hL1 : 0 < L1
  · have hL2 : 0 < L2 := lt_of_lt_of_le hL1 h12
    unfold stay_posts_item
    simp only [stay_posts_mat_withLen, withLen_len, ov_withLen]
    cases hm : stay_posts_mat I with
    | none => exact le_refl 0
    | some sm =>
      dsimp only
      rw [if_pos hL1, if_pos hL2]
      show quantize_2 (eff_price (ov I) (some sm) * (stay_posts_qty (withLen I L1) : ℚ)) ≤
        quantize_2 (eff_price (ov I) (some sm) * (stay_posts_qty (withLen I L2) : ℚ))
      apply cost_term_mono (hm ▸ hpsp)
      exact_mod_cast stay_posts_qty_mono I h12
  · have h1 : optCost (stay_posts_item (withLen I L1)) = 0 := by
      unfold stay_posts_item
      simp only [stay_posts_mat_withLen, withLen_len, ov_withLen]
      cases hm : stay_posts_mat I with
      | none => rfl
      | some sm =>
        dsimp only
        rw [if_neg hL1]
        rfl
    rw [h1]
    exact optCost_stay_posts_nonneg I L2 hpsp

theorem optCost_triplex_nonneg (I : Inputs) (L : ℚ)
    (hpt : 0 ≤ eff_price (ov I) I.cat.triplex_mat) :
    0 ≤ optCost (triplex_item (withLen I L)) := by
  unfold triplex_item
  simp only [cat_withLen, withLen_len, ov_withLen]
  cases hm : I.cat.triplex_mat with
  | none => exact le_refl 0
  | some tm =>
    dsimp only
    split
    · rename_i hL
      show 0 ≤ quantize_2 (eff_price (ov I) (some tm) * (triplex_qty (withLen I L) : ℚ))
      apply cost_term_nonneg (hm ▸ hpt)
      exact_mod_cast triplex_qty_nonneg I (le_of_lt hL)
    · exact le_refl 0

theorem optCost_triplex_mono (I : Inputs) {L1 L2 : ℚ} (h12 : L1 ≤ L2)
    (hpt : 0 ≤ eff_price (ov I) I.cat.triplex_mat) :
    optCost (triplex_item (withLen I L1)) ≤ optCost (triplex_item (withLen I L2)) := by
  by_cases hL1 : 0 < L1
  · have hL2 : 0 < L2 := lt_of_lt_of_le hL1 h12
    unfold triplex_item
    simp only [cat_withLen, withLen_len, ov_withLen]
    cases hm : I.cat.triplex_mat with
    | none => exact le_refl 0
    | some tm =>
      dsimp only
      rw [if_pos hL1, if_pos hL2]
      show quantize_2 (eff_price (ov I) (some tm) * (triplex_qty (withLen I L1) : ℚ)) ≤
        quantize_2 (eff_price (ov I) (some tm) * (triplex_qty (withLen I L2) : ℚ))
      apply cost_term_mono (hm ▸ hpt)
      exact_mod_cast triplex_qty_mono I h12
  · have h1 : optCost (triplex_item (withLen I L1)) = 0 := by
      unfold triplex_item
      simp only [cat_withLen, withLen_len, ov_withLen]
      cases hm : I.cat.triplex_mat with
      | none => rfl
      | some tm =>
        dsimp only
        rw [if_neg hL1]
        rfl
    rw [h1]
    exact optCost_triplex_nonneg I L2 hpt

theorem labor_hours_nonneg (I : Inputs) {L : ℚ} (h0 : 0 ≤ L) (hbr : 0 < br I) :
    0 ≤ labor_hours (withLen I L) := by
  unfold labor_hours
  simp only [withLen_len, br_withLen]
  exact quantize_2_nonneg (div_nonneg h0 hbr.le)

theorem labor_hours_mono (I : Inputs) {L1 L2 : ℚ} (h12 : L1 ≤ L2) (hbr : 0 < br I) :
    labor_hours (withLen I L1) ≤ labor_hours (withLen I L2) := by
  unfold labor_hours
  simp only [withLen_len, br_withLen]
  apply quantize_2_mono
  rw [div_le_div_iff_of_pos_right hbr]
  exact h12

theorem labor_cost_mono (I : Inputs) {L1 L2 : ℚ} (h12 : L1 ≤ L2) (hbr : 0 < br I)
    (hlr : 0 ≤ lr I) :
    labor_cost (withLen I L1) ≤ labor_cost (withLen I L2) := by
  unfold labor_cost
  simp only [lr_withLen]
  apply quantize_2_mono
  exact mul_le_mul_of_nonneg_right (labor_hours_mono I h12 hbr) hlr

theorem total_material_cost_mono (I : Inputs) {L1 L2 : ℚ} (h0 : 0 ≤ L1) (h12 : L1 ≤ L2)
    (hs : 0 < spacing I)
    (hrw : 0 < get_roll_length I.stg I.ft.wire_material)
    (hrb : 0 < get_roll_length I.stg I.ft.barb_wire_material)
    (hrn : ∀ nm, I.ft.netting_material = some nm → 0 < netting_roll_length nm)
    (hsl : 0 ≤ I.stg.STAPLES_PER_WIRE_PER_LINE_POST)
    (hse : 0 ≤ I.stg.STAPLES_PER_WIRE_PER_END_POST)
    (hsn : 0 ≤ I.stg.STAPLES_PER_POST_FOR_NETTING)
    (hdp : 0 ≤ I.stg.STAPLES_DEFAULT_PRICE)
    (hq1 : 0 ≤ eff_price (ov I) I.ft.post_material)
    (hq2 : 0 ≤ eff_price (ov I) I.ft.wire_material)
    (hq3 : 0 ≤ eff_price (ov I) I.ft.barb_wire_material)
    (hq4 : 0 ≤ eff_price (ov I) I.ft.netting_material)
    (hq5 : 0 ≤ eff_price (ov I) I.cat.staples_mat)
    (hq6 : 0 ≤ eff_price (ov I) I.cat.bullnose_mat)
    (hq7 : 0 ≤ eff_price (ov I) I.cat.claw_mat)
    (hq8 : 0 ≤ eff_price (ov I) I.cat.strainer_mat)
    (hq9 : 0 ≤ eff_price (ov I) (stay_posts_mat I))
    (hq10 : 0 ≤ eff_price (ov I) I.cat.triplex_mat) :
    total_material_cost (withLen I L1) ≤ total_material_cost (withLen I L2) := by
  unfold total_material_cost
  apply quantize_2_mono
  rw [costSum_base, costSum_base]
  refine add_le_add (add_le_add (add_le_add (add_le_add (add_le_add (add_le_add (add_le_add
    (add_le_add (add_le_add ?_ ?_) ?_) ?_) ?_) ?_) ?_) ?_) ?_) ?_
  · exact optCost_posts_mono I hs h12 hq1
  · exact optCost_wire_standard_mono I h0 h12 hrw hrb hq2
  · exact optCost_wire_top_mono I h0 h12 hrw hrb hq2 hq3
  · exact optCost_netting_mono I h12 hrn hq4
  · exact optCost_staples_mono I hs h12 hsl hse hsn hq5 hdp
  · exact optCost_bullnose_mono I hs h12 hq6
  · exact optCost_claw_mono I hs h12 hq7
  · exact optCost_strainers_mono I h0 h12 hq8
  · exact optCost_stay_posts_mono I h0 h12 hq9
  · exact optCost_triplex_mono I h12 hq10

/-- C8: for two requests identical except for the fence length, with
0 ≤ L1 ≤ L2, positive effective post spacing and build rate, a
non-negative labor rate, positive resolved wire and barb roll lengths, a
positive netting roll length whenever a netting material is set,
non-negative configured staple counts and default staple price, and
non-negative resolved unit prices for every material role, the engine
returns a posts_required, wire_rolls_required and total_cost at L2 that
are each at least the corresponding value at L1. -/
theorem C8_monotone (I : Inputs) {L1 L2 : ℚ} (h0 : 0 ≤ L1) (h12 : L1 ≤ L2)
    (hs : 0 < spacing I) (hbr : 0 < br I) (hlr : 0 ≤ lr I)
    (hrw : 0 < get_roll_length I.stg I.ft.wire_material)
    (hrb : 0 < get_roll_length I.stg I.ft.barb_wire_material)
    (hrn : ∀ nm, I.ft.netting_material = some nm → 0 < netting_roll_length nm)
    (hsl : 0 ≤ I.stg.STAPLES_PER_WIRE_PER_LINE_POST)
    (hse : 0 ≤ I.stg.STAPLES_PER_WIRE_PER_END_POST)
    (hsn : 0 ≤ I.stg.STAPLES_PER_POST_FOR_NETTING)
    (hdp : 0 ≤ I.stg.STAPLES_DEFAULT_PRICE)
    (hq1 : 0 ≤ eff_price (ov I) I.ft.post_material)
    (hq2 : 0 ≤ eff_price (ov I) I.ft.wire_material)
    (hq3 : 0 ≤ eff_price (ov I) I.ft.barb_wire_material)
    (hq4 : 0 ≤ eff_price (ov I) I.ft.netting_material)
    (hq5 : 0 ≤ eff_price (ov I) I.cat.staples_mat)
    (hq6 : 0 ≤ eff_price (ov I) I.cat.bullnose_mat)
    (hq7 : 0 ≤ eff_price (ov I) I.cat.claw_mat)
    (hq8 : 0 ≤ eff_price (ov I) I.cat.strainer_mat)
    (hq9 : 0 ≤ eff_price (ov I) (stay_posts_mat I))
    (hq10 : 0 ≤ eff_price (ov I) I.cat.triplex_mat) :
    (calculate_fence_requirements (withLen I L1)).posts_required ≤
      (calculate_fence_requirements (withLen I L2)).posts_required ∧
    (calculate_fence_requirements (withLen I L1)).wire_rolls_required ≤
      (calculate_fence_requirements (withLen I L2)).wire_rolls_required ∧
    (calculate_fence_requirements (withLen I L1)).total_cost ≤
      (calculate_fence_requirements (withLen I L2)).total_cost := by
  refine ⟨posts_required_mono I hs h12, wire_rolls_required_mono I h0 h12 hrw hrb, ?_⟩
  show total_cost (withLen I L1) ≤ total_cost (withLen I L2)
  unfold total_cost
  apply quantize_2_mono
  exact add_le_add
    (total_material_cost_mono I h0 h12 hs hrw hrb hrn hsl hse hsn hdp
      hq1 hq2 hq3 hq4 hq5 hq6 hq7 hq8 hq9 hq10)
    (labor_cost_mono I h12 hbr hlr)

/-- Witness for C8: on the 2-wire electric fence scenario, growing the
length from 50 m to 130 m does not decrease posts, wire rolls or the
total cost. -/
theorem C8_witness :
    (calculate_fence_requirements (withLen I6pos 50)).posts_required ≤
      (calculate_fence_requirements (withLen I6pos 130)).posts_required ∧
    (calculate_fence_requirements (withLen I6pos 50)).wire_rolls_required ≤
      (calculate_fence_requirements (withLen I6pos 130)).wire_rolls_required ∧
    (calculate_fence_requirements (withLen I6pos 50)).total_cost ≤
      (calculate_fence_requirements (withLen I6pos 130)).total_cost :=
  C8_monotone I6pos (by norm_num) (by norm_num)
    (by with_unfolding_all decide) (by with_unfolding_all decide)
    (by with_unfolding_all decide) (by with_unfolding_all decide)
    (by with_unfolding_all decide)
    (fun nm hnm => Option.noConfusion hnm)
    (by with_unfolding_all decide) (by with_unfolding_all decide)
    (by with_unfolding_all decide) (by with_unfolding_all decide)
    (by with_unfolding_all decide) (by with_unfolding_all decide)
    (by with_unfolding_all decide) (by with_unfolding_all decide)
    (by with_unfolding_all decide) (by with_unfolding_all decide)
    (by with_unfolding_all decide) (by with_unfolding_all decide)
    (by with_unfolding_all decide) (by with_unfolding_all decide)

end FencePlanner
